import Mathlib

/-!
# hbrKinematicCharacterController: a verification development

A shallow embedding of `src/extension/hbrKinematicCharacterController.{h,cpp}`.

* `btScalar` is embedded as `ℚ`: sums, products and quotients are exact and unbounded, so the
  rounding and the overflow of `float` are not in the model. Only the square root, which is a
  parameter, may be inexact.
* The functions of Bullet's LinearMath that are not rational (`btSqrt`, `btSin`, `btCos`,
  `btPow`) and the constant `SIMD_EPSILON` are parameters, collected in `LinearMath`.
* The collision engine is an oracle (`World`): it answers every sweep query with the sequence
  of results it hands to the callback, and every broadphase refresh with the overlapping pairs.
* C++ pointers to collision objects are embedded as the objects themselves; pointer equality is
  equality of the `id` field.
-/

namespace Hbr

/-! ## LinearMath -/

/-- The scalar type `btScalar`, in exact arithmetic. -/
abbrev Scalar := ℚ

/-- The class `btVector3`. -/
@[ext]
structure Vec3 where
  x : Scalar
  y : Scalar
  z : Scalar
deriving DecidableEq, Repr

/-- The class `btQuaternion`. -/
@[ext]
structure Quat where
  x : Scalar
  y : Scalar
  z : Scalar
  w : Scalar
deriving DecidableEq, Repr

/-- The non-rational part of Bullet's LinearMath, which the controller calls but does not define. -/
structure LinearMath where
  btSqrt : Scalar → Scalar
  btSin : Scalar → Scalar
  btCos : Scalar → Scalar
  btPow : Scalar → Scalar → Scalar
  SIMD_EPSILON : Scalar
  /-- The constant `SIMD_RADS_PER_DEG`, by which `btRadians` multiplies. -/
  SIMD_RADS_PER_DEG : Scalar
  /-- The function `shortestArcQuat(v0, v1)`, which `shortestArcQuatNormalize2` calls on its two
  arguments after it has normalised them. -/
  shortestArcQuat : Vec3 → Vec3 → Quat
  /-- The value of a `btQuaternion` that the default constructor built, which assigns nothing. -/
  btQuaternion_default : Quat

/-- The function `btMax(a, b)`: `a > b ? a : b`. -/
def btMax (a b : Scalar) : Scalar := if a > b then a else b

/-- The function `btClamped(a, lb, ub)`: `a < lb ? lb : (ub < a ? ub : a)`. -/
def btClamped (a lb ub : Scalar) : Scalar := if a < lb then lb else if ub < a then ub else a

namespace Vec3

/-- The vector `btVector3(0, 0, 0)`. -/
def zero : Vec3 := ⟨0, 0, 0⟩

/-- The sum `a + b`. -/
def add (a b : Vec3) : Vec3 := ⟨a.x + b.x, a.y + b.y, a.z + b.z⟩

/-- The difference `a - b`. -/
def sub (a b : Vec3) : Vec3 := ⟨a.x - b.x, a.y - b.y, a.z - b.z⟩

/-- The negation `-a`. -/
def neg (a : Vec3) : Vec3 := ⟨-a.x, -a.y, -a.z⟩

/-- The product `a * s` of a vector and a scalar. -/
def scale (a : Vec3) (s : Scalar) : Vec3 := ⟨a.x * s, a.y * s, a.z * s⟩

/-- The quotient `a / s`, which Bullet computes as `a * (1 / s)`. -/
def divScalar (a : Vec3) (s : Scalar) : Vec3 := a.scale (1 / s)

/-- The product `a * b` of two vectors, which is taken component by component. -/
def mulComp (a b : Vec3) : Vec3 := ⟨a.x * b.x, a.y * b.y, a.z * b.z⟩

/-- The method `dot`. -/
def dot (a b : Vec3) : Scalar := a.x * b.x + a.y * b.y + a.z * b.z

/-- The method `cross`. -/
def cross (a b : Vec3) : Vec3 :=
  ⟨a.y * b.z - a.z * b.y, a.z * b.x - a.x * b.z, a.x * b.y - a.y * b.x⟩

/-- The method `length2`. -/
def length2 (a : Vec3) : Scalar := a.dot a

/-- The method `length`: `btSqrt(length2())`. -/
def length (M : LinearMath) (a : Vec3) : Scalar := M.btSqrt a.length2

/-- The methods `normalized` and `normalize`: `*this / length()`. -/
def normalized (M : LinearMath) (a : Vec3) : Vec3 := a.divScalar (a.length M)

/-- The method `setY`. -/
def setY (a : Vec3) (s : Scalar) : Vec3 := { a with y := s }

/-- The method `setInterpolate3(v0, v1, rt)`: `v0 * (1 - rt) + v1 * rt`, component by component. -/
def setInterpolate3 (v0 v1 : Vec3) (rt : Scalar) : Vec3 :=
  ⟨(1 - rt) * v0.x + rt * v1.x, (1 - rt) * v0.y + rt * v1.y, (1 - rt) * v0.z + rt * v1.z⟩

end Vec3

namespace Quat

/-- The quaternion `btQuaternion::getIdentity()`. -/
def identity : Quat := ⟨0, 0, 0, 1⟩

/-- The constructor `btQuaternion(axis, angle)`. -/
def ofAxisAngle (M : LinearMath) (axis : Vec3) (angle : Scalar) : Quat :=
  let d := axis.length M
  let s := M.btSin (angle * (1 / 2)) / d
  ⟨axis.x * s, axis.y * s, axis.z * s, M.btCos (angle * (1 / 2))⟩

/-- The method `inverse`: `btQuaternion(-x, -y, -z, w)`. -/
def inverse (q : Quat) : Quat := ⟨-q.x, -q.y, -q.z, q.w⟩

/-- The product `q1 * q2` of two quaternions. -/
def mul (q1 q2 : Quat) : Quat :=
  ⟨q1.w * q2.x + q1.x * q2.w + q1.y * q2.z - q1.z * q2.y,
   q1.w * q2.y + q1.y * q2.w + q1.z * q2.x - q1.x * q2.z,
   q1.w * q2.z + q1.z * q2.w + q1.x * q2.y - q1.y * q2.x,
   q1.w * q2.w - q1.x * q2.x - q1.y * q2.y - q1.z * q2.z⟩

end Quat

/-- The class `btTransform`. The basis is kept as the quaternion that `setRotation` stored, so
that `getRotation` returns what `setRotation` was given. -/
@[ext]
structure Transform where
  rotation : Quat
  origin : Vec3
deriving DecidableEq, Repr

namespace Transform

/-- The result of `setIdentity`. -/
def identity : Transform := ⟨Quat.identity, Vec3.zero⟩

/-- The product `getBasis() * v`, the basis being `btMatrix3x3::setRotation` of the stored
quaternion. -/
def basisMul (t : Transform) (v : Vec3) : Vec3 :=
  let q := t.rotation
  let d := q.x * q.x + q.y * q.y + q.z * q.z + q.w * q.w
  let s := 2 / d
  let xs := q.x * s
  let ys := q.y * s
  let zs := q.z * s
  let wx := q.w * xs
  let wy := q.w * ys
  let wz := q.w * zs
  let xx := q.x * xs
  let xy := q.x * ys
  let xz := q.x * zs
  let yy := q.y * ys
  let yz := q.y * zs
  let zz := q.z * zs
  ⟨Vec3.dot ⟨1 - (yy + zz), xy - wz, xz + wy⟩ v,
   Vec3.dot ⟨xy + wz, 1 - (xx + zz), yz - wx⟩ v,
   Vec3.dot ⟨xz - wy, yz + wx, 1 - (xx + yy)⟩ v⟩

/-- The comparison `t1 == t2` of two transforms: equal bases and equal origins. -/
def same (t1 t2 : Transform) : Bool :=
  decide (t1.basisMul ⟨1, 0, 0⟩ = t2.basisMul ⟨1, 0, 0⟩) &&
  decide (t1.basisMul ⟨0, 1, 0⟩ = t2.basisMul ⟨0, 1, 0⟩) &&
  decide (t1.basisMul ⟨0, 0, 1⟩ = t2.basisMul ⟨0, 0, 1⟩) &&
  decide (t1.origin = t2.origin)

end Transform

/-! ## Collision objects and the result callback of the sweeps -/

/-- The class `btCollisionObject`, as far as the controller reads it. -/
structure CollisionObject where
  /-- The address of the object: two pointers are equal when the ids are. -/
  id : Nat
  /-- The value of `hasContactResponse()`. -/
  contactResponse : Bool
  /-- The field `getBroadphaseHandle()->m_collisionFilterGroup`. -/
  m_collisionFilterGroup : Int
  /-- The field `getBroadphaseHandle()->m_collisionFilterMask`. -/
  m_collisionFilterMask : Int
  /-- The value of `getWorldTransform()`. -/
  worldTransform : Transform
  /-- The value of `getInterpolationLinearVelocity()`. -/
  interpolationLinearVelocity : Vec3
  /-- The value of `getInterpolationAngularVelocity()`. -/
  interpolationAngularVelocity : Vec3
  /-- The value of `isStaticOrKinematicObject()`. -/
  staticOrKinematic : Bool
  /-- Whether `btGhostObject::upcast` succeeds. -/
  isGhostObject : Bool
  /-- Whether `btRigidBody::upcast` succeeds. -/
  isRigidBody : Bool
deriving DecidableEq, Repr

/-- The struct `btCollisionWorld::LocalConvexResult`. -/
structure LocalConvexResult where
  m_hitCollisionObject : CollisionObject
  m_hitNormalLocal : Vec3
  m_hitPointLocal : Vec3
  m_hitFraction : Scalar
deriving DecidableEq, Repr

/-- The class `btKinematicClosestNotMeConvexResultCallback`, with the members it inherits from
`btCollisionWorld::ClosestConvexResultCallback`. The vectors that the constructor leaves
uninitialised start as zero. -/
structure ConvexResultCallback where
  m_me : Nat
  m_up : Vec3
  m_minSlopeDot : Scalar
  m_collisionFilterGroup : Int
  m_collisionFilterMask : Int
  m_closestHitFraction : Scalar
  m_hitCollisionObject : Option CollisionObject
  m_hitNormalWorld : Vec3
  m_hitPointWorld : Vec3
deriving DecidableEq, Repr

namespace ConvexResultCallback

/-- The constructor `btKinematicClosestNotMeConvexResultCallback(me, up, minSlopeDot)`, followed by
the two assignments of the filter group and mask that every call site makes. -/
def create (me : CollisionObject) (up : Vec3) (minSlopeDot : Scalar) : ConvexResultCallback :=
  { m_me := me.id
    m_up := up
    m_minSlopeDot := minSlopeDot
    m_collisionFilterGroup := me.m_collisionFilterGroup
    m_collisionFilterMask := me.m_collisionFilterMask
    m_closestHitFraction := 1
    m_hitCollisionObject := none
    m_hitNormalWorld := Vec3.zero
    m_hitPointWorld := Vec3.zero }

/-- Modelled from the spec: the method `hasHit()` that the callback inherits from
`btCollisionWorld::ConvexResultCallback` of the collision engine, which is not among the sources:
`m_closestHitFraction < btScalar(1.)`. A sweep "returns the earliest blocking hit with its surface
normal and hit fraction"; a callback whose closest fraction is still 1 has met nothing on the
path. -/
def hasHit (cb : ConvexResultCallback) : Bool := decide (cb.m_closestHitFraction < 1)

/-- The normal of a result in world space, as both callbacks compute it. -/
def hitNormalWorld (convexResult : LocalConvexResult) (normalInWorldSpace : Bool) : Vec3 :=
  if normalInWorldSpace then convexResult.m_hitNormalLocal
  else convexResult.m_hitCollisionObject.worldTransform.basisMul convexResult.m_hitNormalLocal

/-- Modelled from the spec: `btCollisionWorld::ClosestConvexResultCallback::addSingleResult` of
the collision engine, which is not among the sources. It records the result as the hit of the
sweep: "the earliest blocking hit with its surface normal and hit fraction". -/
def baseAddSingleResult (cb : ConvexResultCallback) (convexResult : LocalConvexResult)
    (normalInWorldSpace : Bool) : Scalar × ConvexResultCallback :=
  (convexResult.m_hitFraction,
   { cb with
     m_closestHitFraction := convexResult.m_hitFraction
     m_hitCollisionObject := some convexResult.m_hitCollisionObject
     m_hitNormalWorld := hitNormalWorld convexResult normalInWorldSpace
     m_hitPointWorld := convexResult.m_hitPointLocal })

/-- The method `btKinematicClosestNotMeConvexResultCallback::addSingleResult`. It returns the
returned fraction and the callback after the call. -/
def addSingleResult (cb : ConvexResultCallback) (convexResult : LocalConvexResult)
    (normalInWorldSpace : Bool) : Scalar × ConvexResultCallback :=
  if convexResult.m_hitCollisionObject.id = cb.m_me then (1, cb)
  else if !convexResult.m_hitCollisionObject.contactResponse then (1, cb)
  else
    let dotUp := cb.m_up.dot (hitNormalWorld convexResult normalInWorldSpace)
    if dotUp < cb.m_minSlopeDot then (1, cb)
    else baseAddSingleResult cb convexResult normalInWorldSpace

/-- Modelled from the spec: the collision engine's `convexSweepTest`, which is not among the
sources. It hands the results it finds to the callback one after the other. -/
def convexSweepTest (cb : ConvexResultCallback) (results : List (LocalConvexResult × Bool)) :
    ConvexResultCallback :=
  results.foldl (fun acc r => (addSingleResult acc r.1 r.2).2) cb

end ConvexResultCallback

/-- The method `hbrKinematicCharacterController::needsCollision`. -/
def needsCollision (body0 body1 : CollisionObject) : Bool :=
  let collides := decide (Int.land body0.m_collisionFilterGroup body1.m_collisionFilterMask ≠ 0)
  collides && decide (Int.land body1.m_collisionFilterGroup body0.m_collisionFilterMask ≠ 0)

/-! ## Contact data of the overlapping pairs -/

/-- The class `btManifoldPoint`, as far as the controller reads it. -/
structure ManifoldPoint where
  /-- The value of `getDistance()`. -/
  distance : Scalar
  m_normalWorldOnB : Vec3
  /-- The value of `getPositionWorldOnB()`. -/
  positionWorldOnB : Vec3
  m_localPointA : Vec3
  m_localPointB : Vec3
deriving DecidableEq, Repr

/-- The class `btPersistentManifold`: its two bodies and its contact points. -/
structure PersistentManifold where
  body0 : CollisionObject
  body1 : CollisionObject
  contacts : List ManifoldPoint
deriving DecidableEq, Repr

/-- The struct `btBroadphasePair`: the client objects of its two proxies, and the manifolds of its
collision algorithm (`none` when `m_algorithm` is null). -/
structure BroadphasePair where
  obj0 : CollisionObject
  obj1 : CollisionObject
  m_algorithm : Option (List PersistentManifold)
deriving DecidableEq, Repr

/-- The collision engine, as the controller queries it. The first argument of every query is the
number of queries of that kind made before it, so that the answers may differ from call to
call. -/
structure World where
  /-- The results that `m_ghostObject->convexSweepTest` hands to the callback, given the margin
  of the convex shape and the start and end transforms. -/
  ghostSweep : Nat → Scalar → Transform → Transform → List (LocalConvexResult × Bool)
  /-- The results that `collisionWorld->convexSweepTest` hands to the callback. -/
  worldSweep : Nat → Scalar → Transform → Transform → List (LocalConvexResult × Bool)
  /-- The overlapping pair array of the ghost object after `setAabb` and
  `dispatchAllCollisionPairs`, given the world transform of the ghost object. -/
  overlappingPairs : Nat → Transform → List BroadphasePair
  /-- The result of `getPairCache()->findPair` for a pair of the ghost object. -/
  findPair : BroadphasePair → Option BroadphasePair

/-! ## The controller -/

/-- The class `hbrKinematicCharacterController`. The ghost object and the margin of the convex
shape, which the controller reaches through pointers, are part of the state. The last three
fields are not members of the class: they record the queries and the forces that the controller
sends to the collision engine. -/
structure Controller where
  m_ghostObject : CollisionObject
  /-- The overlapping pair array of `m_ghostObject->getOverlappingPairCache()`. -/
  ghostPairs : List BroadphasePair
  /-- The value of `m_convexShape->getMargin()`. -/
  shapeMargin : Scalar
  m_maxPenetrationDepth : Scalar
  m_verticalVelocity : Scalar
  m_verticalOffset : Scalar
  m_fallSpeed : Scalar
  m_jumpSpeed : Scalar
  m_SetjumpSpeed : Scalar
  m_maxJumpHeight : Scalar
  m_jumpOffset : Scalar
  m_deAccelerationMultiplier : Scalar
  m_maxSlopeRadians : Scalar
  m_maxSlopeCosine : Scalar
  m_gravity : Scalar
  m_turnAngle : Scalar
  m_stepHeight : Scalar
  m_addedMargin : Scalar
  m_walkDirection : Vec3
  m_normalizedDirection : Vec3
  m_AngVel : Vec3
  m_localVelocity : Vec3
  m_externalVelocity : Vec3
  m_velocity : Vec3
  m_moveOffset : Vec3
  m_acceleration : Vec3
  m_walkMaxSpeed : Scalar
  m_runMaxSpeed : Scalar
  m_airMaxSpeed : Scalar
  m_flyMaxSpeed : Scalar
  m_walkAcceleration : Scalar
  m_runAcceleration : Scalar
  m_airAcceleration : Scalar
  m_flyAcceleration : Scalar
  m_friction : Scalar
  m_drag : Scalar
  m_currentSpeed : Scalar
  m_speedModifier : Scalar
  m_isAirWalking : Bool
  m_onGround : Bool
  m_jumpPosition : Vec3
  m_currentPosition : Vec3
  m_currentStepOffset : Scalar
  m_targetPosition : Vec3
  m_currentOrientation : Quat
  m_targetOrientation : Quat
  m_touchingContact : Bool
  m_linearDamping : Scalar
  m_angularDamping : Scalar
  m_wasOnGround : Bool
  m_wasJumping : Bool
  m_useGhostObjectSweepTest : Bool
  m_useWalkDirection : Bool
  m_velocityTimeInterval : Scalar
  m_up : Vec3
  m_jumpAxis : Vec3
  m_interpolateUp : Bool
  full_drop : Bool
  bounce_fix : Bool
  /-- The number of sweep queries sent so far. -/
  numSweepQueries : Nat
  /-- The number of calls of `recoverFromPenetration` so far. -/
  numRecoverCalls : Nat
  /-- The calls of `applyForce` so far, latest first: body id, force, local point. -/
  appliedForces : List (Nat × Vec3 × Vec3)

namespace Controller

/-- The statement `m_ghostObject->setWorldTransform(xform)`. -/
def setGhostTransform (c : Controller) (xform : Transform) : Controller :=
  { c with m_ghostObject := { c.m_ghostObject with worldTransform := xform } }

/-- The condition `callback.hasHit() && m_ghostObject->hasContactResponse() &&
needsCollision(m_ghostObject, callback.m_hitCollisionObject)`. A callback lowers its closest
fraction and records the object in the same call of `addSingleResult`, so a callback that a sweep
has filled holds an object whenever `hasHit()` is true; for a null pointer, which `needsCollision`
would dereference, the value is false. -/
def hitNeedsCollision (c : Controller) (callback : ConvexResultCallback) : Bool :=
  if callback.hasHit && c.m_ghostObject.contactResponse then
    match callback.m_hitCollisionObject with
    | some obj => needsCollision c.m_ghostObject obj
    | none => false
  else false

/-- A sweep query `convexSweepTest(m_convexShape, start, end, callback, ...)`, sent to the ghost
object when `useGhost` is set and to the collision world otherwise. -/
def sweep (w : World) (c : Controller) (useGhost : Bool) (start end_ : Transform)
    (callback : ConvexResultCallback) : ConvexResultCallback × Controller :=
  have results :=
    if useGhost then w.ghostSweep c.numSweepQueries c.shapeMargin start end_
    else w.worldSweep c.numSweepQueries c.shapeMargin start end_
  (callback.convexSweepTest results, { c with numSweepQueries := c.numSweepQueries + 1 })

end Controller

/-! ### Penetration recovery -/

/-- The body of the innermost loop of `recoverFromPenetration`, for one contact point. -/
def recoverFromPenetration.point (maxPenetrationDepth directionSign : Scalar)
    (acc : Vec3 × Bool) (pt : ManifoldPoint) : Vec3 × Bool :=
  have dist := pt.distance
  if dist < -maxPenetrationDepth then
    (acc.1.add (((pt.m_normalWorldOnB.scale directionSign).scale dist).scale (2 / 10)), true)
  else acc

/-- The body of the loop of `recoverFromPenetration` over the manifolds, for one manifold. -/
def recoverFromPenetration.manifold (ghostId : Nat) (maxPenetrationDepth : Scalar)
    (acc : Vec3 × Bool) (manifold : PersistentManifold) : Vec3 × Bool :=
  have directionSign : Scalar := if manifold.body0.id = ghostId then -1 else 1
  manifold.contacts.foldl (recoverFromPenetration.point maxPenetrationDepth directionSign) acc

/-- The body of the loop of `recoverFromPenetration` over the overlapping pairs, for one pair. -/
def recoverFromPenetration.pair (ghost : CollisionObject) (maxPenetrationDepth : Scalar)
    (acc : Vec3 × Bool) (collisionPair : BroadphasePair) : Vec3 × Bool :=
  if !collisionPair.obj0.contactResponse || !collisionPair.obj1.contactResponse then acc
  else if !needsCollision collisionPair.obj0 collisionPair.obj1 then acc
  else
    have m_manifoldArray := match collisionPair.m_algorithm with
      | some manifolds => manifolds
      | none => []
    m_manifoldArray.foldl (recoverFromPenetration.manifold ghost.id maxPenetrationDepth) acc

/-- The method `hbrKinematicCharacterController::recoverFromPenetration`. -/
def recoverFromPenetration (w : World) (c : Controller) : Bool × Controller :=
  have pairs := w.overlappingPairs c.numRecoverCalls c.m_ghostObject.worldTransform
  have c := { c with ghostPairs := pairs, numRecoverCalls := c.numRecoverCalls + 1 }
  have c := { c with m_currentPosition := c.m_ghostObject.worldTransform.origin }
  have r := c.ghostPairs.foldl
    (recoverFromPenetration.pair c.m_ghostObject c.m_maxPenetrationDepth)
    (c.m_currentPosition, false)
  have c := { c with m_currentPosition := r.1 }
  have newTrans : Transform := { c.m_ghostObject.worldTransform with origin := c.m_currentPosition }
  (r.2, c.setGhostTransform newTrans)

/-- The loop `while (recoverFromPenetration(world)) { numPenetrationLoops++; m_touchingContact =
true; if (numPenetrationLoops > 4) break; }`, which `stepUp` and `playerStep` both contain,
entered with the given value of `numPenetrationLoops`. -/
def penetrationLoop (w : World) (c : Controller) (numPenetrationLoops : Nat) : Controller :=
  have r := recoverFromPenetration w c
  if r.1 then
    have c := { r.2 with m_touchingContact := true }
    if numPenetrationLoops + 1 > 4 then c
    else penetrationLoop w c (numPenetrationLoops + 1)
  else r.2
termination_by 5 - numPenetrationLoops
decreasing_by omega

/-- The statements `int numPenetrationLoops = 0; m_touchingContact = false;` and the loop that
follows them. -/
def recoverLoop (w : World) (c : Controller) : Controller :=
  penetrationLoop w { c with m_touchingContact := false } 0

/-! ### The three phases of a step -/

/-- The result callback that `stepUp` builds for its sweep:
`btKinematicClosestNotMeConvexResultCallback callback(m_ghostObject, -m_up, m_maxSlopeCosine)`. -/
def stepUp.callback (c : Controller) : ConvexResultCallback :=
  ConvexResultCallback.create c.m_ghostObject c.m_up.neg c.m_maxSlopeCosine

/-- The method `hbrKinematicCharacterController::stepUp`. -/
def stepUp (w : World) (c : Controller) : Controller :=
  have stepHeight : Scalar := if c.m_verticalVelocity < 0 then c.m_stepHeight else 0
  have start : Transform := ⟨c.m_currentOrientation, c.m_currentPosition⟩
  have c := { c with m_targetPosition := c.m_currentPosition.add (c.m_up.scale stepHeight) }
  have end_ : Transform := ⟨c.m_targetOrientation, c.m_targetPosition⟩
  have callback := stepUp.callback c
  have r := c.sweep w c.m_useGhostObjectSweepTest start end_ callback
  have callback := r.1
  have c := r.2
  if c.hitNeedsCollision callback then
    have c : Controller :=
      if callback.m_hitNormalWorld.dot c.m_up > 0 then
        have c := { c with m_currentStepOffset := stepHeight * callback.m_closestHitFraction }
        if c.m_interpolateUp = true then
          { c with m_currentPosition :=
              (Vec3.setInterpolate3 c.m_currentPosition c.m_targetPosition
                callback.m_closestHitFraction) }
        else { c with m_currentPosition := c.m_targetPosition }
      else c
    have c := c.setGhostTransform { c.m_ghostObject.worldTransform with origin := c.m_currentPosition }
    have c := recoverLoop w c
    have c := { c with m_targetPosition := c.m_ghostObject.worldTransform.origin }
    have c := { c with m_currentPosition := c.m_targetPosition }
    if c.m_verticalOffset > 0 then
      { c with
        m_verticalOffset := 0
        m_verticalVelocity := 0
        m_localVelocity := c.m_localVelocity.setY 0
        m_currentStepOffset := c.m_stepHeight }
    else c
  else
    { c with m_currentStepOffset := stepHeight, m_currentPosition := c.m_targetPosition }

/-- The method `hbrKinematicCharacterController::computeReflectionDirection`. -/
def computeReflectionDirection (direction normal : Vec3) : Vec3 :=
  direction.sub (normal.scale (2 * direction.dot normal))

/-- The method `hbrKinematicCharacterController::parallelComponent`. -/
def parallelComponent (direction normal : Vec3) : Vec3 :=
  have magnitude := direction.dot normal
  normal.scale magnitude

/-- The method `hbrKinematicCharacterController::perpindicularComponent`. -/
def perpindicularComponent (direction normal : Vec3) : Vec3 :=
  direction.sub (parallelComponent direction normal)

/-- The method `hbrKinematicCharacterController::updateTargetPositionBasedOnCollision`; the
header gives `tangentMag` the default 0 and `normalMag` the default 1. -/
def updateTargetPositionBasedOnCollision (M : LinearMath) (c : Controller) (hitNormal : Vec3)
    (tangentMag : Scalar) (normalMag : Scalar) : Controller :=
  have movementDirection := c.m_targetPosition.sub c.m_currentPosition
  have movementLength := movementDirection.length M
  if movementLength > M.SIMD_EPSILON then
    have movementDirection := movementDirection.normalized M
    have reflectDir := computeReflectionDirection movementDirection hitNormal
    have reflectDir := reflectDir.normalized M
    have parallelDir := parallelComponent reflectDir hitNormal
    have perpindicularDir := perpindicularComponent reflectDir hitNormal
    have c := { c with m_targetPosition := c.m_currentPosition }
    have c : Controller :=
      if false then
        have parComponent := parallelDir.scale (tangentMag * movementLength)
        { c with m_targetPosition := c.m_targetPosition.add parComponent }
      else c
    if normalMag ≠ 0 then
      have perpComponent := perpindicularDir.scale (normalMag * movementLength)
      { c with m_targetPosition := c.m_targetPosition.add perpComponent }
    else c
  else c

/-- The local variables of the loop of `stepForwardAndStrafe`, with the controller; `iterations`
counts the executions of the loop body. -/
structure ForwardState where
  c : Controller
  fraction : Scalar
  updatePosition : Bool
  iterations : Nat

/-- One execution of the body of the loop of `stepForwardAndStrafe`. The Boolean tells whether
the body left the loop through `break`. -/
def stepForwardAndStrafe.body (M : LinearMath) (w : World) (s : ForwardState) :
    Bool × ForwardState :=
  have c := s.c
  have start : Transform := ⟨c.m_currentOrientation, c.m_currentPosition⟩
  have end_ : Transform := ⟨c.m_targetOrientation, c.m_targetPosition⟩
  have sweepDirNegative := c.m_currentPosition.sub c.m_targetPosition
  have callback := ConvexResultCallback.create c.m_ghostObject sweepDirNegative 0
  have margin := c.shapeMargin
  have c := { c with shapeMargin := margin + c.m_addedMargin }
  have r :=
    if !(start.same end_) then c.sweep w c.m_useGhostObjectSweepTest start end_ callback
    else (callback, c)
  have callback := r.1
  have c := { r.2 with shapeMargin := margin }
  have fraction := s.fraction - callback.m_closestHitFraction
  have updatePosition := true
  have iterations := s.iterations + 1
  if c.hitNeedsCollision callback then
    have c := updateTargetPositionBasedOnCollision M c callback.m_hitNormalWorld 0 1
    have currentDir := c.m_targetPosition.sub c.m_currentPosition
    have distance2 := currentDir.length2
    if distance2 > M.SIMD_EPSILON then
      have currentDir := currentDir.normalized M
      if currentDir.dot c.m_normalizedDirection ≤ 0 then
        (true, ⟨c, fraction, updatePosition, iterations⟩)
      else (false, ⟨c, fraction, updatePosition, iterations⟩)
    else (true, ⟨c, fraction, updatePosition, iterations⟩)
  else
    (false, ⟨{ c with m_currentPosition := c.m_targetPosition }, fraction, updatePosition,
      iterations⟩)

/-- The loop `while (fraction > btScalar(0.01) && maxIter-- > 0)` of `stepForwardAndStrafe`,
entered with the given value of `maxIter`. -/
def stepForwardAndStrafe.loop (M : LinearMath) (w : World) : Nat → ForwardState → ForwardState
  | 0, s => s
  | maxIter + 1, s =>
    if s.fraction > 1 / 100 then
      have r := stepForwardAndStrafe.body M w s
      if r.1 then r.2 else stepForwardAndStrafe.loop M w maxIter r.2
    else s

/-- The method `hbrKinematicCharacterController::stepForwardAndStrafe`, with the state of its
loop at the exit. -/
def stepForwardAndStrafe.run (M : LinearMath) (w : World) (c : Controller) (walkMove : Vec3) :
    ForwardState :=
  have c := { c with m_targetPosition := c.m_currentPosition.add walkMove }
  have s := stepForwardAndStrafe.loop M w 10 ⟨c, 1, false, 0⟩
  if s.updatePosition then { s with c := { s.c with m_currentPosition := s.c.m_targetPosition } }
  else s

/-- The method `hbrKinematicCharacterController::stepForwardAndStrafe`. -/
def stepForwardAndStrafe (M : LinearMath) (w : World) (c : Controller) (walkMove : Vec3) :
    Controller :=
  (stepForwardAndStrafe.run M w c walkMove).c

/-- The local variables of `stepDown` that its loop changes, with the controller. -/
structure DownState where
  c : Controller
  callback : ConvexResultCallback
  callback2 : ConvexResultCallback
  downVelocity : Scalar
  step_drop : Vec3
  runonce : Bool

/-- The value of `has_hit` in the loop of `stepDown`. With `bounce_fix` set the source passes
`callback.m_hitCollisionObject` to `needsCollision` also when only `callback2` has a hit; the
pointer is then null and the value is `none`. -/
def stepDown.has_hit (c : Controller) (callback callback2 : ConvexResultCallback) : Option Bool :=
  if c.bounce_fix = true then
    if (callback.hasHit || callback2.hasHit) && c.m_ghostObject.contactResponse then
      match callback.m_hitCollisionObject with
      | some obj => some (needsCollision c.m_ghostObject obj)
      | none => none
    else some false
  else some (c.hitNeedsCollision callback2)

/-- The two sweeps at the head of the loop of `stepDown`. -/
def stepDown.probe (w : World) (s : DownState) : DownState :=
  have c := s.c
  have start : Transform := ⟨c.m_currentOrientation, c.m_currentPosition⟩
  have end_ : Transform := ⟨c.m_targetOrientation, c.m_targetPosition⟩
  have end_double : Transform := ⟨Quat.identity, c.m_targetPosition.sub s.step_drop⟩
  have r := c.sweep w c.m_useGhostObjectSweepTest start end_ s.callback
  have callback := r.1
  have c := r.2
  have r2 :=
    if !callback.hasHit && c.m_ghostObject.contactResponse then
      c.sweep w c.m_useGhostObjectSweepTest start end_double s.callback2
    else (s.callback2, c)
  { s with c := r2.2, callback := callback, callback2 := r2.1 }

/-- The loop `while (1)` of `stepDown`. The result is `none` when the source dereferences a null
pointer. -/
def stepDown.loop (w : World) (dt : Scalar) (orig_position : Vec3) (s : DownState) :
    Option DownState :=
  have s1 := stepDown.probe w s
  have c := s1.c
  have downVelocity2 : Scalar :=
    (if c.m_verticalVelocity < 0 then -c.m_verticalVelocity else 0) * dt
  match stepDown.has_hit c s1.callback s1.callback2 with
  | none => none
  | some has_hit =>
    have stepHeight : Scalar := if c.m_verticalVelocity < 0 then c.m_stepHeight else 0
    if h : downVelocity2 > 0 ∧ downVelocity2 < stepHeight ∧ has_hit = true ∧ s.runonce = false ∧
        (c.m_wasOnGround = true ∨ c.m_wasJumping = false) then
      have c := { c with m_targetPosition := orig_position }
      have downVelocity := stepHeight
      have step_drop := c.m_up.scale (c.m_currentStepOffset + downVelocity)
      have c := { c with m_targetPosition := c.m_targetPosition.sub step_drop }
      stepDown.loop w dt orig_position
        { s1 with c := c, downVelocity := downVelocity, step_drop := step_drop, runonce := true }
    else some s1
termination_by (if s.runonce then 0 else 1 : Nat)
decreasing_by simp [h.2.2.2.1]

/-- The method `hbrKinematicCharacterController::stepDown`. The result is `none` when the source
dereferences a null pointer. -/
def stepDown (w : World) (c : Controller) (dt : Scalar) : Option Controller :=
  have orig_position := c.m_targetPosition
  have downVelocity : Scalar :=
    (if c.m_verticalVelocity < 0 then -c.m_verticalVelocity else 0) * dt
  if c.m_verticalVelocity > 0 then some c
  else
    have downVelocity : Scalar :=
      if downVelocity > 0 ∧ downVelocity > c.m_fallSpeed ∧
          (c.m_wasOnGround = true ∨ c.m_wasJumping = false) then c.m_fallSpeed
      else downVelocity
    have step_drop := c.m_up.scale (c.m_currentStepOffset + downVelocity)
    have c := { c with m_targetPosition := c.m_targetPosition.sub step_drop }
    have callback := ConvexResultCallback.create c.m_ghostObject c.m_up c.m_maxSlopeCosine
    have callback2 := ConvexResultCallback.create c.m_ghostObject c.m_up c.m_maxSlopeCosine
    match stepDown.loop w dt orig_position ⟨c, callback, callback2, downVelocity, step_drop, false⟩ with
    | none => none
    | some s =>
      have c := s.c
      have callback := s.callback
      if (c.m_ghostObject.contactResponse && c.hitNeedsCollision callback) || s.runonce then
        have fraction := (c.m_currentPosition.y - callback.m_hitPointWorld.y) / 2
        have c : Controller :=
          if c.bounce_fix = true then
            if c.full_drop = true then
              { c with m_currentPosition :=
                  (Vec3.setInterpolate3 c.m_currentPosition c.m_targetPosition
                    callback.m_closestHitFraction) }
            else
              { c with m_currentPosition :=
                  (Vec3.setInterpolate3 c.m_currentPosition c.m_targetPosition fraction) }
          else
            { c with m_currentPosition :=
                (Vec3.setInterpolate3 c.m_currentPosition c.m_targetPosition
                  callback.m_closestHitFraction) }
        some { c with
          full_drop := false
          m_verticalVelocity := 0
          m_verticalOffset := 0
          m_wasJumping := false
          m_onGround := true }
      else
        have c : Controller := { c with full_drop := true }
        have c : Controller :=
          if c.bounce_fix = true then
            have downVelocity : Scalar :=
              (if c.m_verticalVelocity < 0 then -c.m_verticalVelocity else 0) * dt
            if downVelocity > c.m_fallSpeed ∧
                (c.m_wasOnGround = true ∨ c.m_wasJumping = false) then
              have c := { c with m_targetPosition := c.m_targetPosition.add s.step_drop }
              have downVelocity := c.m_fallSpeed
              have step_drop := c.m_up.scale (c.m_currentStepOffset + downVelocity)
              { c with m_targetPosition := c.m_targetPosition.sub step_drop }
            else c
          else c
        some { c with m_currentPosition := c.m_targetPosition }

/-! ### Setters, jump and ground inheritance -/

/-- The static helper `getNormalizedVector`: `v.normalized()` when `v.length() > SIMD_EPSILON`,
and the vector (0, 0, 0) otherwise. The length is `M.btSqrt` of the squared length, which need
not be the exact root; the products and the quotient are those of the rational numbers, without
the rounding and the overflow of `float`. -/
def getNormalizedVector (M : LinearMath) (v : Vec3) : Vec3 :=
  if v.length M > M.SIMD_EPSILON then v.normalized M else Vec3.zero

/-- The method `hbrKinematicCharacterController::setWalkDirection`. -/
def setWalkDirection (M : LinearMath) (c : Controller) (walkDirection : Vec3) : Controller :=
  { c with
    m_useWalkDirection := false
    m_walkDirection := walkDirection
    m_normalizedDirection := getNormalizedVector M walkDirection }

/-- The method `hbrKinematicCharacterController::setJumpSpeed`. -/
def setJumpSpeed (c : Controller) (jumpSpeed : Scalar) : Controller :=
  { c with m_jumpSpeed := jumpSpeed, m_SetjumpSpeed := jumpSpeed }

/-- The method `hbrKinematicCharacterController::jump`. -/
def jump (M : LinearMath) (c : Controller) (v : Vec3) : Controller :=
  have jumpSpeed : Scalar := if v.length2 = 0 then c.m_SetjumpSpeed else v.length M
  have c := { c with m_jumpSpeed := jumpSpeed }
  have c := { c with m_verticalVelocity := c.m_jumpSpeed }
  have c := { c with m_wasJumping := true }
  have jumpAxis : Vec3 := if v.length2 = 0 then c.m_up else v.normalized M
  have c := { c with m_jumpAxis := jumpAxis }
  have c := { c with m_jumpPosition := c.m_ghostObject.worldTransform.origin }
  have c : Controller :=
    if c.m_localVelocity.y < 0 then { c with m_localVelocity := c.m_localVelocity.setY 0 }
    else c
  have c := { c with m_externalVelocity := c.m_externalVelocity.setY (btMax 0 c.m_externalVelocity.y) }
  have impulse := (c.m_jumpAxis.scale c.m_verticalVelocity).scale c.m_speedModifier
  { c with m_localVelocity := c.m_localVelocity.add (impulse.add c.m_externalVelocity) }

/-- The first part of `inheritVelocity`: the downward sweep over the step height. It returns the
callback after the sweep. -/
def inheritVelocity.probe (w : World) (c : Controller) (dt : Scalar) :
    ConvexResultCallback × Controller :=
  have callback := ConvexResultCallback.create c.m_ghostObject c.m_up c.m_maxSlopeCosine
  have startVec := c.m_currentPosition.add ((c.m_externalVelocity.scale dt).scale (1 / 2))
  have offset := c.m_stepHeight
  have start : Transform := ⟨c.m_currentOrientation, startVec⟩
  have end_ : Transform := ⟨c.m_currentOrientation, startVec.sub (c.m_up.scale offset)⟩
  c.sweep w false start end_ callback

/-- The method `hbrKinematicCharacterController::inheritVelocity`. Under `callback.hasHit()` the
source reads the hit object through `callback.m_hitCollisionObject`, which a callback with a hit
holds; for a null pointer the state is returned as it is. -/
def inheritVelocity (w : World) (c : Controller) (dt : Scalar) : Controller :=
  have r := inheritVelocity.probe w c dt
  have callback := r.1
  have c := r.2
  if callback.hasHit && decide (callback.m_hitNormalWorld.dot c.m_up > 0) then
    match callback.m_hitCollisionObject with
    | some hitObject =>
      have transform := hitObject.worldTransform
      have linearVel := hitObject.interpolationLinearVelocity
      have angularVelocity := hitObject.interpolationAngularVelocity
      have localPosition := callback.m_hitPointWorld.sub transform.origin
      have newVelocity := (angularVelocity.cross localPosition).add linearVel
      { c with m_externalVelocity := newVelocity, m_onGround := true }
    | none => c
  else c

/-- The body of the innermost loop of `testCollisions`, for one contact point. -/
def testCollisions.point (ghostId : Nat) (pManifold : PersistentManifold) (c : Controller)
    (point : ManifoldPoint) : Controller :=
  have isDynamic := !pManifold.body1.staticOrKinematic
  have other := if pManifold.body0.id = ghostId then pManifold.body1 else pManifold.body0
  if point.distance < 0 then
    if isDynamic && other.isRigidBody then
      have localPoint :=
        if pManifold.body0.id = ghostId then point.m_localPointA else point.m_localPointB
      have force :=
        (((c.m_walkDirection.scale c.m_currentSpeed).mulComp point.m_normalWorldOnB).scale (-100))
      { c with appliedForces := (other.id, force, localPoint) :: c.appliedForces }
    else c
  else c

/-- The body of the loop of `testCollisions` over the manifolds, for one manifold. -/
def testCollisions.manifold (c : Controller) (pManifold : PersistentManifold) : Controller :=
  if pManifold.body1.isGhostObject then c
  else pManifold.contacts.foldl (testCollisions.point c.m_ghostObject.id pManifold) c

/-- The body of the loop of `testCollisions` over the pairs, for one pair. -/
def testCollisions.pair (w : World) (c : Controller) (pair : BroadphasePair) : Controller :=
  match w.findPair pair with
  | none => c
  | some collisionPair =>
    have manifoldArray := match collisionPair.m_algorithm with
      | some manifolds => manifolds
      | none => []
    manifoldArray.foldl testCollisions.manifold c

/-- The method `hbrKinematicCharacterController::testCollisions`. -/
def testCollisions (w : World) (c : Controller) : Controller :=
  c.ghostPairs.foldl (testCollisions.pair w) c

/-- The method `hbrKinematicCharacterController::preStep`. -/
def preStep (c : Controller) : Controller :=
  have c := { c with m_currentPosition := c.m_ghostObject.worldTransform.origin }
  have c := { c with m_targetPosition := c.m_currentPosition }
  have c := { c with m_currentOrientation := c.m_ghostObject.worldTransform.rotation }
  { c with m_targetOrientation := c.m_currentOrientation }

/-! ### The tick -/

/-- The first part of `playerStep`: the angular velocity is damped and integrated into the
orientation of the ghost object. -/
def playerStep.angularStep (M : LinearMath) (c : Controller) (dt : Scalar) : Controller :=
  have c : Controller :=
    if c.m_AngVel.length2 > 0 then
      { c with m_AngVel := c.m_AngVel.scale (M.btPow (1 - c.m_angularDamping) dt) }
    else c
  if c.m_AngVel.length2 > 0 then
    have xform := c.m_ghostObject.worldTransform
    have rot := Quat.ofAxisAngle M (c.m_AngVel.normalized M) (c.m_AngVel.length M * dt)
    have orn := rot.mul xform.rotation
    have xform := { xform with rotation := orn }
    have c := c.setGhostTransform xform
    have c := { c with m_currentPosition := c.m_ghostObject.worldTransform.origin }
    have c := { c with m_targetPosition := c.m_currentPosition }
    have c := { c with m_currentOrientation := c.m_ghostObject.worldTransform.rotation }
    { c with m_targetOrientation := c.m_currentOrientation }
  else c

/-- The part of `playerStep` that folds the external velocity of an airborne character into its
local velocity. -/
def playerStep.externalStep (M : LinearMath) (c : Controller) : Controller :=
  if !c.m_onGround && decide (c.m_externalVelocity.length2 > 0) then
    have c : Controller :=
      if c.m_wasJumping && decide (c.m_externalVelocity.y < 0) then
        { c with m_externalVelocity := c.m_externalVelocity.setY 0 }
      else c
    have maxVelocity := c.m_externalVelocity.length M
    if maxVelocity > 0 then
      have externalDir := c.m_externalVelocity.normalized M
      have projVel := c.m_localVelocity.dot externalDir
      have accelVel := btMax (maxVelocity - projVel) 0
      { c with
        m_localVelocity := c.m_localVelocity.add (externalDir.scale accelVel)
        m_externalVelocity := Vec3.zero }
    else c
  else c

/-- The statement `m_localVelocity *= btPow(btScalar(1) - m_linearDamping, dt)` of `playerStep`. -/
def playerStep.dampingStep (M : LinearMath) (c : Controller) (dt : Scalar) : Controller :=
  { c with m_localVelocity := c.m_localVelocity.scale (M.btPow (1 - c.m_linearDamping) dt) }

/-- The part of `playerStep` that applies ground friction or air drag. -/
def playerStep.resistanceStep (c : Controller) : Controller :=
  if c.m_wasOnGround && c.m_onGround then
    have groundFriction := c.m_localVelocity.scale (-c.m_friction)
    have groundFriction := groundFriction.setY 0
    { c with m_localVelocity := c.m_localVelocity.add groundFriction }
  else
    have dragFriction := c.m_localVelocity.scale (-c.m_drag)
    { c with m_localVelocity := c.m_localVelocity.add dragFriction }

/-- The part of `playerStep` that adds the clamped walk gain and gravity to the acceleration
accumulator and the accumulator to the local velocity. -/
def playerStep.accelerationStep (c : Controller) (dt : Scalar) : Controller :=
  have accelerate := c.m_speedModifier * (if c.m_onGround then c.m_walkAcceleration else c.m_airAcceleration)
  have maxVelocity := c.m_speedModifier * (if c.m_onGround then c.m_walkMaxSpeed else c.m_airMaxSpeed)
  have projVel := c.m_localVelocity.dot c.m_walkDirection
  have accelVel := accelerate * dt
  have accelVel := if projVel + accelVel > maxVelocity then btMax (maxVelocity - projVel) 0 else accelVel
  have gain := (c.m_walkDirection.scale accelVel).sub ((c.m_up.scale c.m_gravity).scale dt)
  have c := { c with m_acceleration := c.m_acceleration.add gain }
  { c with m_localVelocity := c.m_localVelocity.add c.m_acceleration }

/-- The part of `playerStep` that computes the move offset and caches the vertical velocity, the
vertical offset, the jump axis and the current speed. -/
def playerStep.offsetStep (M : LinearMath) (c : Controller) (dt : Scalar) : Controller :=
  have c := { c with m_moveOffset := (c.m_localVelocity.scale dt).add (c.m_externalVelocity.scale dt) }
  have c := { c with m_verticalVelocity := c.m_localVelocity.y }
  have c := { c with m_verticalOffset := c.m_moveOffset.y }
  have rising := decide (c.m_localVelocity.y > M.SIMD_EPSILON) && !c.m_isAirWalking
  have c := { c with m_jumpAxis := ⟨0, if rising then 1 else 0, 0⟩ }
  { c with m_currentSpeed := c.m_localVelocity.length M }

/-- The damping, resistance and acceleration steps of `playerStep`, one after the other, with the
statement `m_acceleration.setZero()` that ends the tick. -/
def playerStep.speedSteps (M : LinearMath) (dt : Scalar) (c : Controller) : Controller :=
  have c := playerStep.dampingStep M c dt
  have c := playerStep.resistanceStep c
  have c := playerStep.accelerationStep c dt
  { c with m_acceleration := Vec3.zero }

/-- The velocity integration of `playerStep`: everything before the call of `stepUp`. -/
def playerStep.integrate (M : LinearMath) (w : World) (c : Controller) (dt : Scalar) :
    Controller :=
  have c := playerStep.angularStep M c dt
  have c := { c with m_wasOnGround := c.m_onGround }
  have c := { c with m_onGround := false }
  have c := inheritVelocity w c dt
  have c := playerStep.externalStep M c
  have c := playerStep.dampingStep M c dt
  have c := playerStep.resistanceStep c
  have c := playerStep.accelerationStep c dt
  playerStep.offsetStep M c dt

/-- The part of `playerStep` between `stepForwardAndStrafe` and `stepDown`: the local velocity is
recomputed from the displacement. -/
def playerStep.displacementStep (c : Controller) (currentPosition : Vec3) (dt : Scalar) :
    Controller :=
  have deltaPosition := c.m_currentPosition.sub currentPosition
  have c := { c with m_localVelocity := (deltaPosition.divScalar dt).sub c.m_externalVelocity }
  if !c.m_onGround && decide (c.m_verticalVelocity < 0) then
    { c with m_localVelocity := c.m_localVelocity.setY c.m_verticalVelocity }
  else
    { c with m_verticalVelocity := c.m_localVelocity.y }

/-- The last part of `playerStep`, after `stepDown`. -/
def playerStep.finish (w : World) (c : Controller) (xform : Transform) : Controller :=
  have c : Controller :=
    if c.m_onGround && decide (c.m_localVelocity.y < 0) then
      { c with m_localVelocity := c.m_localVelocity.setY 0 }
    else c
  have c := { c with m_acceleration := Vec3.zero }
  have xform := { xform with origin := c.m_currentPosition }
  have c := c.setGhostTransform xform
  have c := recoverLoop w c
  testCollisions w c

/-- The method `hbrKinematicCharacterController::playerStep`. The result is `none` when
`stepDown` dereferences a null pointer. -/
def playerStep (M : LinearMath) (w : World) (c : Controller) (dt : Scalar) : Option Controller :=
  have c := playerStep.integrate M w c dt
  have xform := c.m_ghostObject.worldTransform
  have c := stepUp w c
  have currentPosition := c.m_currentPosition
  have c := stepForwardAndStrafe M w c c.m_moveOffset
  have c := playerStep.displacementStep c currentPosition dt
  match stepDown w c dt with
  | none => none
  | some c => some (playerStep.finish w c xform)

/-- The method `updateAction`: `preStep` followed by `playerStep`. -/
def updateAction (M : LinearMath) (w : World) (c : Controller) (deltaTime : Scalar) :
    Option Controller :=
  playerStep M w (preStep c) deltaTime

/-! ### Velocity setters, reset and warp -/

/-- The method `hbrKinematicCharacterController::setVelocityForTimeInterval`. -/
def setVelocityForTimeInterval (M : LinearMath) (c : Controller) (velocity : Vec3)
    (timeInterval : Scalar) : Controller :=
  { c with
    m_useWalkDirection := false
    m_walkDirection := velocity
    m_normalizedDirection := getNormalizedVector M velocity
    m_velocityTimeInterval := c.m_velocityTimeInterval + timeInterval }

/-- The method `hbrKinematicCharacterController::setAngularVelocity`. -/
def setAngularVelocity (c : Controller) (velocity : Vec3) : Controller :=
  { c with m_AngVel := velocity }

/-- The method `hbrKinematicCharacterController::setLinearVelocity`. -/
def setLinearVelocity (c : Controller) (velocity : Vec3) : Controller :=
  { c with m_localVelocity := velocity }

/-- The method `hbrKinematicCharacterController::getLinearVelocity`. -/
def getLinearVelocity (c : Controller) : Vec3 :=
  c.m_localVelocity.add c.m_externalVelocity

/-- The method `hbrKinematicCharacterController::getLocalLinearVelocity`. -/
def getLocalLinearVelocity (c : Controller) : Vec3 :=
  c.m_localVelocity

/-- The method `setLinearDamping` of the header. -/
def setLinearDamping (c : Controller) (d : Scalar) : Controller :=
  { c with m_linearDamping := btClamped d 0 1 }

/-- The method `setAngularDamping` of the header. -/
def setAngularDamping (c : Controller) (d : Scalar) : Controller :=
  { c with m_angularDamping := btClamped d 0 1 }

/-- The method `hbrKinematicCharacterController::reset`. Its loop removes the first pair of the
overlapping pair array of the ghost object until the array is empty. -/
def reset (c : Controller) : Controller :=
  have c := { c with m_verticalVelocity := 0 }
  have c := { c with m_verticalOffset := 0 }
  have c := { c with m_wasOnGround := false }
  have c := { c with m_wasJumping := false }
  have c := { c with m_walkDirection := ⟨0, 0, 0⟩ }
  have c := { c with m_velocityTimeInterval := 0 }
  { c with ghostPairs := [] }

/-- The method `hbrKinematicCharacterController::warp`. -/
def warp (c : Controller) (origin : Vec3) : Controller :=
  have xform := Transform.identity
  have xform := { xform with origin := origin }
  c.setGhostTransform xform

/-! ### Up vector, gravity and slope -/

/-- The method `hbrKinematicCharacterController::getRotation`, with the values that its two
reference arguments hold afterwards: `shortestArcQuatNormalize2` normalises both in place before
it calls `shortestArcQuat`. -/
def getRotation (M : LinearMath) (v0 v1 : Vec3) : Quat × Vec3 × Vec3 :=
  if v0.length2 = 0 ∨ v1.length2 = 0 then (M.btQuaternion_default, v0, v1)
  else
    have v0 := v0.normalized M
    have v1 := v1.normalized M
    (M.shortestArcQuat v0 v1, v0, v1)

/-- The method `hbrKinematicCharacterController::setUpVector`. The ghost object of a `Controller`
is not null. The call `getRotation(m_up, u)` passes `m_up` by reference. -/
def setUpVector (M : LinearMath) (c : Controller) (up : Vec3) : Controller :=
  if c.m_up = up then c
  else
    have u := c.m_up
    have c : Controller :=
      if up.length2 > 0 then { c with m_up := up.normalized M }
      else { c with m_up := ⟨0, 0, 0⟩ }
    have r := getRotation M c.m_up u
    have rot := r.1
    have c := { c with m_up := r.2.1 }
    have xform := c.m_ghostObject.worldTransform
    have orn := rot.inverse.mul xform.rotation
    have xform := { xform with rotation := orn }
    c.setGhostTransform xform

/-- The method `hbrKinematicCharacterController::setGravity`. -/
def setGravity (M : LinearMath) (c : Controller) (gravity : Vec3) : Controller :=
  have c : Controller := if gravity.length2 > 0 then setUpVector M c gravity.neg else c
  { c with m_gravity := gravity.length M }

/-- The method `hbrKinematicCharacterController::setUp`. -/
def setUp (M : LinearMath) (c : Controller) (up : Vec3) : Controller :=
  if up.length2 > 0 ∧ c.m_gravity > 0 then
    setGravity M c ((up.normalized M).scale (-c.m_gravity))
  else setUpVector M c up

/-- The method `hbrKinematicCharacterController::setMaxSlope`. -/
def setMaxSlope (M : LinearMath) (c : Controller) (slopeRadians : Scalar) : Controller :=
  have c := { c with m_maxSlopeRadians := slopeRadians }
  { c with m_maxSlopeCosine := M.btCos slopeRadians }

/-- The method `hbrKinematicCharacterController::getMaxSlope`. -/
def getMaxSlope (c : Controller) : Scalar :=
  c.m_maxSlopeRadians

/-- The method `hbrKinematicCharacterController::setStepHeight`. -/
def setStepHeight (c : Controller) (h : Scalar) : Controller :=
  { c with m_stepHeight := h }

/-- The function `btRadians(x)`: `x * SIMD_RADS_PER_DEG`. -/
def btRadians (M : LinearMath) (x : Scalar) : Scalar :=
  x * M.SIMD_RADS_PER_DEG

/-! ### Construction -/

/-- The constructor of `hbrKinematicCharacterController`. The argument `raw` is the object
before the constructor runs: it gives the members that the constructor leaves unassigned, among
them `m_onGround` and `m_normalizedDirection`, and the pair cache of the ghost object. The convex
shape enters with its margin. -/
def hbrKinematicCharacterController (M : LinearMath) (raw : Controller)
    (ghostObject : CollisionObject) (convexShapeMargin : Scalar) (stepHeight : Scalar)
    (up : Vec3) : Controller :=
  have c : Controller :=
    { raw with
      m_ghostObject := ghostObject
      m_up := ⟨0, 0, 1⟩
      m_jumpAxis := ⟨0, 0, 1⟩
      m_addedMargin := 2 / 100
      m_walkDirection := ⟨0, 0, 0⟩
      m_AngVel := ⟨0, 0, 0⟩
      m_useGhostObjectSweepTest := true
      m_turnAngle := 0
      shapeMargin := convexShapeMargin
      m_useWalkDirection := false
      m_velocityTimeInterval := 0
      m_verticalVelocity := 0
      m_verticalOffset := 0
      m_gravity := 98 / 10 * 3
      m_fallSpeed := 55
      m_jumpSpeed := 10
      m_SetjumpSpeed := 10
      m_wasOnGround := false
      m_wasJumping := false
      m_interpolateUp := true
      m_currentStepOffset := 0
      m_maxPenetrationDepth := 2 / 10
      full_drop := false
      bounce_fix := false
      m_linearDamping := 0
      m_angularDamping := 0
      m_localVelocity := ⟨0, 0, 0⟩
      m_externalVelocity := ⟨0, 0, 0⟩
      m_velocity := ⟨0, 0, 0⟩
      m_moveOffset := ⟨0, 0, 0⟩
      m_acceleration := ⟨0, 0, 0⟩
      m_walkMaxSpeed := 5
      m_runMaxSpeed := 5
      m_airMaxSpeed := 5
      m_flyMaxSpeed := 5
      m_walkAcceleration := 5
      m_runAcceleration := 5
      m_airAcceleration := 5
      m_flyAcceleration := 5
      m_friction := 1 / 10
      m_drag := 1 / 100
      m_currentSpeed := 0
      m_isAirWalking := false
      m_speedModifier := 1
      numSweepQueries := 0
      numRecoverCalls := 0
      appliedForces := [] }
  have c := setUp M c up
  have c := setStepHeight c stepHeight
  setMaxSlope M c (btRadians M 45)

/-! ### The public operations -/

/-- The public member functions of the class that change the controller, with their arguments.
The accessors, and `applyExternalVelocity`, which the header declares and no file defines, are
left out. -/
inductive Op where
  | updateAction (w : World) (deltaTime : Scalar)
  | preUpdate (w : World) (deltaTime : Scalar)
  | debugDraw
  | setUp (up : Vec3)
  | setWalkDirection (walkDirection : Vec3)
  | setVelocityForTimeInterval (velocity : Vec3) (timeInterval : Scalar)
  | setAngularVelocity (velocity : Vec3)
  | setLinearVelocity (velocity : Vec3)
  | setLinearDamping (d : Scalar)
  | setAngularDamping (d : Scalar)
  | reset
  | warp (origin : Vec3)
  | preStep
  | playerStep (w : World) (dt : Scalar)
  | setMaxWalkSpeed (speed : Scalar)
  | setMaxRunSpeed (speed : Scalar)
  | setMaxAirSpeed (speed : Scalar)
  | setMaxFlySpeed (speed : Scalar)
  | setWalkAcceleration (acceleration : Scalar)
  | setRunAcceleration (acceleration : Scalar)
  | setAirAcceleration (acceleration : Scalar)
  | setFlyAcceleration (acceleration : Scalar)
  | inheritVelocity (w : World) (dt : Scalar)
  | testCollisions (w : World)
  | setAirWalking (enabled : Bool)
  | setSpeedModifier (speed : Scalar)
  | setFriction (friction : Scalar)
  | setDrag (friction : Scalar)
  | setJumpOffset (ms : Scalar)
  | setDeAccelerationMultiplier (multiplier : Scalar)
  | setStepHeight (h : Scalar)
  | setFallSpeed (fallSpeed : Scalar)
  | setJumpSpeed (jumpSpeed : Scalar)
  | setMaxJumpHeight (maxJumpHeight : Scalar)
  | jump (v : Vec3)
  | applyImpulse (v : Vec3)
  | applyCentralImpulse (v : Vec3)
  | applyCentralForce (v : Vec3)
  | setGravity (gravity : Vec3)
  | setMaxSlope (slopeRadians : Scalar)
  | setMaxPenetrationDepth (d : Scalar)
  | setUseGhostSweepTest (useGhostObjectSweepTest : Bool)
  | setUpInterpolate (value : Bool)

/-- One call of a public member function. The result is `none` when the call dereferences a null
pointer. The bodies of the one-line setters are those of the header and of lines 1137 to 1279 of
the source file. -/
def Op.apply (M : LinearMath) (c : Controller) : Op → Option Controller
  | .updateAction w deltaTime => Hbr.updateAction M w c deltaTime
  | .preUpdate _ _ => some c
  | .debugDraw => some c
  | .setUp up => some (Hbr.setUp M c up)
  | .setWalkDirection walkDirection => some (Hbr.setWalkDirection M c walkDirection)
  | .setVelocityForTimeInterval velocity timeInterval =>
    some (Hbr.setVelocityForTimeInterval M c velocity timeInterval)
  | .setAngularVelocity velocity => some (Hbr.setAngularVelocity c velocity)
  | .setLinearVelocity velocity => some (Hbr.setLinearVelocity c velocity)
  | .setLinearDamping d => some (Hbr.setLinearDamping c d)
  | .setAngularDamping d => some (Hbr.setAngularDamping c d)
  | .reset => some (Hbr.reset c)
  | .warp origin => some (Hbr.warp c origin)
  | .preStep => some (Hbr.preStep c)
  | .playerStep w dt => Hbr.playerStep M w c dt
  | .setMaxWalkSpeed speed => some { c with m_walkMaxSpeed := speed }
  | .setMaxRunSpeed speed => some { c with m_runMaxSpeed := speed }
  | .setMaxAirSpeed speed => some { c with m_airMaxSpeed := speed }
  | .setMaxFlySpeed speed => some { c with m_flyMaxSpeed := speed }
  | .setWalkAcceleration acceleration => some { c with m_walkAcceleration := acceleration }
  | .setRunAcceleration acceleration => some { c with m_runAcceleration := acceleration }
  | .setAirAcceleration acceleration => some { c with m_airAcceleration := acceleration }
  | .setFlyAcceleration acceleration => some { c with m_flyAcceleration := acceleration }
  | .inheritVelocity w dt => some (Hbr.inheritVelocity w c dt)
  | .testCollisions w => some (Hbr.testCollisions w c)
  | .setAirWalking enabled => some { c with m_isAirWalking := enabled }
  | .setSpeedModifier speed => some { c with m_speedModifier := speed }
  | .setFriction friction => some { c with m_friction := friction }
  | .setDrag friction => some { c with m_drag := friction }
  | .setJumpOffset ms => some { c with m_jumpOffset := ms }
  | .setDeAccelerationMultiplier multiplier =>
    some { c with m_deAccelerationMultiplier := multiplier }
  | .setStepHeight h => some (Hbr.setStepHeight c h)
  | .setFallSpeed fallSpeed => some { c with m_fallSpeed := fallSpeed }
  | .setJumpSpeed jumpSpeed => some (Hbr.setJumpSpeed c jumpSpeed)
  | .setMaxJumpHeight maxJumpHeight => some { c with m_maxJumpHeight := maxJumpHeight }
  | .jump v => some (Hbr.jump M c v)
  | .applyImpulse v => some (Hbr.jump M c v)
  | .applyCentralImpulse v => some { c with m_velocity := c.m_velocity.add v }
  | .applyCentralForce v => some { c with m_acceleration := c.m_acceleration.add v }
  | .setGravity gravity => some (Hbr.setGravity M c gravity)
  | .setMaxSlope slopeRadians => some (Hbr.setMaxSlope M c slopeRadians)
  | .setMaxPenetrationDepth d => some { c with m_maxPenetrationDepth := d }
  | .setUseGhostSweepTest useGhostObjectSweepTest =>
    some { c with m_useGhostObjectSweepTest := useGhostObjectSweepTest }
  | .setUpInterpolate value => some { c with m_interpolateUp := value }

/-- A sequence of calls of public member functions, one after the other. The result is `none`
when one of the calls dereferences a null pointer. -/
def runOps (M : LinearMath) : Controller → List Op → Option Controller
  | c, [] => some c
  | c, op :: ops =>
    match op.apply M c with
    | none => none
    | some c => runOps M c ops

/-- A sequence of ticks: `playerStep` is called once for each time step of the list. -/
def playerSteps (M : LinearMath) (w : World) : Controller → List Scalar → Option Controller
  | c, [] => some c
  | c, dt :: dts =>
    match playerStep M w c dt with
    | none => none
    | some c => playerSteps M w c dts

/-- The vector argument of a call of `setUp` or of `setGravity`, the two public member functions
that assign the up vector. -/
def Op.upArgument : Op → Option Vec3
  | .setUp up => some up
  | .setGravity gravity => some gravity
  | _ => none

/-- The specification of `getMaxSlope`, in its own words: the angle last passed to `setMaxSlope`
in a sequence of calls, and the given angle when the sequence has no such call. -/
def lastMaxSlope (slopeRadians : Scalar) : List Op → Scalar
  | [] => slopeRadians
  | .setMaxSlope r :: ops => lastMaxSlope r ops
  | _ :: ops => lastMaxSlope slopeRadians ops

/-- The members that no statement of `playerStep`, `preStep`, `inheritVelocity` and
`testCollisions` assigns, and which the theorems below follow across a tick. -/
structure Settings where
  m_walkDirection : Vec3
  m_normalizedDirection : Vec3
  m_velocityTimeInterval : Scalar
  m_maxSlopeRadians : Scalar
  m_maxSlopeCosine : Scalar
  m_up : Vec3
  m_gravity : Scalar
  bounce_fix : Bool

/-- The values of these members in a state of the controller. -/
def Controller.settings (c : Controller) : Settings :=
  ⟨c.m_walkDirection, c.m_normalizedDirection, c.m_velocityTimeInterval, c.m_maxSlopeRadians,
    c.m_maxSlopeCosine, c.m_up, c.m_gravity, c.bounce_fix⟩

/-- The settings with the flag `m_wasOnGround`, which a tick assigns once, before it reads
it. -/
def Controller.frame (c : Controller) : Settings × Bool :=
  (c.settings, c.m_wasOnGround)

/-- The members on which the speed cap of a tick depends and which the phases of a tick after
the velocity integration leave alone: the speed modifier, the walk max speed, the linear
damping, the friction and the drag; the external velocity and the move offset; the X and Z
components of the local velocity, whose Y component these phases may assign. -/
def Controller.walkFrame (c : Controller) :
    (Scalar × Scalar × Scalar × Scalar × Scalar) × (Vec3 × Vec3) × (Scalar × Scalar) :=
  ((c.m_speedModifier, c.m_walkMaxSpeed, c.m_linearDamping, c.m_friction, c.m_drag),
    (c.m_externalVelocity, c.m_moveOffset), (c.m_localVelocity.x, c.m_localVelocity.z))

/-! ### The specification of penetration recovery -/

/-- The sum of a list of vectors. -/
def Vec3.sum (l : List Vec3) : Vec3 :=
  l.foldr Vec3.add Vec3.zero

/-- The specification of `recoverFromPenetration`, in its own words: the corrections
`normalWorldOnB * s * d * 0.2` of the contact points with distance `d < -maxPenetrationDepth` in
the pairs whose two objects both have contact response and pass `needsCollision`, where `s` is
-1 when the ghost object is body 0 of the manifold and +1 otherwise. -/
def penetrationCorrections (ghost : CollisionObject) (maxPenetrationDepth : Scalar)
    (pairs : List BroadphasePair) : List Vec3 :=
  pairs.flatMap fun pair =>
    if pair.obj0.contactResponse && pair.obj1.contactResponse &&
        needsCollision pair.obj0 pair.obj1 then
      (pair.m_algorithm.getD []).flatMap fun manifold =>
        (manifold.contacts.filter fun pt => decide (pt.distance < -maxPenetrationDepth)).map
          fun pt =>
            ((pt.m_normalWorldOnB.scale (if manifold.body0.id = ghost.id then -1 else 1)).scale
              pt.distance).scale (2 / 10)
    else []

/-! ### The parts of the step phases

The phases `stepUp` and `stepDown` above are single definitions. The definitions below name
their parts, so that the theorems can speak of the state between two parts; the theorems
`stepUp_hit`, `stepUp_no_hit` and `stepDown_parts` show that the phases are composed of them. -/

/-- The local variable `stepHeight` of `stepUp` and of the loop of `stepDown`. -/
def stepHeightOf (c : Controller) : Scalar :=
  if c.m_verticalVelocity < 0 then c.m_stepHeight else 0

/-- The first part of `stepUp`: the target position is set and the upward sweep is made. It
returns the callback after the sweep. -/
def stepUp.probe (w : World) (c : Controller) : ConvexResultCallback × Controller :=
  have stepHeight : Scalar := if c.m_verticalVelocity < 0 then c.m_stepHeight else 0
  have start : Transform := ⟨c.m_currentOrientation, c.m_currentPosition⟩
  have c := { c with m_targetPosition := c.m_currentPosition.add (c.m_up.scale stepHeight) }
  have end_ : Transform := ⟨c.m_targetOrientation, c.m_targetPosition⟩
  have callback := stepUp.callback c
  c.sweep w c.m_useGhostObjectSweepTest start end_ callback

/-- The part of `stepUp` between the test of the hit and the penetration recovery: the block
under the comment "Only modify the position if the hit was a slope and not a wall or ceiling"
and the statements that move the ghost object to the current position. -/
def stepUp.lift (c : Controller) (callback : ConvexResultCallback) (stepHeight : Scalar) :
    Controller :=
  have c : Controller :=
    if callback.m_hitNormalWorld.dot c.m_up > 0 then
      have c := { c with m_currentStepOffset := stepHeight * callback.m_closestHitFraction }
      if c.m_interpolateUp = true then
        { c with m_currentPosition :=
            (Vec3.setInterpolate3 c.m_currentPosition c.m_targetPosition
              callback.m_closestHitFraction) }
      else { c with m_currentPosition := c.m_targetPosition }
    else c
  c.setGhostTransform { c.m_ghostObject.worldTransform with origin := c.m_currentPosition }

/-- The last part of `stepUp` after a hit: the statements that follow the penetration
recovery. -/
def stepUp.settle (c : Controller) : Controller :=
  have c := { c with m_targetPosition := c.m_ghostObject.worldTransform.origin }
  have c := { c with m_currentPosition := c.m_targetPosition }
  if c.m_verticalOffset > 0 then
    { c with
      m_verticalOffset := 0
      m_verticalVelocity := 0
      m_localVelocity := c.m_localVelocity.setY 0
      m_currentStepOffset := c.m_stepHeight }
  else c

/-- The value of `downVelocity` with which `stepDown` enters its loop. -/
def stepDown.downVelocity (c : Controller) (dt : Scalar) : Scalar :=
  have downVelocity : Scalar :=
    (if c.m_verticalVelocity < 0 then -c.m_verticalVelocity else 0) * dt
  if downVelocity > 0 ∧ downVelocity > c.m_fallSpeed ∧
      (c.m_wasOnGround = true ∨ c.m_wasJumping = false) then c.m_fallSpeed
  else downVelocity

/-- The state with which `stepDown` enters its loop. -/
def stepDown.entry (c : Controller) (dt : Scalar) : DownState :=
  have downVelocity := stepDown.downVelocity c dt
  have step_drop := c.m_up.scale (c.m_currentStepOffset + downVelocity)
  have c := { c with m_targetPosition := c.m_targetPosition.sub step_drop }
  have callback := ConvexResultCallback.create c.m_ghostObject c.m_up c.m_maxSlopeCosine
  have callback2 := ConvexResultCallback.create c.m_ghostObject c.m_up c.m_maxSlopeCosine
  ⟨c, callback, callback2, downVelocity, step_drop, false⟩

/-- The condition under which the loop of `stepDown` runs again, for the state after the sweeps
of a pass and with the bounce fix off: `downVelocity2 > 0.0 && downVelocity2 < stepHeight &&
has_hit == true && runonce == false && (m_wasOnGround || !m_wasJumping)`. -/
def stepDown.smooths (dt : Scalar) (s1 : DownState) : Prop :=
  (if s1.c.m_verticalVelocity < 0 then -s1.c.m_verticalVelocity else 0) * dt > 0 ∧
  (if s1.c.m_verticalVelocity < 0 then -s1.c.m_verticalVelocity else 0) * dt <
    stepHeightOf s1.c ∧
  s1.c.hitNeedsCollision s1.callback2 = true ∧ s1.runonce = false ∧
  (s1.c.m_wasOnGround = true ∨ s1.c.m_wasJumping = false)

/-- The state with which the loop of `stepDown` runs again: the body of the branch under the
comment "redo the velocity calculation when falling a small amount, for fast stairs motion". -/
def stepDown.retry (orig_position : Vec3) (s1 : DownState) : DownState :=
  have c := { s1.c with m_targetPosition := orig_position }
  have downVelocity := stepHeightOf s1.c
  have step_drop := c.m_up.scale (c.m_currentStepOffset + downVelocity)
  have c := { c with m_targetPosition := c.m_targetPosition.sub step_drop }
  { s1 with c := c, downVelocity := downVelocity, step_drop := step_drop, runonce := true }

/-- The condition of the last `if` of `stepDown`, for the state at the exit of the loop:
`(m_ghostObject->hasContactResponse() && (callback.hasHit() && needsCollision(m_ghostObject,
callback.m_hitCollisionObject))) || runonce == true`. -/
def stepDown.lands (s : DownState) : Bool :=
  (s.c.m_ghostObject.contactResponse && s.c.hitNeedsCollision s.callback) || s.runonce

/-- The struct `btCollisionWorld::LocalRayResult`, as far as the callbacks read it. -/
structure LocalRayResult where
  m_collisionObject : CollisionObject
  m_hitNormalLocal : Vec3
  m_hitFraction : Scalar
deriving DecidableEq, Repr

/-- The normal of a ray result in world space, as both ray callbacks compute it. -/
def LocalRayResult.hitNormalWorld (rayResult : LocalRayResult) (normalInWorldSpace : Bool) :
    Vec3 :=
  if normalInWorldSpace then rayResult.m_hitNormalLocal
  else rayResult.m_collisionObject.worldTransform.basisMul rayResult.m_hitNormalLocal

/-- The struct `hbrClosestRayResultCallback`, with the members `m_closestHitFraction` and
`m_collisionObject` that it inherits from `btCollisionWorld::RayResultCallback`. -/
structure hbrClosestRayResultCallback where
  m_closestHitFraction : Scalar
  m_collisionObject : Option CollisionObject
  m_rayFromWorld : Vec3
  m_rayToWorld : Vec3
  m_hitNormalWorld : Vec3
  m_hitPointWorld : Vec3
deriving DecidableEq, Repr

namespace hbrClosestRayResultCallback

/-- The constructor `hbrClosestRayResultCallback(rayFromWorld, rayToWorld)`. The constructor of
the base class sets `m_closestHitFraction` to 1 and `m_collisionObject` to null; the two vectors
that no constructor assigns hold the given values. -/
def create (rayFromWorld rayToWorld : Vec3) (hitNormalWorld hitPointWorld : Vec3) :
    hbrClosestRayResultCallback :=
  { m_closestHitFraction := 1
    m_collisionObject := none
    m_rayFromWorld := rayFromWorld
    m_rayToWorld := rayToWorld
    m_hitNormalWorld := hitNormalWorld
    m_hitPointWorld := hitPointWorld }

/-- The method `hbrClosestRayResultCallback::addSingleResult`, without its `printf`. It returns
the returned fraction and the callback after the call. -/
def addSingleResult (cb : hbrClosestRayResultCallback) (rayResult : LocalRayResult)
    (normalInWorldSpace : Bool) : Scalar × hbrClosestRayResultCallback :=
  if rayResult.m_hitFraction > cb.m_closestHitFraction then (cb.m_closestHitFraction, cb)
  else
    have cb := { cb with m_collisionObject := some rayResult.m_collisionObject }
    have cb := { cb with m_hitNormalWorld := rayResult.hitNormalWorld normalInWorldSpace }
    have cb := { cb with
      m_hitPointWorld :=
        Vec3.setInterpolate3 cb.m_rayFromWorld cb.m_rayToWorld rayResult.m_hitFraction }
    (cb.m_closestHitFraction, cb)

/-- A sequence of ray results handed to the callback one after the other. -/
def addResults (cb : hbrClosestRayResultCallback) (results : List (LocalRayResult × Bool)) :
    hbrClosestRayResultCallback :=
  results.foldl (fun acc r => (addSingleResult acc r.1 r.2).2) cb

end hbrClosestRayResultCallback

/-- The struct `hbrAllHitsRayResultCallback`, with the members `m_closestHitFraction` and
`m_collisionObject` that it inherits from `btCollisionWorld::RayResultCallback`. -/
structure hbrAllHitsRayResultCallback where
  m_closestHitFraction : Scalar
  m_collisionObject : Option CollisionObject
  m_rayFromWorld : Vec3
  m_rayToWorld : Vec3
  a_closestHitFraction : Scalar
  m_closestHitNormalWorld : Vec3
  m_closestHitPointWorld : Vec3
deriving DecidableEq, Repr

namespace hbrAllHitsRayResultCallback

/-- The constructor `hbrAllHitsRayResultCallback(rayFromWorld, rayToWorld)`, which sets
`a_closestHitFraction` to 1. The constructor of the base class sets `m_closestHitFraction` to 1
and `m_collisionObject` to null; the two vectors that no constructor assigns hold the given
values. -/
def create (rayFromWorld rayToWorld : Vec3) (closestHitNormalWorld closestHitPointWorld : Vec3) :
    hbrAllHitsRayResultCallback :=
  { m_closestHitFraction := 1
    m_collisionObject := none
    m_rayFromWorld := rayFromWorld
    m_rayToWorld := rayToWorld
    a_closestHitFraction := 1
    m_closestHitNormalWorld := closestHitNormalWorld
    m_closestHitPointWorld := closestHitPointWorld }

/-- The method `hasHit`: `a_closestHitFraction < btScalar(1.)`. -/
def hasHit (cb : hbrAllHitsRayResultCallback) : Bool :=
  decide (cb.a_closestHitFraction < 1)

/-- The method `hbrAllHitsRayResultCallback::addSingleResult`. It returns the returned fraction
and the callback after the call. -/
def addSingleResult (cb : hbrAllHitsRayResultCallback) (rayResult : LocalRayResult)
    (normalInWorldSpace : Bool) : Scalar × hbrAllHitsRayResultCallback :=
  have cb := { cb with m_collisionObject := some rayResult.m_collisionObject }
  have hitNormalWorld := rayResult.hitNormalWorld normalInWorldSpace
  have hitPointWorld :=
    Vec3.setInterpolate3 cb.m_rayFromWorld cb.m_rayToWorld rayResult.m_hitFraction
  have cb : hbrAllHitsRayResultCallback :=
    if cb.a_closestHitFraction > rayResult.m_hitFraction then
      { cb with
        m_closestHitNormalWorld := hitNormalWorld
        m_closestHitPointWorld := hitPointWorld
        a_closestHitFraction := rayResult.m_hitFraction }
    else cb
  (cb.m_closestHitFraction, cb)

/-- A sequence of ray results handed to the callback one after the other. -/
def addResults (cb : hbrAllHitsRayResultCallback) (results : List (LocalRayResult × Bool)) :
    hbrAllHitsRayResultCallback :=
  results.foldl (fun acc r => (addSingleResult acc r.1 r.2).2) cb

end hbrAllHitsRayResultCallback

/-- The specification of the closest fraction, in its own words: min(1, f1, ..., fn) over the
hit fractions of a sequence of ray results. -/
def minFraction (results : List (LocalRayResult × Bool)) : Scalar :=
  results.foldr (fun r m => min r.1.m_hitFraction m) 1

/-! ## Example data

Concrete values on which the theorems below are evaluated. -/

namespace Examples

/-- A LinearMath that is exact at the arguments the examples use: the square roots of 0, 1, 4
and 25, `btSin 0`, `btCos 0`, the cosine 1/2 of the angle 355/339 (60 degrees, to six digits) and
powers with base 1 or exponent 0. Elsewhere `btSqrt` is only positive on positive arguments. -/
def math : LinearMath where
  btSqrt := fun x =>
    if x = 0 then 0 else if x = 1 then 1 else if x = 4 then 2 else if x = 25 then 5
    else (x + 1) / 2
  btSin := fun _ => 0
  btCos := fun x => if x = 355 / 339 then 1 / 2 else 1
  btPow := fun _ _ => 1
  SIMD_EPSILON := 1 / 8388608
  SIMD_RADS_PER_DEG := 71 / 4068
  shortestArcQuat := fun _ _ => Quat.identity
  btQuaternion_default := ⟨0, 0, 0, 0⟩

/-- The ghost object of the example controller. -/
def ghost : CollisionObject where
  id := 0
  contactResponse := true
  m_collisionFilterGroup := 1
  m_collisionFilterMask := 1
  worldTransform := Transform.identity
  interpolationLinearVelocity := Vec3.zero
  interpolationAngularVelocity := Vec3.zero
  staticOrKinematic := true
  isGhostObject := true
  isRigidBody := false

/-- A static body with contact response, such as a floor, a wall or a platform at rest. -/
def body : CollisionObject where
  id := 1
  contactResponse := true
  m_collisionFilterGroup := 1
  m_collisionFilterMask := 1
  worldTransform := Transform.identity
  interpolationLinearVelocity := Vec3.zero
  interpolationAngularVelocity := Vec3.zero
  staticOrKinematic := true
  isGhostObject := false
  isRigidBody := true

/-- A controller with the tunables that the constructor assigns, the up vector (0, 1, 0), a step
height of 7/20 and a slope limit of 60 degrees, at rest at the origin. -/
def controller : Controller where
  m_ghostObject := ghost
  ghostPairs := []
  shapeMargin := 1 / 25
  m_maxPenetrationDepth := 1 / 5
  m_verticalVelocity := 0
  m_verticalOffset := 0
  m_fallSpeed := 55
  m_jumpSpeed := 10
  m_SetjumpSpeed := 10
  m_maxJumpHeight := 0
  m_jumpOffset := 0
  m_deAccelerationMultiplier := 0
  m_maxSlopeRadians := 355 / 339
  m_maxSlopeCosine := 1 / 2
  m_gravity := 147 / 5
  m_turnAngle := 0
  m_stepHeight := 7 / 20
  m_addedMargin := 1 / 50
  m_walkDirection := Vec3.zero
  m_normalizedDirection := Vec3.zero
  m_AngVel := Vec3.zero
  m_localVelocity := Vec3.zero
  m_externalVelocity := Vec3.zero
  m_velocity := Vec3.zero
  m_moveOffset := Vec3.zero
  m_acceleration := Vec3.zero
  m_walkMaxSpeed := 5
  m_runMaxSpeed := 5
  m_airMaxSpeed := 5
  m_flyMaxSpeed := 5
  m_walkAcceleration := 5
  m_runAcceleration := 5
  m_airAcceleration := 5
  m_flyAcceleration := 5
  m_friction := 1 / 10
  m_drag := 1 / 100
  m_currentSpeed := 0
  m_speedModifier := 1
  m_isAirWalking := false
  m_onGround := false
  m_jumpPosition := Vec3.zero
  m_currentPosition := Vec3.zero
  m_currentStepOffset := 0
  m_targetPosition := Vec3.zero
  m_currentOrientation := Quat.identity
  m_targetOrientation := Quat.identity
  m_touchingContact := false
  m_linearDamping := 0
  m_angularDamping := 0
  m_wasOnGround := false
  m_wasJumping := false
  m_useGhostObjectSweepTest := true
  m_useWalkDirection := false
  m_velocityTimeInterval := 0
  m_up := ⟨0, 1, 0⟩
  m_jumpAxis := ⟨0, 1, 0⟩
  m_interpolateUp := true
  full_drop := false
  bounce_fix := false
  numSweepQueries := 0
  numRecoverCalls := 0
  appliedForces := []

/-- A platform that moves with the linear velocity (0, 0, 2) and does not turn. -/
def platform : CollisionObject where
  id := 2
  contactResponse := true
  m_collisionFilterGroup := 1
  m_collisionFilterMask := 1
  worldTransform := ⟨Quat.identity, ⟨0, -1, 0⟩⟩
  interpolationLinearVelocity := ⟨0, 0, 2⟩
  interpolationAngularVelocity := Vec3.zero
  staticOrKinematic := true
  isGhostObject := false
  isRigidBody := true

/-- A sweep result on `body` at half the path, with the normal (0, 1, 0) in world space: the top
of a floor or of a step. -/
def floorHit : LocalConvexResult := ⟨body, ⟨0, 1, 0⟩, ⟨0, -7 / 40, 0⟩, 1 / 2⟩

/-- A sweep result on `body` with the horizontal normal (1, 0, 0): a wall. -/
def wallHit : LocalConvexResult := ⟨body, ⟨1, 0, 0⟩, ⟨0, -7 / 40, 0⟩, 1 / 2⟩

/-- A sweep result on `platform` with the normal (0, 1, 0). -/
def platformHit : LocalConvexResult := ⟨platform, ⟨0, 1, 0⟩, ⟨0, -7 / 40, 0⟩, 1 / 2⟩

/-- A world in which every sweep reports the single result `hit`, and no pair overlaps. -/
def hitWorld (hit : LocalConvexResult) : World where
  ghostSweep := fun _ _ _ _ => [(hit, true)]
  worldSweep := fun _ _ _ _ => [(hit, true)]
  overlappingPairs := fun _ _ => []
  findPair := fun _ => none

/-- The example controller after `setWalkDirection((2, 0, 0))`, without gravity. -/
def longWalk : Controller :=
  { setWalkDirection math controller ⟨2, 0, 0⟩ with m_gravity := 0 }

/-- The example controller after `setWalkDirection((3/5, 4/5, 0))`, without gravity. -/
def unitWalk : Controller :=
  { setWalkDirection math controller ⟨3 / 5, 4 / 5, 0⟩ with m_gravity := 0 }

/-- A grounded controller with the up vector (0, 0, 1), the unit walk direction (3/5, 4/5, 0)
perpendicular to it, the friction 1/2, the walk max speed 2 and the local velocity
(-10, 10, 0), whose component along the walk direction is 2. -/
def zUpWalker : Controller :=
  { controller with
    m_up := ⟨0, 0, 1⟩
    m_walkDirection := ⟨3 / 5, 4 / 5, 0⟩
    m_normalizedDirection := ⟨3 / 5, 4 / 5, 0⟩
    m_localVelocity := ⟨-10, 10, 0⟩
    m_friction := 1 / 2
    m_walkMaxSpeed := 2
    m_onGround := true
    m_wasOnGround := true }

/-- A grounded controller with the up vector (0, 1, 0), the unit walk direction (1, 0, 0), and
the local velocity (5, 0, 0), whose component along the walk direction is the walk max speed. -/
def yUpWalker : Controller :=
  { controller with
    m_walkDirection := ⟨1, 0, 0⟩
    m_normalizedDirection := ⟨1, 0, 0⟩
    m_localVelocity := ⟨5, 0, 0⟩
    m_onGround := true
    m_wasOnGround := true }

/-- The example controller, airborne, with the external velocity (1, 0, 0). -/
def carried : Controller :=
  { controller with m_externalVelocity := ⟨1, 0, 0⟩ }

/-- A character on the ground that moves with local velocity (3, 0, 0) on a platform of velocity
(1, 0, 0). -/
def riding : Controller :=
  { carried with m_localVelocity := ⟨3, 0, 0⟩, m_onGround := true }

/-- A sweep result on `body` at half the path, with the normal (0, -1, 0) in world space: the
underside of a ceiling. -/
def ceilingHit : LocalConvexResult := ⟨body, ⟨0, -1, 0⟩, ⟨0, 7 / 40, 0⟩, 1 / 2⟩

/-- The example controller while it falls with the vertical velocity -1. -/
def falling : Controller :=
  { controller with m_verticalVelocity := -1, m_localVelocity := ⟨0, -1, 0⟩ }

/-- A world in which the sweeps with an even index report nothing and the sweeps with an odd
index report the floor hit: below a character that has sent no query yet, the first sweep of
`stepDown` over the drop finds nothing and the second, over twice the drop, finds the floor. -/
def stairWorld : World where
  ghostSweep := fun i _ _ _ => if i % 2 = 0 then [] else [(floorHit, true)]
  worldSweep := fun i _ _ _ => if i % 2 = 0 then [] else [(floorHit, true)]
  overlappingPairs := fun _ _ => []
  findPair := fun _ => none

/-- A flat floor at rest under the character, and nothing ahead of it: the sweeps with the
index 2, 6, 10, ... report nothing and every other sweep reports the floor hit. In a tick of a
moving character that lands, the sweeps are the ground probe, the sweep of `stepUp`, the forward
sweep and the sweep of `stepDown`, in this order. -/
def flatGround : World where
  ghostSweep := fun i _ _ _ => if i % 4 = 2 then [] else [(floorHit, true)]
  worldSweep := fun i _ _ _ => if i % 4 = 2 then [] else [(floorHit, true)]
  overlappingPairs := fun _ _ => []
  findPair := fun _ => none

/-- A ray result on `body` at the fraction 1/5, with the normal (0, 1, 0) in world space. -/
def nearRay : LocalRayResult := ⟨body, ⟨0, 1, 0⟩, 1 / 5⟩

/-- A ray result on `platform` at the fraction 4/5, with the normal (1, 0, 0) in world space. -/
def farRay : LocalRayResult := ⟨platform, ⟨1, 0, 0⟩, 4 / 5⟩

/-- A ray result on `body` at the fraction 1, the end of the ray, with the normal (0, 1, 0). -/
def endRay : LocalRayResult := ⟨body, ⟨0, 1, 0⟩, 1⟩

/-- A world without obstacles: no sweep reports a result and no pair overlaps. -/
def emptyWorld : World where
  ghostSweep := fun _ _ _ _ => []
  worldSweep := fun _ _ _ _ => []
  overlappingPairs := fun _ _ => []
  findPair := fun _ => none

/-- A contact of depth 1 with the normal (1, 0, 0). -/
def deepContact : ManifoldPoint where
  distance := -1
  m_normalWorldOnB := ⟨1, 0, 0⟩
  positionWorldOnB := Vec3.zero
  m_localPointA := Vec3.zero
  m_localPointB := Vec3.zero

/-- The overlapping pair of the ghost object and `body`, with the contact `deepContact`. -/
def stuckPair : BroadphasePair where
  obj0 := ghost
  obj1 := body
  m_algorithm := some [⟨ghost, body, [deepContact]⟩]

/-- A world in which every call of `recoverFromPenetration` finds the same deep contact, wherever
the ghost object is. -/
def stuckWorld : World where
  ghostSweep := fun _ _ _ _ => []
  worldSweep := fun _ _ _ _ => []
  overlappingPairs := fun _ _ => [stuckPair]
  findPair := fun _ => none

end Examples

/-! ## Theorems -/

/-! ### Penetration recovery is bounded -/

theorem foldl_invariant {α β : Type} (P : β → Prop) (f : β → α → β)
    (hf : ∀ b a, P b → P (f b a)) : ∀ (l : List α) (b : β), P b → P (l.foldl f b) := by
  intro l
  induction l with
  | nil => intro b hb; exact hb
  | cons a l ih => intro b hb; exact ih (f b a) (hf b a hb)

theorem recoverFromPenetration_numRecoverCalls (w : World) (c : Controller) :
    (recoverFromPenetration w c).2.numRecoverCalls = c.numRecoverCalls + 1 := by
  simp [recoverFromPenetration, Controller.setGhostTransform]

theorem penetrationLoop_numRecoverCalls_le (w : World) :
    ∀ (k n : Nat) (c : Controller), n + k = 4 →
      (penetrationLoop w c n).numRecoverCalls ≤ c.numRecoverCalls + (5 - n) ∧
      c.numRecoverCalls + 1 ≤ (penetrationLoop w c n).numRecoverCalls := by
  intro k
  induction k with
  | zero =>
    intro n c hk
    rw [penetrationLoop]
    have h1 := recoverFromPenetration_numRecoverCalls w c
    have hn : n + 1 > 4 := by omega
    by_cases hp : (recoverFromPenetration w c).1 = true
    · simp only [hp, hn, if_true]
      show (recoverFromPenetration w c).2.numRecoverCalls ≤ _ ∧
        _ ≤ (recoverFromPenetration w c).2.numRecoverCalls
      omega
    · simp only [hp, Bool.false_eq_true, if_false]
      omega
  | succ k ih =>
    intro n c hk
    rw [penetrationLoop]
    have h1 := recoverFromPenetration_numRecoverCalls w c
    by_cases hp : (recoverFromPenetration w c).1 = true
    · have hn : ¬ (n + 1 > 4) := by omega
      simp only [hp, hn, if_true, if_false]
      have h2 := ih (n + 1) { (recoverFromPenetration w c).2 with m_touchingContact := true }
        (by omega)
      dsimp only at h2 ⊢
      omega
    · simp only [hp, Bool.false_eq_true, if_false]
      omega

theorem recoverLoop_numRecoverCalls_le (w : World) (c : Controller) :
    (recoverLoop w c).numRecoverCalls ≤ c.numRecoverCalls + 5 := by
  have h := (penetrationLoop_numRecoverCalls_le w 4 0 { c with m_touchingContact := false }
    rfl).1
  exact h

/-- If every call reports a penetration in the states that satisfy an invariant of the loop, the
loop entered with `numPenetrationLoops = n ≤ 4` calls `recoverFromPenetration` exactly `5 - n`
times. -/
theorem penetrationLoop_numRecoverCalls_stuck (w : World) (I : Controller → Prop)
    (hw : ∀ c, I c → (recoverFromPenetration w c).1 = true ∧
      I { (recoverFromPenetration w c).2 with m_touchingContact := true }) :
    ∀ (k n : Nat) (c : Controller), I c → n + k = 4 →
      (penetrationLoop w c n).numRecoverCalls = c.numRecoverCalls + (5 - n) := by
  intro k
  induction k with
  | zero =>
    intro n c hc hk
    rw [penetrationLoop]
    have h1 := recoverFromPenetration_numRecoverCalls w c
    have hn : n + 1 > 4 := by omega
    simp only [(hw c hc).1, hn, if_true]
    show (recoverFromPenetration w c).2.numRecoverCalls = _
    omega
  | succ k ih =>
    intro n c hc hk
    rw [penetrationLoop]
    have h1 := recoverFromPenetration_numRecoverCalls w c
    have hn : ¬ (n + 1 > 4) := by omega
    simp only [(hw c hc).1, hn, if_true, if_false]
    have h2 := ih (n + 1) { (recoverFromPenetration w c).2 with m_touchingContact := true }
      (hw c hc).2 (by omega)
    dsimp only at h2 ⊢
    omega

theorem stuckWorld_penetrates (c : Controller)
    (hc : c.m_ghostObject.id = 0 ∧ c.m_maxPenetrationDepth < 1) :
    (recoverFromPenetration Examples.stuckWorld c).1 = true ∧
    (({ (recoverFromPenetration Examples.stuckWorld c).2 with m_touchingContact := true } :
        Controller).m_ghostObject.id = 0 ∧
      ({ (recoverFromPenetration Examples.stuckWorld c).2 with m_touchingContact := true } :
        Controller).m_maxPenetrationDepth < 1) := by
  obtain ⟨hid, hd⟩ := hc
  have hland : Int.land 1 1 ≠ 0 := by decide
  refine ⟨?_, ?_, ?_⟩
  · simp [recoverFromPenetration, Examples.stuckWorld, Examples.stuckPair,
      recoverFromPenetration.pair, recoverFromPenetration.manifold, recoverFromPenetration.point,
      Examples.deepContact, Examples.ghost, Examples.body, needsCollision, hid, hland, hd]
  · simpa [recoverFromPenetration, Controller.setGhostTransform] using hid
  · simpa [recoverFromPenetration, Controller.setGhostTransform] using hd

theorem sweep_numRecoverCalls (w : World) (c : Controller) (g : Bool) (s e : Transform)
    (cb : ConvexResultCallback) : (c.sweep w g s e cb).2.numRecoverCalls = c.numRecoverCalls := by
  simp [Controller.sweep]

theorem stepUp_numRecoverCalls_le (w : World) (c : Controller) :
    (stepUp w c).numRecoverCalls ≤ c.numRecoverCalls + 5 := by
  have h := recoverLoop_numRecoverCalls_le w
  unfold stepUp
  dsimp only
  split_ifs <;>
    first
    | (simp [Controller.sweep]; done)
    | (refine le_trans (h _) ?_; simp [Controller.setGhostTransform, Controller.sweep])

/-- The method `testCollisions` changes nothing in the controller; it only applies forces. -/
theorem testCollisions_frame (w : World) (c : Controller) :
    ∃ forces, testCollisions w c = { c with appliedForces := forces } := by
  unfold testCollisions
  refine foldl_invariant (fun b => ∃ forces, b = { c with appliedForces := forces }) _ ?_ _ c
    ⟨_, rfl⟩
  intro b pair hb
  unfold testCollisions.pair
  split
  · exact hb
  · refine foldl_invariant (fun b => ∃ forces, b = { c with appliedForces := forces }) _ ?_ _ b hb
    intro b m hb
    unfold testCollisions.manifold
    split
    · exact hb
    · refine foldl_invariant (fun b => ∃ forces, b = { c with appliedForces := forces }) _ ?_ _ b
        hb
      intro b p hb
      obtain ⟨forces, rfl⟩ := hb
      unfold testCollisions.point
      dsimp only
      split_ifs
      all_goals exact ⟨_, rfl⟩

theorem testCollisions_numRecoverCalls (w : World) (c : Controller) :
    (testCollisions w c).numRecoverCalls = c.numRecoverCalls := by
  obtain ⟨forces, h⟩ := testCollisions_frame w c
  rw [h]

theorem finish_numRecoverCalls_le (w : World) (c : Controller) (xform : Transform) :
    (playerStep.finish w c xform).numRecoverCalls ≤ c.numRecoverCalls + 5 := by
  unfold playerStep.finish
  dsimp only
  rw [testCollisions_numRecoverCalls]
  refine le_trans (recoverLoop_numRecoverCalls_le w _) ?_
  split <;> simp [Controller.setGhostTransform]

/-- C1 (as amended): the recovery loop at the end of `playerStep`, and the identical loop inside
`stepUp`, invokes `recoverFromPenetration` at most 5 times before it stops, whatever the world
reports: the loop body runs until `numPenetrationLoops` exceeds 4, so a fifth call is made. -/
theorem penetration_recovery_at_most_five_calls (w : World) (c : Controller) :
    (recoverLoop w c).numRecoverCalls ≤ c.numRecoverCalls + 5 ∧
    (stepUp w c).numRecoverCalls ≤ c.numRecoverCalls + 5 ∧
    ∀ xform, (playerStep.finish w c xform).numRecoverCalls ≤ c.numRecoverCalls + 5 :=
  ⟨recoverLoop_numRecoverCalls_le w c, stepUp_numRecoverCalls_le w c,
    finish_numRecoverCalls_le w c⟩

/-- C1 (counterexample): in a world in which every call reports a penetration, the recovery loop
invokes `recoverFromPenetration` 5 times, not at most 4 times. -/
theorem penetration_recovery_five_calls :
    (recoverLoop Examples.stuckWorld Examples.controller).numRecoverCalls = 5 ∧
    ¬ ((recoverLoop Examples.stuckWorld Examples.controller).numRecoverCalls ≤
      Examples.controller.numRecoverCalls + 4) := by
  have h := penetrationLoop_numRecoverCalls_stuck Examples.stuckWorld
    (fun c => c.m_ghostObject.id = 0 ∧ c.m_maxPenetrationDepth < 1) stuckWorld_penetrates 4 0
    { Examples.controller with m_touchingContact := false }
    ⟨rfl, by norm_num [Examples.controller]⟩ rfl
  have h5 : (recoverLoop Examples.stuckWorld Examples.controller).numRecoverCalls = 5 := h
  refine ⟨h5, ?_⟩
  rw [h5]
  decide

/-! ### The forward loop is bounded -/

theorem updateTargetPositionBasedOnCollision_frame (M : LinearMath) (c : Controller)
    (hitNormal : Vec3) (tangentMag normalMag : Scalar) :
    ∃ target, updateTargetPositionBasedOnCollision M c hitNormal tangentMag normalMag =
      { c with m_targetPosition := target } := by
  unfold updateTargetPositionBasedOnCollision
  dsimp only
  split_ifs
  all_goals exact ⟨_, rfl⟩

theorem sweep_numSweepQueries (w : World) (c : Controller) (g : Bool) (s e : Transform)
    (cb : ConvexResultCallback) :
    (c.sweep w g s e cb).2.numSweepQueries = c.numSweepQueries + 1 := by
  simp [Controller.sweep]

theorem updateTargetPositionBasedOnCollision_numSweepQueries (M : LinearMath) (c : Controller)
    (hitNormal : Vec3) (tangentMag normalMag : Scalar) :
    (updateTargetPositionBasedOnCollision M c hitNormal tangentMag normalMag).numSweepQueries =
      c.numSweepQueries := by
  obtain ⟨t, h⟩ := updateTargetPositionBasedOnCollision_frame M c hitNormal tangentMag normalMag
  rw [h]

theorem body_counts (M : LinearMath) (w : World) (s : ForwardState) :
    (stepForwardAndStrafe.body M w s).2.iterations = s.iterations + 1 ∧
    (stepForwardAndStrafe.body M w s).2.c.numSweepQueries ≤ s.c.numSweepQueries + 1 := by
  unfold stepForwardAndStrafe.body
  dsimp only
  constructor
  · split_ifs <;> rfl
  · split_ifs <;>
      simp [Controller.sweep, updateTargetPositionBasedOnCollision_numSweepQueries]

theorem loop_counts (M : LinearMath) (w : World) :
    ∀ (maxIter : Nat) (s : ForwardState),
      ∃ k, k ≤ maxIter ∧
        (stepForwardAndStrafe.loop M w maxIter s).iterations = s.iterations + k ∧
        (stepForwardAndStrafe.loop M w maxIter s).c.numSweepQueries ≤ s.c.numSweepQueries + k := by
  intro maxIter
  induction maxIter with
  | zero => intro s; exact ⟨0, le_refl _, rfl, le_refl _⟩
  | succ n ih =>
    intro s
    rw [stepForwardAndStrafe.loop]
    dsimp only
    have hb := body_counts M w s
    by_cases hf : s.fraction > 1 / 100
    · rw [if_pos hf]
      by_cases hbreak : (stepForwardAndStrafe.body M w s).1 = true
      · rw [if_pos hbreak]
        exact ⟨1, by omega, hb.1, hb.2⟩
      · rw [if_neg hbreak]
        obtain ⟨k, hk, h1, h2⟩ := ih (stepForwardAndStrafe.body M w s).2
        exact ⟨k + 1, by omega, by omega, by omega⟩
    · rw [if_neg hf]
      exact ⟨0, by omega, rfl, le_refl _⟩

theorem loop_stops (M : LinearMath) (w : World) (maxIter : Nat) (s : ForwardState)
    (h : s.fraction ≤ 1 / 100) : stepForwardAndStrafe.loop M w maxIter s = s := by
  cases maxIter with
  | zero => rfl
  | succ n =>
    rw [stepForwardAndStrafe.loop]
    have : ¬ s.fraction > 1 / 100 := not_lt.mpr h
    rw [if_neg this]

/-- C2: the loop of `stepForwardAndStrafe` executes at most 10 iterations and sends at most 10
sweep queries, for every start state, walk move and world; and at a loop head where the
remaining fraction is at most 0.01 it executes no further iteration, whatever `maxIter` is. -/
theorem stepForwardAndStrafe_bounded (M : LinearMath) (w : World) (c : Controller)
    (walkMove : Vec3) :
    (stepForwardAndStrafe.run M w c walkMove).iterations ≤ 10 ∧
    (stepForwardAndStrafe M w c walkMove).numSweepQueries ≤ c.numSweepQueries + 10 ∧
    ∀ (maxIter : Nat) (s : ForwardState), s.fraction ≤ 1 / 100 →
      stepForwardAndStrafe.loop M w maxIter s = s := by
  obtain ⟨k, hk, h1, h2⟩ := loop_counts M w 10
    ⟨{ c with m_targetPosition := c.m_currentPosition.add walkMove }, 1, false, 0⟩
  dsimp only at h1 h2
  refine ⟨?_, ?_, loop_stops M w⟩
  · unfold stepForwardAndStrafe.run
    dsimp only
    split_ifs <;> (try dsimp only) <;> omega
  · unfold stepForwardAndStrafe stepForwardAndStrafe.run
    dsimp only
    split_ifs <;> (try dsimp only) <;> omega

/-- C2 (witness): a walk move of (1, 0, 0) in a world without obstacles takes at most 10
iterations, and a loop entered with the remaining fraction 0.01 executes none. -/
theorem stepForwardAndStrafe_bounded_witness :
    (stepForwardAndStrafe.run Examples.math Examples.emptyWorld Examples.controller
      ⟨1, 0, 0⟩).iterations ≤ 10 ∧
    (stepForwardAndStrafe.loop Examples.math Examples.emptyWorld 10
      ⟨Examples.controller, 1 / 100, false, 0⟩).iterations = 0 := by
  have h := stepForwardAndStrafe_bounded Examples.math Examples.emptyWorld Examples.controller
    ⟨1, 0, 0⟩
  refine ⟨h.1, ?_⟩
  rw [h.2.2 10 ⟨Examples.controller, 1 / 100, false, 0⟩ (le_refl _)]

/-! ### Slope filtering -/

theorem Vec3.neg_dot (a b : Vec3) : a.neg.dot b = -(a.dot b) := by
  simp only [Vec3.neg, Vec3.dot]; ring

theorem Vec3.dot_comm (a b : Vec3) : a.dot b = b.dot a := by
  simp only [Vec3.dot]; ring

/-- C3 (as amended): the filter that `stepUp` builds is constructed with `-m_up`, so for every
hit on another responsive object with world normal n it accepts the hit when
n·up <= -maxSlopeCosine and rejects it when n·up > -maxSlopeCosine; in particular, with a
positive slope cosine it rejects every hit with n·up >= maxSlopeCosine. -/
theorem stepUp_filter_uses_negated_up (c : Controller) (r : LocalConvexResult) (nws : Bool)
    (hother : r.m_hitCollisionObject.id ≠ c.m_ghostObject.id)
    (hresp : r.m_hitCollisionObject.contactResponse = true) :
    ((ConvexResultCallback.hitNormalWorld r nws).dot c.m_up ≤ -c.m_maxSlopeCosine →
      (stepUp.callback c).addSingleResult r nws =
        (stepUp.callback c).baseAddSingleResult r nws) ∧
    (-c.m_maxSlopeCosine < (ConvexResultCallback.hitNormalWorld r nws).dot c.m_up →
      (stepUp.callback c).addSingleResult r nws = (1, stepUp.callback c)) ∧
    (0 < c.m_maxSlopeCosine →
      c.m_maxSlopeCosine ≤ (ConvexResultCallback.hitNormalWorld r nws).dot c.m_up →
      (stepUp.callback c).addSingleResult r nws = (1, stepUp.callback c)) := by
  have key : ∀ d : Scalar, d = (ConvexResultCallback.hitNormalWorld r nws).dot c.m_up →
      (stepUp.callback c).addSingleResult r nws =
        if -d < c.m_maxSlopeCosine then (1, stepUp.callback c)
        else (stepUp.callback c).baseAddSingleResult r nws := by
    intro d hd
    have hdot : c.m_up.neg.dot (ConvexResultCallback.hitNormalWorld r nws) = -d := by
      rw [Vec3.neg_dot, Vec3.dot_comm, hd]
    simp only [ConvexResultCallback.addSingleResult, stepUp.callback,
      ConvexResultCallback.create, hother, hresp, if_false, Bool.not_true, Bool.false_eq_true,
      hdot]
  refine ⟨?_, ?_, ?_⟩
  · intro h
    rw [key _ rfl, if_neg (by linarith)]
  · intro h
    rw [key _ rfl, if_pos (by linarith)]
  · intro h0 h
    rw [key _ rfl, if_pos (by linarith)]

/-- C3 (witness): with the slope cosine 1/2 and up = (0, 1, 0), a hit on a ceiling with the
normal (0, -1, 0) is accepted and a hit on a wall with the normal (1, 0, 0) is rejected. -/
theorem stepUp_filter_uses_negated_up_witness :
    (stepUp.callback Examples.controller).addSingleResult
        ⟨Examples.body, ⟨0, -1, 0⟩, Vec3.zero, 1 / 2⟩ true =
      (stepUp.callback Examples.controller).baseAddSingleResult
        ⟨Examples.body, ⟨0, -1, 0⟩, Vec3.zero, 1 / 2⟩ true ∧
    (stepUp.callback Examples.controller).addSingleResult Examples.wallHit true =
      (1, stepUp.callback Examples.controller) :=
  ⟨(stepUp_filter_uses_negated_up Examples.controller
      ⟨Examples.body, ⟨0, -1, 0⟩, Vec3.zero, 1 / 2⟩ true (by decide) rfl).1
      (by norm_num [ConvexResultCallback.hitNormalWorld, Vec3.dot, Examples.controller]),
   (stepUp_filter_uses_negated_up Examples.controller Examples.wallHit true (by decide) rfl).2.1
      (by norm_num [ConvexResultCallback.hitNormalWorld, Vec3.dot, Examples.controller,
        Examples.wallHit])⟩

/-- C3 (counterexample): with the slope cosine 1/2 (a slope limit of 60 degrees) and
up = (0, 1, 0), the hit `floorHit` on another responsive object has n·up = 1 >= 1/2, and the
filter that `stepUp` builds rejects it: it returns 1 and records no hit. -/
theorem stepUp_filter_rejects_walkable_normal :
    Examples.controller.m_maxSlopeCosine ≤
      (ConvexResultCallback.hitNormalWorld Examples.floorHit true).dot Examples.controller.m_up ∧
    Examples.floorHit.m_hitCollisionObject.id ≠ Examples.controller.m_ghostObject.id ∧
    Examples.floorHit.m_hitCollisionObject.contactResponse = true ∧
    (stepUp.callback Examples.controller).addSingleResult Examples.floorHit true =
      (1, stepUp.callback Examples.controller) ∧
    ((stepUp.callback Examples.controller).addSingleResult Examples.floorHit true).2.hasHit =
      false := by
  decide!

/-! ### Ground inheritance -/

theorem probe_single (w : World) (c : Controller) (dt : Scalar) (r : LocalConvexResult)
    (nws : Bool) (hw : ∀ m s e, w.worldSweep c.numSweepQueries m s e = [(r, nws)]) :
    inheritVelocity.probe w c dt =
      (((ConvexResultCallback.create c.m_ghostObject c.m_up c.m_maxSlopeCosine).addSingleResult
          r nws).2,
        { c with numSweepQueries := c.numSweepQueries + 1 }) := by
  simp [inheritVelocity.probe, Controller.sweep, hw, ConvexResultCallback.convexSweepTest]

/-- C4: for a positive slope cosine (a max slope angle in [0, 90 degrees)) and a ground probe
that reports one result with world normal n on another responsive object: when the result is a
hit, which is a fraction below 1, and n·up >= maxSlopeCosine, `inheritVelocity` sets `onGround`;
when n·up < maxSlopeCosine it leaves `onGround` and `externalVelocity` untouched. A result at
the fraction 1 or beyond is no hit, and leaves both untouched as well. -/
theorem inheritVelocity_slope_limit (w : World) (c : Controller) (dt : Scalar)
    (r : LocalConvexResult) (nws : Bool)
    (hw : ∀ m s e, w.worldSweep c.numSweepQueries m s e = [(r, nws)])
    (hother : r.m_hitCollisionObject.id ≠ c.m_ghostObject.id)
    (hresp : r.m_hitCollisionObject.contactResponse = true)
    (hcos : 0 < c.m_maxSlopeCosine) :
    (r.m_hitFraction < 1 →
      c.m_maxSlopeCosine ≤ (ConvexResultCallback.hitNormalWorld r nws).dot c.m_up →
      (inheritVelocity w c dt).m_onGround = true) ∧
    ((ConvexResultCallback.hitNormalWorld r nws).dot c.m_up < c.m_maxSlopeCosine →
      (inheritVelocity w c dt).m_onGround = c.m_onGround ∧
      (inheritVelocity w c dt).m_externalVelocity = c.m_externalVelocity) ∧
    (1 ≤ r.m_hitFraction →
      (inheritVelocity w c dt).m_onGround = c.m_onGround ∧
      (inheritVelocity w c dt).m_externalVelocity = c.m_externalVelocity) := by
  have hp := probe_single w c dt r nws hw
  have hcomm : c.m_up.dot (ConvexResultCallback.hitNormalWorld r nws) =
      (ConvexResultCallback.hitNormalWorld r nws).dot c.m_up := Vec3.dot_comm _ _
  refine ⟨?_, ?_, ?_⟩
  · intro hf h
    have hnot : ¬ (c.m_up.dot (ConvexResultCallback.hitNormalWorld r nws) <
        c.m_maxSlopeCosine) := by rw [hcomm]; exact not_lt.mpr h
    have hpos : (ConvexResultCallback.hitNormalWorld r nws).dot c.m_up > 0 :=
      lt_of_lt_of_le hcos h
    simp [inheritVelocity, hp, ConvexResultCallback.addSingleResult,
      ConvexResultCallback.create, ConvexResultCallback.baseAddSingleResult,
      ConvexResultCallback.hasHit, hother, hresp, hnot, hpos, hf]
  · intro h
    have hlt : c.m_up.dot (ConvexResultCallback.hitNormalWorld r nws) < c.m_maxSlopeCosine := by
      rw [hcomm]; exact h
    simp [inheritVelocity, hp, ConvexResultCallback.addSingleResult,
      ConvexResultCallback.create, ConvexResultCallback.hasHit, hother, hresp, hlt]
  · intro hf
    have hnf : ¬ r.m_hitFraction < 1 := not_lt.mpr hf
    by_cases hlt : c.m_up.dot (ConvexResultCallback.hitNormalWorld r nws) < c.m_maxSlopeCosine
    · simp [inheritVelocity, hp, ConvexResultCallback.addSingleResult,
        ConvexResultCallback.create, ConvexResultCallback.hasHit, hother, hresp, hlt]
    · simp [inheritVelocity, hp, ConvexResultCallback.addSingleResult,
        ConvexResultCallback.create, ConvexResultCallback.baseAddSingleResult,
        ConvexResultCallback.hasHit, hother, hresp, hlt, hnf]

/-- C4 (witness): with the slope cosine 1/2, a probe that hits a floor with the normal
(0, 1, 0) at the fraction 1/2 grounds the character, a probe that hits a wall with the normal
(1, 0, 0) leaves `onGround` and the external velocity as they were, and so does a probe whose
result on the floor is at the fraction 1, which is no hit. -/
theorem inheritVelocity_slope_limit_witness :
    (inheritVelocity (Examples.hitWorld Examples.floorHit) Examples.controller (1 / 60)).m_onGround
      = true ∧
    (inheritVelocity (Examples.hitWorld Examples.wallHit) Examples.controller (1 / 60)).m_onGround
      = Examples.controller.m_onGround ∧
    (inheritVelocity (Examples.hitWorld Examples.wallHit) Examples.controller
      (1 / 60)).m_externalVelocity = Examples.controller.m_externalVelocity ∧
    (inheritVelocity (Examples.hitWorld { Examples.floorHit with m_hitFraction := 1 })
      Examples.controller (1 / 60)).m_onGround = Examples.controller.m_onGround ∧
    (inheritVelocity (Examples.hitWorld { Examples.floorHit with m_hitFraction := 1 })
      Examples.controller (1 / 60)).m_externalVelocity = Examples.controller.m_externalVelocity :=
  have h1 := (inheritVelocity_slope_limit (Examples.hitWorld Examples.floorHit)
    Examples.controller (1 / 60) Examples.floorHit true (fun _ _ _ => rfl) (by decide) rfl
    (by norm_num [Examples.controller])).1 (by norm_num [Examples.floorHit])
    (by norm_num [ConvexResultCallback.hitNormalWorld, Vec3.dot, Examples.controller,
      Examples.floorHit])
  have h2 := (inheritVelocity_slope_limit (Examples.hitWorld Examples.wallHit)
    Examples.controller (1 / 60) Examples.wallHit true (fun _ _ _ => rfl) (by decide) rfl
    (by norm_num [Examples.controller])).2.1
    (by norm_num [ConvexResultCallback.hitNormalWorld, Vec3.dot, Examples.controller,
      Examples.wallHit])
  have h3 := (inheritVelocity_slope_limit
    (Examples.hitWorld { Examples.floorHit with m_hitFraction := 1 }) Examples.controller
    (1 / 60) { Examples.floorHit with m_hitFraction := 1 } true (fun _ _ _ => rfl) (by decide)
    rfl (by norm_num [Examples.controller])).2.2 (le_refl _)
  ⟨h1, h2.1, h2.2, h3.1, h3.2⟩

/-- C8: when the ground probe of `inheritVelocity` ends with a hit (`hasHit()`: the closest
fraction is below 1) on a body whose recorded normal has a positive component along up (a hit
that `inheritVelocity` accepts), `externalVelocity` becomes
angularVelocity x (hitPoint - bodyOrigin) + linearVelocity of the hit body and `onGround`
becomes true; for a body with angular velocity 0 and linear velocity (0, 0, 2) the external
velocity is exactly (0, 0, 2). -/
theorem inheritVelocity_platform_velocity (w : World) (c : Controller) (dt : Scalar)
    (hitObject : CollisionObject)
    (hhas : (inheritVelocity.probe w c dt).1.hasHit = true)
    (hhit : (inheritVelocity.probe w c dt).1.m_hitCollisionObject = some hitObject)
    (hnormal : (inheritVelocity.probe w c dt).1.m_hitNormalWorld.dot c.m_up > 0) :
    (inheritVelocity w c dt).m_externalVelocity =
      (hitObject.interpolationAngularVelocity.cross
        ((inheritVelocity.probe w c dt).1.m_hitPointWorld.sub
          hitObject.worldTransform.origin)).add hitObject.interpolationLinearVelocity ∧
    (inheritVelocity w c dt).m_onGround = true ∧
    (hitObject.interpolationAngularVelocity = Vec3.zero →
      hitObject.interpolationLinearVelocity = ⟨0, 0, 2⟩ →
      (inheritVelocity w c dt).m_externalVelocity = ⟨0, 0, 2⟩) := by
  have hup : (inheritVelocity.probe w c dt).2.m_up = c.m_up := by
    simp [inheritVelocity.probe, Controller.sweep]
  have hpos : (inheritVelocity.probe w c dt).1.m_hitNormalWorld.dot
      (inheritVelocity.probe w c dt).2.m_up > 0 := by rw [hup]; exact hnormal
  have h1 : (inheritVelocity w c dt).m_externalVelocity =
      (hitObject.interpolationAngularVelocity.cross
        ((inheritVelocity.probe w c dt).1.m_hitPointWorld.sub
          hitObject.worldTransform.origin)).add hitObject.interpolationLinearVelocity := by
    simp [inheritVelocity, hhas, hhit, hpos]
  refine ⟨h1, ?_, ?_⟩
  · simp [inheritVelocity, hhas, hhit, hpos]
  · intro ha hl
    rw [h1, ha, hl]
    simp [Vec3.cross, Vec3.add, Vec3.zero]

/-- C8 (witness): a character whose ground probe hits the platform that moves with (0, 0, 2)
gets the external velocity (0, 0, 2) and is grounded. -/
theorem inheritVelocity_platform_velocity_witness :
    (inheritVelocity (Examples.hitWorld Examples.platformHit) Examples.controller
      (1 / 60)).m_externalVelocity = ⟨0, 0, 2⟩ ∧
    (inheritVelocity (Examples.hitWorld Examples.platformHit) Examples.controller
      (1 / 60)).m_onGround = true :=
  have h := inheritVelocity_platform_velocity (Examples.hitWorld Examples.platformHit)
    Examples.controller (1 / 60) Examples.platform (by decide!) (by decide!) (by decide!)
  ⟨h.2.2 rfl rfl, h.2.1⟩

/-! ### Jump -/

theorem Vec3.length2_eq_zero_iff (v : Vec3) : v.length2 = 0 ↔ v = Vec3.zero := by
  constructor
  · intro h
    simp only [Vec3.length2, Vec3.dot] at h
    have hx : v.x = 0 := by nlinarith [mul_self_nonneg v.x, mul_self_nonneg v.y, mul_self_nonneg v.z]
    have hy : v.y = 0 := by nlinarith [mul_self_nonneg v.x, mul_self_nonneg v.y, mul_self_nonneg v.z]
    have hz : v.z = 0 := by nlinarith [mul_self_nonneg v.x, mul_self_nonneg v.y, mul_self_nonneg v.z]
    exact Vec3.ext hx hy hz
  · intro h
    rw [h]
    simp [Vec3.length2, Vec3.dot, Vec3.zero]

theorem btMax_zero_eq_max (y : Scalar) : btMax 0 y = max 0 y := by
  unfold btMax
  split_ifs with h
  · exact (max_eq_left (le_of_lt h)).symm
  · exact (max_eq_right (not_lt.mp h)).symm

theorem jump_verticalVelocity (M : LinearMath) (c : Controller) (v : Vec3) :
    (jump M c v).m_verticalVelocity = if v.length2 = 0 then c.m_SetjumpSpeed else v.length M := by
  unfold jump
  dsimp only
  split_ifs <;> rfl

theorem jump_jumpAxis (M : LinearMath) (c : Controller) (v : Vec3) :
    (jump M c v).m_jumpAxis = if v.length2 = 0 then c.m_up else v.normalized M := by
  unfold jump
  dsimp only
  split_ifs <;> rfl

theorem jump_SetjumpSpeed (M : LinearMath) (c : Controller) (v : Vec3) :
    (jump M c v).m_SetjumpSpeed = c.m_SetjumpSpeed := by
  unfold jump
  dsimp only
  split_ifs <;> rfl

/-- C9: after `jump(v)`, if v is the zero vector the vertical velocity is the jump speed last
configured with `setJumpSpeed` (the member `m_SetjumpSpeed`, which `jump` never changes, so also
after an earlier jump with a non-zero impulse) and the jump axis is up; if v is non-zero the
vertical velocity is |v| and the jump axis is v/|v|; in both cases the jumping flag is set. -/
theorem jump_speed_and_axis (M : LinearMath) (c : Controller) (v : Vec3) :
    (v = Vec3.zero →
      (jump M c v).m_verticalVelocity = c.m_SetjumpSpeed ∧ (jump M c v).m_jumpAxis = c.m_up) ∧
    (v ≠ Vec3.zero →
      (jump M c v).m_verticalVelocity = v.length M ∧
      (jump M c v).m_jumpAxis = v.divScalar (v.length M)) ∧
    (jump M c v).m_wasJumping = true ∧
    (∀ s : Scalar, (setJumpSpeed c s).m_SetjumpSpeed = s) ∧
    (jump M c v).m_SetjumpSpeed = c.m_SetjumpSpeed ∧
    (∀ (s : Scalar) (u : Vec3),
      (jump M (jump M (setJumpSpeed c s) u) Vec3.zero).m_verticalVelocity = s) := by
  refine ⟨?_, ?_, ?_, ?_, jump_SetjumpSpeed M c v, ?_⟩
  · intro h
    have h0 : v.length2 = 0 := (Vec3.length2_eq_zero_iff v).mpr h
    rw [jump_verticalVelocity, jump_jumpAxis, if_pos h0, if_pos h0]
    exact ⟨rfl, rfl⟩
  · intro h
    have h0 : ¬ v.length2 = 0 := fun h' => h ((Vec3.length2_eq_zero_iff v).mp h')
    rw [jump_verticalVelocity, jump_jumpAxis, if_neg h0, if_neg h0]
    exact ⟨rfl, rfl⟩
  · unfold jump
    dsimp only
    split_ifs <;> rfl
  · intro s
    rfl
  · intro s u
    have h0 : Vec3.zero.length2 = 0 := (Vec3.length2_eq_zero_iff Vec3.zero).mpr rfl
    rw [jump_verticalVelocity, if_pos h0, jump_SetjumpSpeed]
    rfl

/-- C9 (witness): `jump()` with the default zero impulse gives the configured jump speed 10
along up, and `jump((3, 4, 0))` gives the vertical velocity 5 along (3/5, 4/5, 0). -/
theorem jump_speed_and_axis_witness :
    ((jump Examples.math Examples.controller Vec3.zero).m_verticalVelocity = 10 ∧
      (jump Examples.math Examples.controller Vec3.zero).m_jumpAxis = ⟨0, 1, 0⟩) ∧
    ((jump Examples.math Examples.controller ⟨3, 4, 0⟩).m_verticalVelocity = 5 ∧
      (jump Examples.math Examples.controller ⟨3, 4, 0⟩).m_jumpAxis = ⟨3 / 5, 4 / 5, 0⟩) := by
  have h1 := (jump_speed_and_axis Examples.math Examples.controller Vec3.zero).1 rfl
  have h2 := (jump_speed_and_axis Examples.math Examples.controller ⟨3, 4, 0⟩).2.1 (by decide)
  have hlen : Vec3.length Examples.math ⟨3, 4, 0⟩ = 5 := by decide!
  refine ⟨h1, ?_, ?_⟩
  · rw [h2.1, hlen]
  · rw [h2.2, hlen]
    decide!

/-- C10: `jump(v)` replaces the Y component of the external velocity by max(0, its old value)
and leaves the other two components unchanged, and the new local velocity is the old local
velocity with a negative Y component replaced by 0, plus jumpAxis * jumpSpeed * speedModifier,
plus the adjusted external velocity. -/
theorem jump_folds_velocities (M : LinearMath) (c : Controller) (v : Vec3) :
    (jump M c v).m_externalVelocity =
      ⟨c.m_externalVelocity.x, max 0 c.m_externalVelocity.y, c.m_externalVelocity.z⟩ ∧
    (jump M c v).m_localVelocity =
      (Vec3.mk c.m_localVelocity.x (if c.m_localVelocity.y < 0 then 0 else c.m_localVelocity.y)
        c.m_localVelocity.z).add
        ((((jump M c v).m_jumpAxis.scale (jump M c v).m_jumpSpeed).scale c.m_speedModifier).add
          (jump M c v).m_externalVelocity) := by
  constructor
  · unfold jump
    dsimp only
    rw [btMax_zero_eq_max]
    split_ifs <;> rfl
  · unfold jump
    dsimp only
    split_ifs <;> rfl

/-! ### The speed cap of the acceleration step -/

theorem accelerationStep_localVelocity (c : Controller) (dt : Scalar) :
    (playerStep.accelerationStep c dt).m_localVelocity =
      c.m_localVelocity.add (c.m_acceleration.add
        ((c.m_walkDirection.scale
          (if c.m_localVelocity.dot c.m_walkDirection +
              c.m_speedModifier *
                (if c.m_onGround then c.m_walkAcceleration else c.m_airAcceleration) * dt >
              c.m_speedModifier * (if c.m_onGround then c.m_walkMaxSpeed else c.m_airMaxSpeed)
           then btMax (c.m_speedModifier *
                (if c.m_onGround then c.m_walkMaxSpeed else c.m_airMaxSpeed) -
              c.m_localVelocity.dot c.m_walkDirection) 0
           else c.m_speedModifier *
                (if c.m_onGround then c.m_walkAcceleration else c.m_airAcceleration) * dt)).sub
          ((c.m_up.scale c.m_gravity).scale dt))) := by
  rfl

theorem btMax_zero_right (x : Scalar) : btMax x 0 = max x 0 := by
  unfold btMax
  split_ifs with h
  · exact (max_eq_left (le_of_lt h)).symm
  · exact (max_eq_right (not_lt.mp h)).symm

/-- The projected speed after a gain `g` along `w`, with an empty accumulator: `p + g * |w|^2`
less the gravity term. -/
theorem dot_after_gain (v a w u : Vec3) (g k : Scalar) :
    (v.add (a.add ((w.scale g).sub (u.scale k)))).dot w =
      v.dot w + a.dot w + g * w.length2 - k * u.dot w := by
  simp only [Vec3.add, Vec3.sub, Vec3.scale, Vec3.dot, Vec3.length2]
  ring

theorem gain_bound (p a B L : Scalar) (hL0 : 0 ≤ L) (hL1 : L ≤ 1) :
    p + (if p + a > B then max (B - p) 0 else a) * L ≤ max p B := by
  split_ifs with h
  · rcases le_total (B - p) 0 with h0 | h0
    · rw [max_eq_right h0]
      simp
    · rw [max_eq_left h0]
      have : (B - p) * L ≤ B - p := by nlinarith
      have hB : B ≤ max p B := le_max_right _ _
      linarith
  · have hle : p + a ≤ B := not_lt.mp h
    rcases le_total a 0 with h0 | h0
    · have : a * L ≤ 0 := by nlinarith
      have hp : p ≤ max p B := le_max_left _ _
      linarith
    · have : a * L ≤ a := by nlinarith
      have hB : B ≤ max p B := le_max_right _ _
      linarith

/-- C6 (as amended): with an empty acceleration accumulator and zero gravity, for a walk
direction vector w of length at most 1 (a unit vector in particular), every local velocity v,
max speed M and acceleration*dt, the velocity component along the walk direction after the
acceleration step does not exceed max(v·w, M). -/
theorem walk_gain_capped_for_short_walk_direction (c : Controller) (dt : Scalar)
    (hacc : c.m_acceleration = Vec3.zero) (hgrav : c.m_gravity = 0)
    (hw : c.m_walkDirection.length2 ≤ 1) :
    (playerStep.accelerationStep c dt).m_localVelocity.dot c.m_walkDirection ≤
      max (c.m_localVelocity.dot c.m_walkDirection)
        (c.m_speedModifier * (if c.m_onGround then c.m_walkMaxSpeed else c.m_airMaxSpeed)) := by
  rw [accelerationStep_localVelocity, dot_after_gain, hacc, hgrav, btMax_zero_right]
  have h0 : Vec3.zero.dot c.m_walkDirection = 0 := by simp [Vec3.dot, Vec3.zero]
  have hL0 : 0 ≤ c.m_walkDirection.length2 := by
    simp only [Vec3.length2, Vec3.dot]
    nlinarith [mul_self_nonneg c.m_walkDirection.x, mul_self_nonneg c.m_walkDirection.y,
      mul_self_nonneg c.m_walkDirection.z]
  have hg := gain_bound (c.m_localVelocity.dot c.m_walkDirection)
    (c.m_speedModifier * (if c.m_onGround then c.m_walkAcceleration else c.m_airAcceleration) * dt)
    (c.m_speedModifier * (if c.m_onGround then c.m_walkMaxSpeed else c.m_airMaxSpeed))
    c.m_walkDirection.length2 hL0 hw
  have hz : (c.m_up.scale 0).dot c.m_walkDirection = 0 := by simp [Vec3.scale, Vec3.dot]
  rw [h0, hz]
  linarith

/-- C6 (witness): with the unit walk direction (3/5, 4/5, 0), the max speed 5 and the
acceleration 5 over dt = 2, the projected speed after the acceleration step is at most 5. -/
theorem walk_gain_capped_for_short_walk_direction_witness :
    (playerStep.accelerationStep Examples.unitWalk 2).m_localVelocity.dot
        Examples.unitWalk.m_walkDirection ≤
      max (Examples.unitWalk.m_localVelocity.dot Examples.unitWalk.m_walkDirection)
        (Examples.unitWalk.m_speedModifier *
          (if Examples.unitWalk.m_onGround then Examples.unitWalk.m_walkMaxSpeed
           else Examples.unitWalk.m_airMaxSpeed)) :=
  walk_gain_capped_for_short_walk_direction Examples.unitWalk 2 rfl rfl (by decide!)

/-- C6 (counterexample): after `setWalkDirection((2, 0, 0))`, from rest, with the max speed 5,
the acceleration 5 and dt = 1, an empty accumulator and zero gravity, the acceleration step
leaves the local velocity (10, 0, 0), whose component along the walk direction is 20 and
exceeds max(0, 5). -/
theorem walk_gain_exceeds_max_speed_for_long_walk_direction :
    Examples.longWalk.m_acceleration = Vec3.zero ∧ Examples.longWalk.m_gravity = 0 ∧
    Examples.longWalk.m_walkDirection = ⟨2, 0, 0⟩ ∧
    (playerStep.accelerationStep Examples.longWalk 1).m_localVelocity = ⟨10, 0, 0⟩ ∧
    ¬ ((playerStep.accelerationStep Examples.longWalk 1).m_localVelocity.dot
        Examples.longWalk.m_walkDirection ≤
      max (Examples.longWalk.m_localVelocity.dot Examples.longWalk.m_walkDirection)
        (Examples.longWalk.m_speedModifier *
          (if Examples.longWalk.m_onGround then Examples.longWalk.m_walkMaxSpeed
           else Examples.longWalk.m_airMaxSpeed))) := by
  decide!

/-! ### The speed cap over the damping, resistance and acceleration steps -/

theorem scale_dot (v w : Vec3) (k : Scalar) : (v.scale k).dot w = k * v.dot w := by
  simp only [Vec3.scale, Vec3.dot]; ring

theorem scaled_le_bound (k x B : Scalar) (hk0 : 0 ≤ k) (hk1 : k ≤ 1) (hB : 0 ≤ B) (hx : x ≤ B) :
    k * x ≤ B := by
  rcases le_total 0 x with h | h
  · nlinarith
  · nlinarith

theorem resistanceStep_dot (c : Controller) (w : Vec3) (hy : w.y = 0) :
    (playerStep.resistanceStep c).m_localVelocity.dot w =
      (1 - (if (c.m_wasOnGround && c.m_onGround) = true then c.m_friction else c.m_drag)) *
        c.m_localVelocity.dot w := by
  unfold playerStep.resistanceStep
  split_ifs <;> simp only [Vec3.add, Vec3.scale, Vec3.setY, Vec3.dot, hy] <;> ring

theorem accelerationStep_dot_le (c : Controller) (dt : Scalar)
    (hunit : c.m_walkDirection.length2 = 1) (hperp : c.m_up.dot c.m_walkDirection = 0)
    (hground : c.m_onGround = true) (hacc : c.m_acceleration = Vec3.zero)
    (hv : c.m_localVelocity.dot c.m_walkDirection ≤ c.m_speedModifier * c.m_walkMaxSpeed) :
    (playerStep.accelerationStep c dt).m_localVelocity.dot c.m_walkDirection ≤
      c.m_speedModifier * c.m_walkMaxSpeed := by
  rw [accelerationStep_localVelocity, dot_after_gain, hacc, hunit, scale_dot, hperp,
    btMax_zero_right]
  have h0 : Vec3.zero.dot c.m_walkDirection = 0 := by simp [Vec3.dot, Vec3.zero]
  rw [h0]
  simp only [hground, if_true]
  split_ifs with h
  · rw [max_eq_left (by linarith)]
    linarith
  · have := not_lt.mp h
    linarith

theorem speedSteps_frame (M : LinearMath) (dt : Scalar) (c : Controller) :
    ∃ v, playerStep.speedSteps M dt c =
      { c with m_localVelocity := v, m_acceleration := Vec3.zero } := by
  unfold playerStep.speedSteps playerStep.accelerationStep playerStep.resistanceStep
    playerStep.dampingStep
  dsimp only
  split_ifs <;> exact ⟨_, rfl⟩

theorem speedSteps_localVelocity (M : LinearMath) (dt : Scalar) (c : Controller) :
    (playerStep.speedSteps M dt c).m_localVelocity =
      (playerStep.accelerationStep
        (playerStep.resistanceStep (playerStep.dampingStep M c dt)) dt).m_localVelocity := by
  rfl

theorem speedSteps_dot_le (M : LinearMath) (c : Controller) (dt : Scalar)
    (hunit : c.m_walkDirection.length2 = 1) (hperp : c.m_up.dot c.m_walkDirection = 0)
    (hy : c.m_walkDirection.y = 0) (hM : 0 ≤ c.m_speedModifier * c.m_walkMaxSpeed)
    (hground : c.m_onGround = true)
    (hpow : 0 ≤ M.btPow (1 - c.m_linearDamping) dt ∧ M.btPow (1 - c.m_linearDamping) dt ≤ 1)
    (hfric : 0 ≤ c.m_friction ∧ c.m_friction ≤ 1) (hdrag : 0 ≤ c.m_drag ∧ c.m_drag ≤ 1)
    (hacc : c.m_acceleration = Vec3.zero)
    (hv : c.m_localVelocity.dot c.m_walkDirection ≤ c.m_speedModifier * c.m_walkMaxSpeed) :
    (playerStep.accelerationStep
      (playerStep.resistanceStep (playerStep.dampingStep M c dt)) dt).m_localVelocity.dot
        c.m_walkDirection ≤ c.m_speedModifier * c.m_walkMaxSpeed := by
  have hframe : ∀ c' : Controller, ∃ v, playerStep.resistanceStep c' =
      { c' with m_localVelocity := v } := by
    intro c'
    unfold playerStep.resistanceStep
    split_ifs <;> exact ⟨_, rfl⟩
  obtain ⟨v2, hv2⟩ := hframe (playerStep.dampingStep M c dt)
  have hdamp : (playerStep.dampingStep M c dt).m_localVelocity.dot c.m_walkDirection =
      M.btPow (1 - c.m_linearDamping) dt * c.m_localVelocity.dot c.m_walkDirection :=
    scale_dot _ _ _
  have hres : (playerStep.resistanceStep (playerStep.dampingStep M c dt)).m_localVelocity.dot
      c.m_walkDirection =
      (1 - (if (c.m_wasOnGround && c.m_onGround) = true then c.m_friction else c.m_drag)) *
        (M.btPow (1 - c.m_linearDamping) dt * c.m_localVelocity.dot c.m_walkDirection) := by
    rw [← hdamp]
    exact resistanceStep_dot (playerStep.dampingStep M c dt) c.m_walkDirection hy
  have hk : 0 ≤ 1 - (if (c.m_wasOnGround && c.m_onGround) = true then c.m_friction
      else c.m_drag) ∧
      1 - (if (c.m_wasOnGround && c.m_onGround) = true then c.m_friction else c.m_drag) ≤ 1 := by
    split_ifs
    · exact ⟨by linarith [hfric.2], by linarith [hfric.1]⟩
    · exact ⟨by linarith [hdrag.2], by linarith [hdrag.1]⟩
  have hq : (playerStep.resistanceStep (playerStep.dampingStep M c dt)).m_localVelocity.dot
      c.m_walkDirection ≤ c.m_speedModifier * c.m_walkMaxSpeed := by
    rw [hres]
    exact scaled_le_bound _ _ _ hk.1 hk.2 hM
      (scaled_le_bound _ _ _ hpow.1 hpow.2 hM hv)
  have h := accelerationStep_dot_le
    (playerStep.resistanceStep (playerStep.dampingStep M c dt)) dt
  rw [hv2] at h hq ⊢
  exact h hunit hperp hground hacc hq

theorem Controller.eq_of_acceleration_zero (c : Controller) (h : c.m_acceleration = Vec3.zero) :
    c = { c with m_localVelocity := c.m_localVelocity, m_acceleration := Vec3.zero } := by
  cases c
  simp only at h
  subst h
  rfl


/-- C7 (counterexample): with up = (0, 0, 1), the unit walk direction (3/5, 4/5, 0)
perpendicular to it, M = 2, the friction 1/2, the drag 1/100, no damping, dt = 1/60, zero
external velocity, an empty accumulator and a character grounded in both ticks, the local
velocity (-10, 10, 0) has the component 2 <= M along the walk direction before the three steps
and the component 5 > M after them. -/
theorem speed_cap_broken_when_walk_direction_has_y :
    Examples.zUpWalker.m_walkDirection.length2 = 1 ∧
    Examples.zUpWalker.m_up.dot Examples.zUpWalker.m_walkDirection = 0 ∧
    Examples.zUpWalker.m_speedModifier * Examples.zUpWalker.m_walkMaxSpeed = 2 ∧
    Examples.zUpWalker.m_externalVelocity = Vec3.zero ∧
    Examples.zUpWalker.m_acceleration = Vec3.zero ∧
    Examples.zUpWalker.m_localVelocity.dot Examples.zUpWalker.m_walkDirection = 2 ∧
    (playerStep.accelerationStep
      (playerStep.resistanceStep (playerStep.dampingStep Examples.math Examples.zUpWalker
        (1 / 60))) (1 / 60)).m_localVelocity.dot Examples.zUpWalker.m_walkDirection = 5 := by
  decide!

/-! ### A tick with dt = 0 in a world without obstacles -/

theorem Vec3.add_zero (v : Vec3) : v.add Vec3.zero = v := by
  simp [Vec3.add, Vec3.zero]

theorem Vec3.sub_self (v : Vec3) : v.sub v = Vec3.zero := by
  simp [Vec3.sub, Vec3.zero]

theorem Vec3.scale_zero (v : Vec3) : v.scale 0 = Vec3.zero := by
  simp [Vec3.scale, Vec3.zero]

theorem Vec3.length2_zero : Vec3.zero.length2 = 0 := by
  simp [Vec3.length2, Vec3.dot, Vec3.zero]

theorem Vec3.length2_nonneg (v : Vec3) : 0 ≤ v.length2 := by
  simp only [Vec3.length2, Vec3.dot]
  nlinarith [mul_self_nonneg v.x, mul_self_nonneg v.y, mul_self_nonneg v.z]

theorem angularStep_zero (M : LinearMath) (c : Controller) (dt : Scalar)
    (hA : c.m_AngVel = Vec3.zero) : playerStep.angularStep M c dt = c := by
  unfold playerStep.angularStep
  simp [hA, Vec3.length2_zero]

theorem sweep_empty (w : World) (hg : ∀ i m s e, w.ghostSweep i m s e = [])
    (hws : ∀ i m s e, w.worldSweep i m s e = []) (c : Controller) (g : Bool)
    (s e : Transform) (cb : ConvexResultCallback) :
    c.sweep w g s e cb = (cb, { c with numSweepQueries := c.numSweepQueries + 1 }) := by
  cases g <;> simp [Controller.sweep, hg, hws, ConvexResultCallback.convexSweepTest]

theorem inheritVelocity_empty (w : World) (hg : ∀ i m s e, w.ghostSweep i m s e = [])
    (hws : ∀ i m s e, w.worldSweep i m s e = []) (c : Controller) (dt : Scalar) :
    inheritVelocity w c dt = { c with numSweepQueries := c.numSweepQueries + 1 } := by
  unfold inheritVelocity inheritVelocity.probe
  dsimp only
  rw [sweep_empty w hg hws]
  rfl

theorem Controller.eq_with_externalVelocity (c : Controller) (e : Vec3)
    (h : c.m_externalVelocity = e) :
    c = { c with m_localVelocity := c.m_localVelocity, m_externalVelocity := e } := by
  subst h
  rfl

theorem externalStep_frame (M : LinearMath) (c : Controller)
    (hsqrt : ∀ x : Scalar, 0 < x → 0 < M.btSqrt x) (hair : c.m_onGround = false) :
    ∃ lv, playerStep.externalStep M c =
      { c with m_localVelocity := lv, m_externalVelocity := Vec3.zero } := by
  have hzero : ∀ e : Vec3, ¬ (e.length M > 0) → e = Vec3.zero := by
    intro e he
    by_contra hne
    have hpos : 0 < e.length2 := lt_of_le_of_ne (Vec3.length2_nonneg e)
      (fun h => hne ((Vec3.length2_eq_zero_iff e).mp h.symm))
    exact he (hsqrt _ hpos)
  by_cases h0 : c.m_externalVelocity.length2 > 0
  · have hcond : (!c.m_onGround && decide (c.m_externalVelocity.length2 > 0)) = true := by
      simp [hair, h0]
    unfold playerStep.externalStep
    dsimp only
    rw [if_pos hcond]
    split_ifs with h1 h2 h2
    · exact ⟨_, rfl⟩
    · have hz := hzero _ h2
      dsimp only at hz
      exact ⟨c.m_localVelocity, by rw [hz]⟩
    · exact ⟨_, rfl⟩
    · have hz := hzero _ h2
      exact ⟨c.m_localVelocity, Controller.eq_with_externalVelocity c Vec3.zero hz⟩
  · have hz : c.m_externalVelocity = Vec3.zero :=
      (Vec3.length2_eq_zero_iff _).mp (le_antisymm (not_lt.mp h0) (Vec3.length2_nonneg _))
    have hstep : playerStep.externalStep M c = c := by
      unfold playerStep.externalStep
      simp [h0]
    rw [hstep]
    exact ⟨c.m_localVelocity, Controller.eq_with_externalVelocity c Vec3.zero hz⟩

theorem integrate_empty (M : LinearMath) (w : World) (c : Controller) (dt : Scalar)
    (hg : ∀ i m s e, w.ghostSweep i m s e = [])
    (hws : ∀ i m s e, w.worldSweep i m s e = [])
    (hsqrt : ∀ x : Scalar, 0 < x → 0 < M.btSqrt x) (hA : c.m_AngVel = Vec3.zero) :
    ∃ lv acc ja cs, playerStep.integrate M w c dt =
      { c with
        m_wasOnGround := c.m_onGround
        m_onGround := false
        numSweepQueries := c.numSweepQueries + 1
        m_localVelocity := lv
        m_externalVelocity := Vec3.zero
        m_acceleration := acc
        m_moveOffset := (lv.scale dt).add (Vec3.zero.scale dt)
        m_verticalVelocity := lv.y
        m_verticalOffset := ((lv.scale dt).add (Vec3.zero.scale dt)).y
        m_jumpAxis := ja
        m_currentSpeed := cs } := by
  unfold playerStep.integrate
  dsimp only
  rw [angularStep_zero M c dt hA, inheritVelocity_empty w hg hws]
  obtain ⟨lv1, h1⟩ := externalStep_frame M
    { c with m_wasOnGround := c.m_onGround, m_onGround := false,
             numSweepQueries := c.numSweepQueries + 1 } hsqrt rfl
  dsimp only at h1
  rw [h1]
  unfold playerStep.offsetStep playerStep.accelerationStep playerStep.resistanceStep
    playerStep.dampingStep
  dsimp only
  split_ifs <;> exact ⟨_, _, _, _, rfl⟩

theorem hitNeedsCollision_create (c : Controller) (me : CollisionObject) (up : Vec3)
    (d : Scalar) : c.hitNeedsCollision (ConvexResultCallback.create me up d) = false := by
  rfl

theorem stepUp_empty (w : World) (hg : ∀ i m s e, w.ghostSweep i m s e = [])
    (hws : ∀ i m s e, w.worldSweep i m s e = []) (c : Controller) :
    stepUp w c =
      { c with
        m_targetPosition := c.m_currentPosition.add
          (c.m_up.scale (if c.m_verticalVelocity < 0 then c.m_stepHeight else 0))
        numSweepQueries := c.numSweepQueries + 1
        m_currentStepOffset := if c.m_verticalVelocity < 0 then c.m_stepHeight else 0
        m_currentPosition := c.m_currentPosition.add
          (c.m_up.scale (if c.m_verticalVelocity < 0 then c.m_stepHeight else 0)) } := by
  unfold stepUp
  dsimp only
  rw [sweep_empty w hg hws]
  dsimp only
  unfold stepUp.callback
  rw [hitNeedsCollision_create]
  rfl

theorem hasHit_create (me : CollisionObject) (up : Vec3) (d : Scalar) :
    (ConvexResultCallback.create me up d).hasHit = false := by
  simp [ConvexResultCallback.hasHit, ConvexResultCallback.create]

theorem has_hit_none (c : Controller) (cb cb2 : ConvexResultCallback)
    (h1 : cb.hasHit = false) (h2 : cb2.hasHit = false) :
    stepDown.has_hit c cb cb2 = some false := by
  unfold stepDown.has_hit
  simp [Controller.hitNeedsCollision, h1, h2]

theorem probe_empty (w : World) (hg : ∀ i m s e, w.ghostSweep i m s e = [])
    (hws : ∀ i m s e, w.worldSweep i m s e = []) (s : DownState) :
    stepDown.probe w s = { s with c := { s.c with numSweepQueries := s.c.numSweepQueries +
      (if (!s.callback.hasHit && s.c.m_ghostObject.contactResponse) = true then 2 else 1) } } := by
  unfold stepDown.probe
  dsimp only
  simp only [sweep_empty w hg hws]
  split_ifs <;> rfl

theorem stepDown_loop_empty (w : World) (hg : ∀ i m s e, w.ghostSweep i m s e = [])
    (hws : ∀ i m s e, w.worldSweep i m s e = []) (dt : Scalar) (orig : Vec3) (s : DownState)
    (h1 : s.callback.hasHit = false)
    (h2 : s.callback2.hasHit = false) :
    stepDown.loop w dt orig s =
      some { s with c := { s.c with numSweepQueries := s.c.numSweepQueries +
        (if (!s.callback.hasHit && s.c.m_ghostObject.contactResponse) = true then 2 else 1) } } := by
  rw [stepDown.loop]
  dsimp only
  rw [probe_empty w hg hws]
  dsimp only
  rw [has_hit_none _ _ _ h1 h2]
  dsimp only
  rw [dif_neg]
  intro h
  exact absurd h.2.2.1 (by decide)

theorem stepDown_empty (w : World) (hg : ∀ i m s e, w.ghostSweep i m s e = [])
    (hws : ∀ i m s e, w.worldSweep i m s e = []) (c : Controller)
    (hfix : c.bounce_fix = false ∨ 0 ≤ c.m_fallSpeed) :
    ∃ c', stepDown w c 0 = some c' ∧
      c'.m_currentOrientation = c.m_currentOrientation ∧
      c'.m_externalVelocity = c.m_externalVelocity ∧
      c'.m_currentPosition =
        (if c.m_verticalVelocity > 0 then c.m_currentPosition
         else c.m_targetPosition.sub (c.m_up.scale (c.m_currentStepOffset + 0))) := by
  unfold stepDown
  dsimp only
  by_cases hv : c.m_verticalVelocity > 0
  · rw [if_pos hv, if_pos hv]
    exact ⟨c, rfl, rfl, rfl, rfl⟩
  · rw [if_neg hv, if_neg hv]
    simp only [mul_zero, gt_iff_lt, lt_self_iff_false, false_and, if_false]
    rw [stepDown_loop_empty w hg hws _ _ _ (hasHit_create _ _ _) (hasHit_create _ _ _)]
    dsimp only
    simp only [hitNeedsCollision_create, Bool.and_false, Bool.or_false, Bool.false_eq_true,
      if_false]
    rcases hfix with hb | hf
    · simp only [hb, Bool.false_eq_true, if_false]
      exact ⟨_, rfl, rfl, rfl, rfl⟩
    · have hnot : ¬ (c.m_fallSpeed < 0) := not_lt.mpr hf
      simp only [hnot, false_and, if_false]
      split_ifs <;> exact ⟨_, rfl, rfl, rfl, rfl⟩

theorem recoverFromPenetration_empty (w : World) (hp : ∀ i t, w.overlappingPairs i t = [])
    (c : Controller) :
    recoverFromPenetration w c =
      (false, ({ c with
          ghostPairs := []
          numRecoverCalls := c.numRecoverCalls + 1
          m_currentPosition := c.m_ghostObject.worldTransform.origin } :
        Controller).setGhostTransform
          { c.m_ghostObject.worldTransform with origin := c.m_ghostObject.worldTransform.origin }) := by
  unfold recoverFromPenetration
  dsimp only
  rw [hp]
  rfl

theorem recoverLoop_empty (w : World) (hp : ∀ i t, w.overlappingPairs i t = [])
    (c : Controller) :
    recoverLoop w c = (recoverFromPenetration w { c with m_touchingContact := false }).2 := by
  unfold recoverLoop
  rw [penetrationLoop]
  dsimp only
  rw [recoverFromPenetration_empty w hp]
  rfl

theorem finish_empty (w : World) (hp : ∀ i t, w.overlappingPairs i t = []) (c : Controller)
    (xform : Transform) :
    (playerStep.finish w c xform).m_currentPosition = c.m_currentPosition ∧
    (playerStep.finish w c xform).m_currentOrientation = c.m_currentOrientation ∧
    (playerStep.finish w c xform).m_externalVelocity = c.m_externalVelocity ∧
    (playerStep.finish w c xform).m_ghostObject.worldTransform =
      ⟨xform.rotation, c.m_currentPosition⟩ := by
  unfold playerStep.finish
  dsimp only
  rw [recoverLoop_empty w hp, recoverFromPenetration_empty w hp]
  unfold testCollisions
  split_ifs <;> exact ⟨rfl, rfl, rfl, rfl⟩

theorem body_empty (M : LinearMath) (w : World) (hg : ∀ i m s e, w.ghostSweep i m s e = [])
    (hws : ∀ i m s e, w.worldSweep i m s e = []) (s : ForwardState) :
    stepForwardAndStrafe.body M w s =
      (false, ⟨{ s.c with
          m_currentPosition := s.c.m_targetPosition
          numSweepQueries := s.c.numSweepQueries +
            (if (!(Transform.same ⟨s.c.m_currentOrientation, s.c.m_currentPosition⟩
              ⟨s.c.m_targetOrientation, s.c.m_targetPosition⟩)) = true then 1 else 0) },
        s.fraction - 1, true, s.iterations + 1⟩) := by
  unfold stepForwardAndStrafe.body
  dsimp only
  by_cases h : (!(Transform.same ⟨s.c.m_currentOrientation, s.c.m_currentPosition⟩
      ⟨s.c.m_targetOrientation, s.c.m_targetPosition⟩)) = true
  · simp only [h, if_true, sweep_empty w hg hws, hitNeedsCollision_create, Bool.false_eq_true,
      if_false]
    rfl
  · simp only [h, if_false, hitNeedsCollision_create, Bool.false_eq_true]
    rfl

theorem loop_empty (M : LinearMath) (w : World) (hg : ∀ i m s e, w.ghostSweep i m s e = [])
    (hws : ∀ i m s e, w.worldSweep i m s e = []) (s : ForwardState) (hs : s.fraction = 1) :
    stepForwardAndStrafe.loop M w 10 s =
      ⟨{ s.c with
          m_currentPosition := s.c.m_targetPosition
          numSweepQueries := s.c.numSweepQueries +
            (if (!(Transform.same ⟨s.c.m_currentOrientation, s.c.m_currentPosition⟩
              ⟨s.c.m_targetOrientation, s.c.m_targetPosition⟩)) = true then 1 else 0) },
        s.fraction - 1, true, s.iterations + 1⟩ := by
  rw [stepForwardAndStrafe.loop]
  dsimp only
  rw [if_pos (by rw [hs]; norm_num), body_empty M w hg hws]
  dsimp only
  rw [if_neg (by decide)]
  exact loop_stops M w 9 _ (by dsimp only; rw [hs]; norm_num)

theorem stepForwardAndStrafe_empty (M : LinearMath) (w : World)
    (hg : ∀ i m s e, w.ghostSweep i m s e = [])
    (hws : ∀ i m s e, w.worldSweep i m s e = []) (c : Controller) :
    stepForwardAndStrafe M w c Vec3.zero =
      { c with
        m_targetPosition := c.m_currentPosition
        m_currentPosition := c.m_currentPosition
        numSweepQueries := c.numSweepQueries +
          (if (!(Transform.same ⟨c.m_currentOrientation, c.m_currentPosition⟩
            ⟨c.m_targetOrientation, c.m_currentPosition⟩)) = true then 1 else 0) } := by
  unfold stepForwardAndStrafe stepForwardAndStrafe.run
  dsimp only
  rw [loop_empty M w hg hws _ rfl]
  dsimp only
  rw [if_pos rfl, Vec3.add_zero]

theorem Vec3.add_scale_sub_scale (p u : Vec3) (h : Scalar) :
    (p.add (u.scale h)).sub (u.scale (h + 0)) = p := by
  simp [Vec3.add, Vec3.sub, Vec3.scale]

theorem Vec3.add_scale_zero (p u : Vec3) : p.add (u.scale 0) = p := by
  simp [Vec3.add, Vec3.scale]

theorem Vec3.move_offset_zero (lv : Vec3) :
    (lv.scale 0).add (Vec3.zero.scale 0) = Vec3.zero := by
  simp [Vec3.add, Vec3.scale, Vec3.zero]

/-- The state with which `playerStep` calls `stepDown`, for dt = 0 in a world without
obstacles. -/
theorem playerStep_before_stepDown (M : LinearMath) (w : World) (c : Controller)
    (hg : ∀ i m s e, w.ghostSweep i m s e = [])
    (hws : ∀ i m s e, w.worldSweep i m s e = [])
    (hsqrt : ∀ x : Scalar, 0 < x → 0 < M.btSqrt x) (hA : c.m_AngVel = Vec3.zero) :
    ∃ X, playerStep.displacementStep
        (stepForwardAndStrafe M w (stepUp w (playerStep.integrate M w c 0))
          (stepUp w (playerStep.integrate M w c 0)).m_moveOffset)
        (stepUp w (playerStep.integrate M w c 0)).m_currentPosition 0 = X ∧
      (playerStep.integrate M w c 0).m_ghostObject = c.m_ghostObject ∧
      X.m_currentOrientation = c.m_currentOrientation ∧
      X.m_externalVelocity = Vec3.zero ∧
      X.bounce_fix = c.bounce_fix ∧ X.m_fallSpeed = c.m_fallSpeed ∧
      (X.m_verticalVelocity > 0 → X.m_currentPosition = c.m_currentPosition) ∧
      (¬ X.m_verticalVelocity > 0 →
        X.m_targetPosition.sub (X.m_up.scale (X.m_currentStepOffset + 0)) =
          c.m_currentPosition) := by
  obtain ⟨lv, acc, ja, cs, h1⟩ := integrate_empty M w c 0 hg hws hsqrt hA
  rw [h1, stepUp_empty w hg hws]
  dsimp only
  rw [Vec3.move_offset_zero, stepForwardAndStrafe_empty M w hg hws]
  dsimp only
  unfold playerStep.displacementStep
  dsimp only
  by_cases hv : lv.y < 0
  · have hcond : (!false && decide (lv.y < 0)) = true := by simp [hv]
    rw [if_pos hcond]
    refine ⟨_, rfl, rfl, rfl, rfl, rfl, rfl, ?_, ?_⟩
    · intro h
      exact absurd h (not_lt.mpr (le_of_lt hv))
    · intro _
      dsimp only
      rw [if_pos hv]
      exact Vec3.add_scale_sub_scale _ _ _
  · have hcond : ¬ (!false && decide (lv.y < 0)) = true := by simp [hv]
    rw [if_neg hcond]
    refine ⟨_, rfl, rfl, rfl, rfl, rfl, rfl, ?_, ?_⟩
    · intro _
      dsimp only
      rw [if_neg hv]
      exact Vec3.add_scale_zero _ _
    · intro _
      dsimp only
      rw [if_neg hv]
      exact Vec3.add_scale_sub_scale _ _ 0

/-- A tick with dt = 0 in a world without obstacles, for a controller with zero angular
velocity: the position and the orientation are kept and the external velocity is cleared. -/
theorem playerStep_zero_dt_empty (M : LinearMath) (w : World) (c : Controller)
    (hg : ∀ i m s e, w.ghostSweep i m s e = [])
    (hws : ∀ i m s e, w.worldSweep i m s e = [])
    (hp : ∀ i t, w.overlappingPairs i t = [])
    (hsqrt : ∀ x : Scalar, 0 < x → 0 < M.btSqrt x) (hA : c.m_AngVel = Vec3.zero)
    (hfix : c.bounce_fix = false ∨ 0 ≤ c.m_fallSpeed) :
    ∃ c', playerStep M w c 0 = some c' ∧
      c'.m_currentPosition = c.m_currentPosition ∧
      c'.m_currentOrientation = c.m_currentOrientation ∧
      c'.m_ghostObject.worldTransform =
        ⟨c.m_ghostObject.worldTransform.rotation, c.m_currentPosition⟩ ∧
      c'.m_externalVelocity = Vec3.zero := by
  obtain ⟨X, hX, hghost, ho, he, hb, hf, hpos1, hpos2⟩ :=
    playerStep_before_stepDown M w c hg hws hsqrt hA
  have hfixX : X.bounce_fix = false ∨ 0 ≤ X.m_fallSpeed := by rw [hb, hf]; exact hfix
  obtain ⟨c', hd, ho', he', hp'⟩ := stepDown_empty w hg hws X hfixX
  have hpos : c'.m_currentPosition = c.m_currentPosition := by
    rw [hp']
    split_ifs with h
    · exact hpos1 h
    · exact hpos2 h
  obtain ⟨f1, f2, f3, f4⟩ := finish_empty w hp c'
    (playerStep.integrate M w c 0).m_ghostObject.worldTransform
  unfold playerStep
  dsimp only
  rw [hX, hd]
  refine ⟨_, rfl, ?_, ?_, ?_, ?_⟩
  · rw [f1, hpos]
  · rw [f2, ho', ho]
  · rw [f4, hghost, hpos]
  · rw [f3, he', he]

theorem Examples.math_sqrt_pos (x : Scalar) (h : 0 < x) : 0 < Examples.math.btSqrt x := by
  show 0 < (if x = 0 then (0 : Scalar) else if x = 1 then 1 else if x = 4 then 2
    else if x = 25 then 5 else (x + 1) / 2)
  split_ifs with h0 h1 h4 h25
  · exact absurd h0 (ne_of_gt h)
  · norm_num
  · norm_num
  · norm_num
  · linarith

/-- C5 (as amended): for every controller state with zero angular velocity (and the bounce-fix
mode off or a fall speed that is not negative) and every world without obstacles, `playerStep`
with dt = 0 returns, leaves the position and the orientation unchanged, puts the ghost object at
the unchanged position, and clears the external velocity, which it folds into the local
velocity. Nothing is said of the local velocity, which the tick scales by 1 - drag and then
recomputes as displacement / dt. -/
theorem playerStep_zero_dt_keeps_position (M : LinearMath) (w : World) (c : Controller)
    (hg : ∀ i m s e, w.ghostSweep i m s e = [])
    (hws : ∀ i m s e, w.worldSweep i m s e = [])
    (hp : ∀ i t, w.overlappingPairs i t = [])
    (hsqrt : ∀ x : Scalar, 0 < x → 0 < M.btSqrt x) (hA : c.m_AngVel = Vec3.zero)
    (hfix : c.bounce_fix = false ∨ 0 ≤ c.m_fallSpeed) :
    ∃ c', playerStep M w c 0 = some c' ∧
      c'.m_currentPosition = c.m_currentPosition ∧
      c'.m_currentOrientation = c.m_currentOrientation ∧
      c'.m_ghostObject.worldTransform =
        ⟨c.m_ghostObject.worldTransform.rotation, c.m_currentPosition⟩ ∧
      c'.m_externalVelocity = Vec3.zero :=
  playerStep_zero_dt_empty M w c hg hws hp hsqrt hA hfix

/-- C5 (witness): the example controller at rest, in the world without obstacles, keeps its
position and orientation over a tick with dt = 0. -/
theorem playerStep_zero_dt_keeps_position_witness :
    ∃ c', playerStep Examples.math Examples.emptyWorld Examples.controller 0 = some c' ∧
      c'.m_currentPosition = Examples.controller.m_currentPosition ∧
      c'.m_currentOrientation = Examples.controller.m_currentOrientation ∧
      c'.m_ghostObject.worldTransform =
        ⟨Examples.controller.m_ghostObject.worldTransform.rotation,
          Examples.controller.m_currentPosition⟩ ∧
      c'.m_externalVelocity = Vec3.zero :=
  playerStep_zero_dt_keeps_position Examples.math Examples.emptyWorld Examples.controller
    (fun _ _ _ _ => rfl) (fun _ _ _ _ => rfl) (fun _ _ => rfl) Examples.math_sqrt_pos rfl
    (Or.inl rfl)

/-- C5 (counterexample): the example controller with zero angular velocity and the external
velocity (1, 0, 0), in the world without obstacles: after `playerStep` with dt = 0 the external
velocity is the zero vector, not (1, 0, 0). -/
theorem playerStep_zero_dt_clears_external_velocity :
    Examples.carried.m_AngVel = Vec3.zero ∧
    Examples.carried.m_externalVelocity = ⟨1, 0, 0⟩ ∧
    ∃ c', playerStep Examples.math Examples.emptyWorld Examples.carried 0 = some c' ∧
      c'.m_externalVelocity = Vec3.zero ∧
      c'.m_externalVelocity ≠ Examples.carried.m_externalVelocity := by
  obtain ⟨c', h1, _, _, _, h2⟩ := playerStep_zero_dt_empty Examples.math Examples.emptyWorld
    Examples.carried (fun _ _ _ _ => rfl) (fun _ _ _ _ => rfl) (fun _ _ => rfl)
    Examples.math_sqrt_pos rfl (Or.inl rfl)
  refine ⟨rfl, rfl, c', h1, h2, ?_⟩
  rw [h2]
  decide

/-! ### The collision filter -/

/-- C19: `needsCollision(body0, body1)` is true exactly when the group of each object has a
bit in common with the mask of the other, and it is symmetric in its two arguments. -/
theorem needsCollision_iff_both_masks (body0 body1 : CollisionObject) :
    (needsCollision body0 body1 = true ↔
      Int.land body0.m_collisionFilterGroup body1.m_collisionFilterMask ≠ 0 ∧
      Int.land body1.m_collisionFilterGroup body0.m_collisionFilterMask ≠ 0) ∧
    needsCollision body0 body1 = needsCollision body1 body0 := by
  constructor
  · simp [needsCollision]
  · simp only [needsCollision]
    exact Bool.and_comm _ _

/-! ### The external velocity after a jump -/

theorem jump_externalVelocity (M : LinearMath) (c : Controller) (v : Vec3) :
    (jump M c v).m_externalVelocity =
      c.m_externalVelocity.setY (btMax 0 c.m_externalVelocity.y) := by
  unfold jump
  dsimp only
  split_ifs <;> rfl

/-- C11: a jump of a character that a platform carries with velocity (1, 0, 0) adds the
external velocity to the local velocity and leaves it set, so that `getLinearVelocity` counts it
twice; the airborne fold of `playerStep` clears it. -/
theorem jump_keeps_external_velocity :
    getLinearVelocity Examples.carried = ⟨1, 0, 0⟩ ∧
    (jump Examples.math Examples.carried Vec3.zero).m_localVelocity = ⟨1, 10, 0⟩ ∧
    (jump Examples.math Examples.carried Vec3.zero).m_externalVelocity = ⟨1, 0, 0⟩ ∧
    getLinearVelocity (jump Examples.math Examples.carried Vec3.zero) = ⟨2, 10, 0⟩ ∧
    (playerStep.externalStep Examples.math Examples.carried).m_externalVelocity = Vec3.zero := by
  decide!

/-! ### A velocity for a time interval -/

/-- C12: `setVelocityForTimeInterval((1, 0, 0), -1)` on a controller at rest stores the
velocity as walk direction and as normalised direction and lowers the time interval to -1. -/
theorem setVelocityForTimeInterval_negative_duration :
    Examples.controller.m_walkDirection = Vec3.zero ∧
    Examples.controller.m_velocityTimeInterval = 0 ∧
    (setVelocityForTimeInterval Examples.math Examples.controller ⟨1, 0, 0⟩ (-1)).m_walkDirection =
      ⟨1, 0, 0⟩ ∧
    (setVelocityForTimeInterval Examples.math Examples.controller ⟨1, 0, 0⟩
      (-1)).m_normalizedDirection = ⟨1, 0, 0⟩ ∧
    (setVelocityForTimeInterval Examples.math Examples.controller ⟨1, 0, 0⟩
      (-1)).m_velocityTimeInterval = -1 := by
  decide!

/-! ### Reset -/

/-- C15: `reset` clears the vertical velocity, the vertical offset, the flags `wasOnGround` and
`wasJumping`, the walk direction, the time interval and the pair cache, and it leaves the local
velocity, the external velocity and the flag `onGround` as they were. -/
theorem reset_clears_vertical_state_only (c : Controller) :
    (reset c).m_verticalVelocity = 0 ∧ (reset c).m_verticalOffset = 0 ∧
    (reset c).m_wasOnGround = false ∧ (reset c).m_wasJumping = false ∧
    (reset c).m_walkDirection = Vec3.zero ∧ (reset c).m_velocityTimeInterval = 0 ∧
    (reset c).ghostPairs = [] ∧
    (reset c).m_localVelocity = c.m_localVelocity ∧
    (reset c).m_externalVelocity = c.m_externalVelocity ∧
    (reset c).m_onGround = c.m_onGround :=
  ⟨rfl, rfl, rfl, rfl, rfl, rfl, rfl, rfl, rfl, rfl⟩

/-- C15, counterexample: after `reset` a character that rode a platform on the ground still has
its local velocity (3, 0, 0), its external velocity (1, 0, 0) and `onGround` set. -/
theorem reset_keeps_velocities_and_onGround :
    (reset Examples.riding).m_localVelocity = ⟨3, 0, 0⟩ ∧
    (reset Examples.riding).m_externalVelocity = ⟨1, 0, 0⟩ ∧
    (reset Examples.riding).m_onGround = true := by
  decide!

/-! ### The walk direction -/

theorem Vec3.length2_divScalar (w : Vec3) (s : Scalar) (hs : s * s = w.length2) (h0 : s ≠ 0) :
    (w.divScalar s).length2 = 1 := by
  have hss : s * s ≠ 0 := mul_ne_zero h0 h0
  simp only [Vec3.divScalar, Vec3.scale, Vec3.length2, Vec3.dot] at hs ⊢
  field_simp
  linarith

theorem Vec3.add_add (a b c : Vec3) : (a.add b).add c = a.add (b.add c) := by
  simp [Vec3.add, add_assoc]

theorem isEmpty_append_eq (l1 l2 : List Vec3) :
    (l1 ++ l2).isEmpty = (l1.isEmpty && l2.isEmpty) := by
  cases l1 <;> simp

theorem Vec3.sum_append (l1 l2 : List Vec3) :
    Vec3.sum (l1 ++ l2) = (Vec3.sum l1).add (Vec3.sum l2) := by
  induction l1 with
  | nil => simp [Vec3.sum, Vec3.add, Vec3.zero]
  | cons a l ih =>
    simp only [Vec3.sum, List.cons_append, List.foldr_cons] at ih ⊢
    rw [ih, Vec3.add_add]

/-- The corrections of one manifold, as the specification lists them. -/
theorem point_foldl (maxPen s : Scalar) (contacts : List ManifoldPoint) (acc : Vec3 × Bool) :
    contacts.foldl (recoverFromPenetration.point maxPen s) acc =
      (acc.1.add (Vec3.sum ((contacts.filter fun pt => decide (pt.distance < -maxPen)).map
          fun pt => ((pt.m_normalWorldOnB.scale s).scale pt.distance).scale (2 / 10))),
        acc.2 || !((contacts.filter fun pt => decide (pt.distance < -maxPen)).map
          fun pt => ((pt.m_normalWorldOnB.scale s).scale pt.distance).scale (2 / 10)).isEmpty) := by
  induction contacts generalizing acc with
  | nil => simp [Vec3.sum, Vec3.add_zero]
  | cons pt l ih =>
    rw [List.foldl_cons, ih]
    by_cases h : pt.distance < -maxPen
    · simp [recoverFromPenetration.point, h, Vec3.sum, Vec3.add_add]
    · simp [recoverFromPenetration.point, h]

theorem manifold_foldl (ghost : CollisionObject) (maxPen : Scalar)
    (manifolds : List PersistentManifold) (acc : Vec3 × Bool) :
    manifolds.foldl (recoverFromPenetration.manifold ghost.id maxPen) acc =
      (acc.1.add (Vec3.sum (manifolds.flatMap fun manifold =>
          (manifold.contacts.filter fun pt => decide (pt.distance < -maxPen)).map
            fun pt =>
              ((pt.m_normalWorldOnB.scale (if manifold.body0.id = ghost.id then -1 else 1)).scale
                pt.distance).scale (2 / 10))),
        acc.2 || !(manifolds.flatMap fun manifold =>
          (manifold.contacts.filter fun pt => decide (pt.distance < -maxPen)).map
            fun pt =>
              ((pt.m_normalWorldOnB.scale (if manifold.body0.id = ghost.id then -1 else 1)).scale
                pt.distance).scale (2 / 10)).isEmpty) := by
  induction manifolds generalizing acc with
  | nil => simp [Vec3.sum, Vec3.add_zero]
  | cons m l ih =>
    rw [List.foldl_cons, ih]
    simp only [recoverFromPenetration.manifold, point_foldl, List.flatMap_cons, Vec3.sum_append,
      Vec3.add_add, isEmpty_append_eq, Bool.not_and, Bool.or_assoc]

theorem pair_foldl (ghost : CollisionObject) (maxPen : Scalar) (pairs : List BroadphasePair)
    (acc : Vec3 × Bool) :
    pairs.foldl (recoverFromPenetration.pair ghost maxPen) acc =
      (acc.1.add (Vec3.sum (penetrationCorrections ghost maxPen pairs)),
        acc.2 || !(penetrationCorrections ghost maxPen pairs).isEmpty) := by
  induction pairs generalizing acc with
  | nil => simp [penetrationCorrections, Vec3.sum, Vec3.add_zero]
  | cons p l ih =>
    rw [List.foldl_cons, ih]
    have hcons : penetrationCorrections ghost maxPen (p :: l) =
        penetrationCorrections ghost maxPen [p] ++ penetrationCorrections ghost maxPen l := by
      simp [penetrationCorrections]
    rw [hcons, Vec3.sum_append, isEmpty_append_eq, Bool.not_and, ← Bool.or_assoc,
      ← Vec3.add_add]
    have hp : recoverFromPenetration.pair ghost maxPen acc p =
        (acc.1.add (Vec3.sum (penetrationCorrections ghost maxPen [p])),
          acc.2 || !(penetrationCorrections ghost maxPen [p]).isEmpty) := by
      unfold recoverFromPenetration.pair
      cases h0 : p.obj0.contactResponse <;> cases h1 : p.obj1.contactResponse <;>
        cases hn : needsCollision p.obj0 p.obj1 <;>
        simp [penetrationCorrections, h0, h1, hn, Vec3.sum, Vec3.add_zero]
      cases hm : p.m_algorithm with
      | none => simp [Vec3.add_zero]
      | some ms =>
        have := manifold_foldl ghost maxPen ms acc
        simp only [Vec3.sum] at this
        simp [this]
    rw [hp]

/-- C20: `recoverFromPenetration` moves the origin of the ghost object, and the current
position with it, by the sum of the corrections that the specification lists for the overlapping
pairs of the call; it returns true exactly when that list is not empty; with an empty list the
origin stays; and a contact at exactly `-maxPenetrationDepth` adds no correction. -/
theorem recoverFromPenetration_sums_corrections (w : World) (c : Controller) :
    (recoverFromPenetration w c).2.m_ghostObject.worldTransform.origin =
      c.m_ghostObject.worldTransform.origin.add
        (Vec3.sum (penetrationCorrections c.m_ghostObject c.m_maxPenetrationDepth
          (w.overlappingPairs c.numRecoverCalls c.m_ghostObject.worldTransform))) ∧
    (recoverFromPenetration w c).2.m_currentPosition =
      (recoverFromPenetration w c).2.m_ghostObject.worldTransform.origin ∧
    ((recoverFromPenetration w c).1 = true ↔
      penetrationCorrections c.m_ghostObject c.m_maxPenetrationDepth
        (w.overlappingPairs c.numRecoverCalls c.m_ghostObject.worldTransform) ≠ []) ∧
    (penetrationCorrections c.m_ghostObject c.m_maxPenetrationDepth
        (w.overlappingPairs c.numRecoverCalls c.m_ghostObject.worldTransform) = [] →
      (recoverFromPenetration w c).2.m_ghostObject.worldTransform.origin =
        c.m_ghostObject.worldTransform.origin) ∧
    (∀ (s : Scalar) (acc : Vec3 × Bool) (pt : ManifoldPoint),
      pt.distance = -c.m_maxPenetrationDepth →
        recoverFromPenetration.point c.m_maxPenetrationDepth s acc pt = acc) := by
  have key : recoverFromPenetration w c =
      ((c.m_ghostObject.worldTransform.origin.add
          (Vec3.sum (penetrationCorrections c.m_ghostObject c.m_maxPenetrationDepth
            (w.overlappingPairs c.numRecoverCalls c.m_ghostObject.worldTransform))),
        false || !(penetrationCorrections c.m_ghostObject c.m_maxPenetrationDepth
            (w.overlappingPairs c.numRecoverCalls c.m_ghostObject.worldTransform)).isEmpty).2,
       (recoverFromPenetration w c).2) := by
    unfold recoverFromPenetration
    dsimp only
    rw [pair_foldl]
  have horigin : (recoverFromPenetration w c).2.m_ghostObject.worldTransform.origin =
      c.m_ghostObject.worldTransform.origin.add
        (Vec3.sum (penetrationCorrections c.m_ghostObject c.m_maxPenetrationDepth
          (w.overlappingPairs c.numRecoverCalls c.m_ghostObject.worldTransform))) := by
    unfold recoverFromPenetration
    dsimp only [Controller.setGhostTransform]
    rw [pair_foldl]
  refine ⟨horigin, ?_, ?_, ?_, ?_⟩
  · unfold recoverFromPenetration
    rfl
  · rw [key]
    simp [List.isEmpty_iff]
  · intro h
    rw [horigin, h]
    simp [Vec3.sum, Vec3.add_zero]
  · intro s acc pt h
    simp [recoverFromPenetration.point, h]

theorem recoverFromPenetration_sums_corrections_witness :
    (recoverFromPenetration Examples.stuckWorld
        Examples.controller).2.m_ghostObject.worldTransform.origin =
      Examples.controller.m_ghostObject.worldTransform.origin.add ⟨1 / 5, 0, 0⟩ ∧
    (recoverFromPenetration Examples.emptyWorld
        Examples.controller).2.m_ghostObject.worldTransform.origin =
      Examples.controller.m_ghostObject.worldTransform.origin :=
  ⟨(recoverFromPenetration_sums_corrections Examples.stuckWorld Examples.controller).1.trans
      (by decide!),
    (recoverFromPenetration_sums_corrections Examples.emptyWorld Examples.controller).2.2.2.1
      (by decide!)⟩

/-! ### The members that a tick leaves alone -/

theorem sweep_settings (w : World) (c : Controller) (g : Bool) (s e : Transform)
    (cb : ConvexResultCallback) : (c.sweep w g s e cb).2.frame = c.frame := rfl

theorem angularStep_settings (M : LinearMath) (c : Controller) (dt : Scalar) :
    (playerStep.angularStep M c dt).frame = c.frame ∧
    (playerStep.angularStep M c dt).m_onGround = c.m_onGround := by
  unfold playerStep.angularStep
  dsimp only
  split_ifs <;> exact ⟨rfl, rfl⟩

theorem inheritVelocity_settings (w : World) (c : Controller) (dt : Scalar) :
    (inheritVelocity w c dt).frame = c.frame := by
  unfold inheritVelocity inheritVelocity.probe
  dsimp only
  split_ifs
  · split <;> rfl
  · rfl

theorem externalStep_settings (M : LinearMath) (c : Controller) :
    (playerStep.externalStep M c).frame = c.frame := by
  unfold playerStep.externalStep
  dsimp only
  split_ifs <;> rfl

theorem resistanceStep_settings (c : Controller) :
    (playerStep.resistanceStep c).frame = c.frame := by
  unfold playerStep.resistanceStep
  dsimp only
  split_ifs <;> rfl

theorem integrate_settings (M : LinearMath) (w : World) (c : Controller) (dt : Scalar) :
    (playerStep.integrate M w c dt).frame = (c.settings, c.m_onGround) := by
  have h1 := angularStep_settings M c dt
  have h2 : (playerStep.angularStep M c dt).settings = c.settings := congrArg Prod.fst h1.1
  have e : playerStep.integrate M w c dt =
      playerStep.offsetStep M (playerStep.accelerationStep (playerStep.resistanceStep
        (playerStep.dampingStep M (playerStep.externalStep M (inheritVelocity w
          { { playerStep.angularStep M c dt with
              m_wasOnGround := (playerStep.angularStep M c dt).m_onGround } with
            m_onGround := false } dt)) dt)) dt) dt := rfl
  have a : ∀ c0 : Controller, (playerStep.offsetStep M c0 dt).frame = c0.frame := fun _ => rfl
  have b : ∀ c0 : Controller, (playerStep.accelerationStep c0 dt).frame = c0.frame :=
    fun _ => rfl
  have d : ∀ c0 : Controller, (playerStep.dampingStep M c0 dt).frame = c0.frame := fun _ => rfl
  rw [e, a, b, resistanceStep_settings, d, externalStep_settings, inheritVelocity_settings]
  show ((playerStep.angularStep M c dt).settings, (playerStep.angularStep M c dt).m_onGround) = _
  rw [h1.2, h2]

theorem recoverFromPenetration_settings (w : World) (c : Controller) :
    (recoverFromPenetration w c).2.frame = c.frame := rfl

theorem penetrationLoop_settings (w : World) :
    ∀ (k n : Nat) (c : Controller), n + k = 4 → (penetrationLoop w c n).frame = c.frame := by
  intro k
  induction k with
  | zero =>
    intro n c hk
    rw [penetrationLoop]
    have hn : n + 1 > 4 := by omega
    by_cases hp : (recoverFromPenetration w c).1 = true
    · simp only [hp, hn, if_true]
      rfl
    · simp only [hp, Bool.false_eq_true, if_false]
      rfl
  | succ k ih =>
    intro n c hk
    rw [penetrationLoop]
    by_cases hp : (recoverFromPenetration w c).1 = true
    · have hn : ¬ (n + 1 > 4) := by omega
      simp only [hp, hn, if_true, if_false]
      rw [ih (n + 1) _ (by omega)]
      rfl
    · simp only [hp, Bool.false_eq_true, if_false]
      rfl

theorem recoverLoop_settings (w : World) (c : Controller) :
    (recoverLoop w c).frame = c.frame :=
  penetrationLoop_settings w 4 0 _ rfl

theorem stepUp_settings (w : World) (c : Controller) : (stepUp w c).frame = c.frame := by
  have h := recoverLoop_settings w
  unfold stepUp
  dsimp only
  split_ifs <;>
    first
    | rfl
    | exact (h _).trans rfl

theorem updateTarget_settings (M : LinearMath) (c : Controller) (n : Vec3) (t m : Scalar) :
    (updateTargetPositionBasedOnCollision M c n t m).frame = c.frame := by
  obtain ⟨x, h⟩ := updateTargetPositionBasedOnCollision_frame M c n t m
  rw [h]
  rfl

theorem body_settings (M : LinearMath) (w : World) (s : ForwardState) :
    (stepForwardAndStrafe.body M w s).2.c.frame = s.c.frame := by
  have h := updateTarget_settings M
  unfold stepForwardAndStrafe.body
  dsimp only
  split_ifs <;>
    first
    | rfl
    | exact (h _ _ _ _).trans rfl

theorem loop_settings (M : LinearMath) (w : World) :
    ∀ (n : Nat) (s : ForwardState), (stepForwardAndStrafe.loop M w n s).c.frame = s.c.frame := by
  intro n
  induction n with
  | zero =>
    intro s
    rw [stepForwardAndStrafe.loop]
  | succ n ih =>
    intro s
    rw [stepForwardAndStrafe.loop]
    dsimp only
    split_ifs
    · exact body_settings M w s
    · rw [ih]
      exact body_settings M w s
    · rfl

theorem stepForwardAndStrafe_settings (M : LinearMath) (w : World) (c : Controller)
    (walkMove : Vec3) : (stepForwardAndStrafe M w c walkMove).frame = c.frame := by
  have h := loop_settings M w 10
  unfold stepForwardAndStrafe stepForwardAndStrafe.run
  dsimp only
  split_ifs <;> exact (h _).trans rfl

theorem displacementStep_settings (c : Controller) (p : Vec3) (dt : Scalar) :
    (playerStep.displacementStep c p dt).frame = c.frame := by
  unfold playerStep.displacementStep
  dsimp only
  split_ifs <;> rfl

theorem probe_settings (w : World) (s : DownState) :
    (stepDown.probe w s).c.frame = s.c.frame ∧ (stepDown.probe w s).runonce = s.runonce := by
  unfold stepDown.probe
  dsimp only
  split_ifs <;> exact ⟨rfl, rfl⟩

theorem stepDown_loop_settings (w : World) (dt : Scalar) (orig : Vec3) :
    ∀ (k : Nat) (s s' : DownState), (if s.runonce then 0 else 1) ≤ k →
      stepDown.loop w dt orig s = some s' → s'.c.frame = s.c.frame := by
  intro k
  induction k with
  | zero =>
    intro s s' hk
    have hr : s.runonce = true := by
      by_contra h
      simp [h] at hk
    rw [stepDown.loop]
    dsimp only
    split
    · intro h
      exact absurd h (by simp)
    · rw [dif_neg (by simp [hr])]
      intro h
      rw [← Option.some.inj h]
      exact (probe_settings w s).1
  | succ k ih =>
    intro s s' _
    rw [stepDown.loop]
    dsimp only
    generalize (if (stepDown.probe w s).c.m_verticalVelocity < 0 then
      -(stepDown.probe w s).c.m_verticalVelocity else 0) * dt = dv
    generalize (if (stepDown.probe w s).c.m_verticalVelocity < 0 then
      (stepDown.probe w s).c.m_stepHeight else 0) = sh
    split
    · intro h
      exact absurd h (by simp)
    · split_ifs with hc
      · intro h
        rw [ih _ s' (by simp) h]
        exact (probe_settings w s).1
      · intro h
        rw [← Option.some.inj h]
        exact (probe_settings w s).1

theorem stepDown_settings (w : World) (c : Controller) (dt : Scalar) :
    ∀ c', stepDown w c dt = some c' → c'.frame = c.frame := by
  have hl := stepDown_loop_settings w dt c.m_targetPosition 1
  unfold stepDown
  dsimp only
  by_cases hv : c.m_verticalVelocity > 0
  · rw [if_pos hv]
    intro c' h
    rw [← Option.some.inj h]
  · rw [if_neg hv]
    generalize hs : stepDown.loop w dt c.m_targetPosition _ = r
    cases r with
    | none =>
      intro c' h
      exact absurd h (by simp)
    | some s =>
      have h2 := hl _ s (by simp) hs
      dsimp only
      split_ifs <;> intro c' h <;> rw [← Option.some.inj h] <;> exact h2.trans rfl

theorem testCollisions_settings (w : World) (c : Controller) :
    (testCollisions w c).frame = c.frame := by
  obtain ⟨x, h⟩ := testCollisions_frame w c
  rw [h]
  rfl

theorem finish_settings (w : World) (c : Controller) (xform : Transform) :
    (playerStep.finish w c xform).frame = c.frame := by
  unfold playerStep.finish
  dsimp only
  rw [testCollisions_settings, recoverLoop_settings]
  split_ifs <;> rfl

/-- A tick keeps the settings, and it ends with `m_wasOnGround` at the value that `m_onGround`
had when the tick began. -/
theorem playerStep_settings (M : LinearMath) (w : World) (c c' : Controller) (dt : Scalar)
    (h : playerStep M w c dt = some c') : c'.frame = (c.settings, c.m_onGround) := by
  unfold playerStep at h
  dsimp only at h
  split at h
  · exact absurd h (by simp)
  · rename_i c2 h2
    rw [← Option.some.inj h, finish_settings, stepDown_settings w _ dt c2 h2,
      displacementStep_settings, stepForwardAndStrafe_settings, stepUp_settings,
      integrate_settings]

/-! ### A tick returns when the bounce fix is off -/

theorem frame_bounce_fix (c c' : Controller) (h : c'.frame = c.frame) :
    c'.bounce_fix = c.bounce_fix :=
  congrArg (fun f => f.1.bounce_fix) h

theorem has_hit_some (c : Controller) (cb cb2 : ConvexResultCallback)
    (hb : c.bounce_fix = false) : ∃ b, stepDown.has_hit c cb cb2 = some b := by
  unfold stepDown.has_hit
  rw [if_neg (by simp [hb])]
  exact ⟨_, rfl⟩

theorem stepDown_loop_total (w : World) (dt : Scalar) (orig : Vec3) :
    ∀ (k : Nat) (s : DownState), (if s.runonce then 0 else 1) ≤ k → s.c.bounce_fix = false →
      ∃ s', stepDown.loop w dt orig s = some s' := by
  intro k
  induction k with
  | zero =>
    intro s hk hb
    have hr : s.runonce = true := by
      by_contra h
      simp [h] at hk
    have hb1 : (stepDown.probe w s).c.bounce_fix = false :=
      (frame_bounce_fix _ _ (probe_settings w s).1).trans hb
    obtain ⟨b, hh⟩ := has_hit_some (stepDown.probe w s).c (stepDown.probe w s).callback
      (stepDown.probe w s).callback2 hb1
    rw [stepDown.loop]
    dsimp only
    rw [hh]
    dsimp only
    rw [dif_neg (by simp [hr])]
    exact ⟨_, rfl⟩
  | succ k ih =>
    intro s _ hb
    have hb1 : (stepDown.probe w s).c.bounce_fix = false :=
      (frame_bounce_fix _ _ (probe_settings w s).1).trans hb
    obtain ⟨b, hh⟩ := has_hit_some (stepDown.probe w s).c (stepDown.probe w s).callback
      (stepDown.probe w s).callback2 hb1
    rw [stepDown.loop]
    dsimp only
    rw [hh]
    dsimp only
    generalize (if (stepDown.probe w s).c.m_verticalVelocity < 0 then
      -(stepDown.probe w s).c.m_verticalVelocity else 0) * dt = dv
    generalize (if (stepDown.probe w s).c.m_verticalVelocity < 0 then
      (stepDown.probe w s).c.m_stepHeight else 0) = sh
    split_ifs with hc
    · exact ih _ (by simp) hb1
    · exact ⟨_, rfl⟩

theorem stepDown_total (w : World) (c : Controller) (dt : Scalar) (hb : c.bounce_fix = false) :
    ∃ c', stepDown w c dt = some c' := by
  have hl := stepDown_loop_total w dt c.m_targetPosition 1
  unfold stepDown
  dsimp only
  by_cases hv : c.m_verticalVelocity > 0
  · rw [if_pos hv]
    exact ⟨_, rfl⟩
  · rw [if_neg hv]
    generalize hs : stepDown.loop w dt c.m_targetPosition _ = r
    have hex : ∃ s', r = some s' := by
      rw [← hs]
      exact hl _ (by simp) hb
    obtain ⟨s', hs'⟩ := hex
    rw [hs']
    dsimp only
    split_ifs <;> exact ⟨_, rfl⟩

/-- A tick of a controller with the bounce fix off, as the constructor leaves it, returns. -/
theorem playerStep_total (M : LinearMath) (w : World) (c : Controller) (dt : Scalar)
    (hb : c.bounce_fix = false) : ∃ c', playerStep M w c dt = some c' := by
  unfold playerStep
  dsimp only
  have h1 : (playerStep.displacementStep
      (stepForwardAndStrafe M w (stepUp w (playerStep.integrate M w c dt))
        (stepUp w (playerStep.integrate M w c dt)).m_moveOffset)
      (stepUp w (playerStep.integrate M w c dt)).m_currentPosition dt).bounce_fix = false := by
    have hf : (playerStep.displacementStep
        (stepForwardAndStrafe M w (stepUp w (playerStep.integrate M w c dt))
          (stepUp w (playerStep.integrate M w c dt)).m_moveOffset)
        (stepUp w (playerStep.integrate M w c dt)).m_currentPosition dt).frame =
        (c.settings, c.m_onGround) := by
      rw [displacementStep_settings, stepForwardAndStrafe_settings, stepUp_settings,
        integrate_settings]
    exact (congrArg (fun f => f.1.bounce_fix) hf).trans hb
  obtain ⟨c2, h2⟩ := stepDown_total w _ dt h1
  rw [h2]
  exact ⟨_, rfl⟩

theorem playerSteps_settings (M : LinearMath) (w : World) :
    ∀ (dts : List Scalar) (c : Controller), c.bounce_fix = false →
      ∃ c', playerSteps M w c dts = some c' ∧ c'.settings = c.settings := by
  intro dts
  induction dts with
  | nil =>
    intro c _
    exact ⟨c, rfl, rfl⟩
  | cons dt dts ih =>
    intro c hb
    obtain ⟨c1, h1⟩ := playerStep_total M w c dt hb
    have hs : c1.settings = c.settings := congrArg Prod.fst (playerStep_settings M w c c1 dt h1)
    have hb1 : c1.bounce_fix = false := (congrArg Settings.bounce_fix hs).trans hb
    obtain ⟨c', h2, h3⟩ := ih c1 hb1
    refine ⟨c', ?_, h3.trans hs⟩
    rw [playerSteps, h1]
    exact h2

/-! ### A velocity for a time interval does not expire -/

/-- C13: after `setVelocityForTimeInterval(v, T)` every sequence of ticks returns, whatever its
time steps sum to, and it ends with the walk direction `v`, the normalised direction of `v` and
the time interval that the call left: no tick reads or lowers the interval. -/
theorem timed_velocity_never_expires (M : LinearMath) (w : World) (c : Controller) (v : Vec3)
    (T : Scalar) (dts : List Scalar) (hb : c.bounce_fix = false) :
    ∃ c', playerSteps M w (setVelocityForTimeInterval M c v T) dts = some c' ∧
      c'.m_walkDirection = v ∧ c'.m_normalizedDirection = getNormalizedVector M v ∧
      c'.m_velocityTimeInterval = c.m_velocityTimeInterval + T := by
  obtain ⟨c', h1, h2⟩ := playerSteps_settings M w dts (setVelocityForTimeInterval M c v T) hb
  exact ⟨c', h1, congrArg Settings.m_walkDirection h2,
    congrArg Settings.m_normalizedDirection h2, congrArg Settings.m_velocityTimeInterval h2⟩

theorem timed_velocity_never_expires_witness :
    ∃ c', playerSteps Examples.math Examples.emptyWorld
        (setVelocityForTimeInterval Examples.math Examples.controller ⟨1, 0, 0⟩ 1) [1, 1] =
          some c' ∧
      c'.m_walkDirection = ⟨1, 0, 0⟩ ∧ c'.m_velocityTimeInterval = 1 := by
  obtain ⟨c', h1, h2, _, h4⟩ := timed_velocity_never_expires Examples.math Examples.emptyWorld
    Examples.controller ⟨1, 0, 0⟩ 1 [1, 1] rfl
  exact ⟨c', h1, h2, h4.trans (by decide!)⟩

/-! ### The flag wasOnGround over two ticks -/

/-- C18: two consecutive ticks of a controller with the bounce fix off return, and in the second
tick the flag `m_wasOnGround` has, from its assignment at the head of the tick to the end of the
tick, the value that `m_onGround` had at the end of the first tick. -/
theorem wasOnGround_is_previous_onGround (M : LinearMath) (w : World) (c : Controller)
    (dt1 dt2 : Scalar) (hb : c.bounce_fix = false) :
    ∃ c1 c2, playerStep M w c dt1 = some c1 ∧ playerStep M w c1 dt2 = some c2 ∧
      (playerStep.integrate M w c1 dt2).m_wasOnGround = c1.m_onGround ∧
      c2.m_wasOnGround = c1.m_onGround := by
  obtain ⟨c1, h1⟩ := playerStep_total M w c dt1 hb
  have hb1 : c1.bounce_fix = false :=
    (congrArg (fun f => f.1.bounce_fix) (playerStep_settings M w c c1 dt1 h1)).trans hb
  obtain ⟨c2, h2⟩ := playerStep_total M w c1 dt2 hb1
  exact ⟨c1, c2, h1, h2, congrArg Prod.snd (integrate_settings M w c1 dt2),
    congrArg Prod.snd (playerStep_settings M w c1 c2 dt2 h2)⟩

theorem wasOnGround_is_previous_onGround_witness :
    ∃ c1 c2, playerStep Examples.math (Examples.hitWorld Examples.floorHit) Examples.controller 1 = some c1 ∧
      playerStep Examples.math (Examples.hitWorld Examples.floorHit) c1 1 = some c2 ∧
      c2.m_wasOnGround = c1.m_onGround := by
  obtain ⟨c1, c2, h1, h2, _, h4⟩ := wasOnGround_is_previous_onGround Examples.math
    (Examples.hitWorld Examples.floorHit) Examples.controller 1 1 rfl
  exact ⟨c1, c2, h1, h2, h4⟩

/-! ### The slope cosine follows the slope angle -/

theorem setUpVector_settings (M : LinearMath) (c : Controller) (up : Vec3) :
    (setUpVector M c up).bounce_fix = c.bounce_fix ∧
    (setUpVector M c up).m_maxSlopeRadians = c.m_maxSlopeRadians ∧
    (setUpVector M c up).m_maxSlopeCosine = c.m_maxSlopeCosine := by
  unfold setUpVector
  dsimp only
  split_ifs <;> exact ⟨rfl, rfl, rfl⟩

theorem setGravity_settings (M : LinearMath) (c : Controller) (gravity : Vec3) :
    (setGravity M c gravity).bounce_fix = c.bounce_fix ∧
    (setGravity M c gravity).m_maxSlopeRadians = c.m_maxSlopeRadians ∧
    (setGravity M c gravity).m_maxSlopeCosine = c.m_maxSlopeCosine := by
  have h := setUpVector_settings M c gravity.neg
  unfold setGravity
  dsimp only
  split_ifs
  · exact h
  · exact ⟨rfl, rfl, rfl⟩

theorem setUp_settings (M : LinearMath) (c : Controller) (up : Vec3) :
    (setUp M c up).bounce_fix = c.bounce_fix ∧
    (setUp M c up).m_maxSlopeRadians = c.m_maxSlopeRadians ∧
    (setUp M c up).m_maxSlopeCosine = c.m_maxSlopeCosine := by
  unfold setUp
  split_ifs
  · exact setGravity_settings M c _
  · exact setUpVector_settings M c up

theorem jump_settings (M : LinearMath) (c : Controller) (v : Vec3) :
    (jump M c v).bounce_fix = c.bounce_fix ∧
    (jump M c v).m_maxSlopeRadians = c.m_maxSlopeRadians ∧
    (jump M c v).m_maxSlopeCosine = c.m_maxSlopeCosine ∧ (jump M c v).m_up = c.m_up := by
  unfold jump
  dsimp only
  split_ifs <;> exact ⟨rfl, rfl, rfl, rfl⟩

theorem settings_fields (c c' : Controller) (h : c'.settings = c.settings) :
    c'.bounce_fix = c.bounce_fix ∧ c'.m_maxSlopeRadians = c.m_maxSlopeRadians ∧
    c'.m_maxSlopeCosine = c.m_maxSlopeCosine ∧ c'.m_up = c.m_up :=
  ⟨congrArg Settings.bounce_fix h, congrArg Settings.m_maxSlopeRadians h,
    congrArg Settings.m_maxSlopeCosine h, congrArg Settings.m_up h⟩

theorem playerStep_fields (M : LinearMath) (w : World) (c : Controller) (dt : Scalar)
    (hb : c.bounce_fix = false) :
    ∃ c', playerStep M w c dt = some c' ∧ c'.bounce_fix = false ∧
      c'.m_maxSlopeRadians = c.m_maxSlopeRadians ∧
      c'.m_maxSlopeCosine = c.m_maxSlopeCosine ∧ c'.m_up = c.m_up := by
  obtain ⟨c', h⟩ := playerStep_total M w c dt hb
  obtain ⟨h1, h2, h3, h4⟩ :=
    settings_fields c c' (congrArg Prod.fst (playerStep_settings M w c c' dt h))
  exact ⟨c', h, h1.trans hb, h2, h3, h4⟩

/-- Every public member function returns on a controller with the bounce fix off and leaves it
off; only `setMaxSlope` assigns the slope angle and the slope cosine, and only `setUp` and
`setGravity` assign the up vector. -/
theorem op_apply_settings (M : LinearMath) (c : Controller) (op : Op)
    (hb : c.bounce_fix = false) :
    ∃ c', op.apply M c = some c' ∧ c'.bounce_fix = false ∧
      ((∀ r, op ≠ Op.setMaxSlope r) →
        c'.m_maxSlopeRadians = c.m_maxSlopeRadians ∧
        c'.m_maxSlopeCosine = c.m_maxSlopeCosine) ∧
      (op.upArgument = none → c'.m_up = c.m_up) := by
  cases op with
  | updateAction w dt =>
    obtain ⟨c', h, h1, h2, h3, h4⟩ := playerStep_fields M w (preStep c) dt hb
    exact ⟨c', h, h1, fun _ => ⟨h2, h3⟩, fun _ => h4⟩
  | playerStep w dt =>
    obtain ⟨c', h, h1, h2, h3, h4⟩ := playerStep_fields M w c dt hb
    exact ⟨c', h, h1, fun _ => ⟨h2, h3⟩, fun _ => h4⟩
  | setUp up =>
    obtain ⟨h1, h2, h3⟩ := setUp_settings M c up
    exact ⟨_, rfl, h1.trans hb, fun _ => ⟨h2, h3⟩, fun h => absurd h (by simp [Op.upArgument])⟩
  | setGravity g =>
    obtain ⟨h1, h2, h3⟩ := setGravity_settings M c g
    exact ⟨_, rfl, h1.trans hb, fun _ => ⟨h2, h3⟩, fun h => absurd h (by simp [Op.upArgument])⟩
  | jump v =>
    obtain ⟨h1, h2, h3, h4⟩ := jump_settings M c v
    exact ⟨_, rfl, h1.trans hb, fun _ => ⟨h2, h3⟩, fun _ => h4⟩
  | applyImpulse v =>
    obtain ⟨h1, h2, h3, h4⟩ := jump_settings M c v
    exact ⟨_, rfl, h1.trans hb, fun _ => ⟨h2, h3⟩, fun _ => h4⟩
  | inheritVelocity w dt =>
    obtain ⟨h1, h2, h3, h4⟩ :=
      settings_fields c _ (congrArg Prod.fst (inheritVelocity_settings w c dt))
    exact ⟨_, rfl, h1.trans hb, fun _ => ⟨h2, h3⟩, fun _ => h4⟩
  | testCollisions w =>
    obtain ⟨h1, h2, h3, h4⟩ :=
      settings_fields c _ (congrArg Prod.fst (testCollisions_settings w c))
    exact ⟨_, rfl, h1.trans hb, fun _ => ⟨h2, h3⟩, fun _ => h4⟩
  | setMaxSlope r => exact ⟨_, rfl, hb, fun h => absurd rfl (h r), fun _ => rfl⟩
  | _ => exact ⟨_, rfl, hb, fun _ => ⟨rfl, rfl⟩, fun _ => rfl⟩

theorem runOps_slope (M : LinearMath) :
    ∀ (ops : List Op) (c : Controller), c.bounce_fix = false →
      c.m_maxSlopeCosine = M.btCos c.m_maxSlopeRadians →
      ∃ c', runOps M c ops = some c' ∧ c'.m_maxSlopeCosine = M.btCos c'.m_maxSlopeRadians ∧
        c'.m_maxSlopeRadians = lastMaxSlope c.m_maxSlopeRadians ops := by
  intro ops
  induction ops with
  | nil =>
    intro c _ hc
    exact ⟨c, rfl, hc, rfl⟩
  | cons op ops ih =>
    intro c hb hc
    obtain ⟨c1, h1, hb1, hs, _⟩ := op_apply_settings M c op hb
    by_cases hop : ∃ r, op = Op.setMaxSlope r
    · obtain ⟨r, rfl⟩ := hop
      have hc1 : c1 = setMaxSlope M c r := (Option.some.inj h1).symm
      obtain ⟨c', h2, h3, h4⟩ := ih c1 hb1 (by rw [hc1]; rfl)
      refine ⟨c', ?_, h3, ?_⟩
      · rw [runOps, h1]
        exact h2
      · rw [h4, hc1]
        rfl
    · have hne : ∀ r, op ≠ Op.setMaxSlope r := fun r h => hop ⟨r, h⟩
      obtain ⟨hr, hcos⟩ := hs hne
      obtain ⟨c', h2, h3, h4⟩ := ih c1 hb1 (by rw [hcos, hr]; exact hc)
      refine ⟨c', ?_, h3, ?_⟩
      · rw [runOps, h1]
        exact h2
      · rw [h4, hr]
        cases op <;> first | rfl | exact absurd rfl (hne _)

theorem constructor_settings (M : LinearMath) (raw : Controller) (ghostObject : CollisionObject)
    (convexShapeMargin stepHeight : Scalar) (up : Vec3) :
    (hbrKinematicCharacterController M raw ghostObject convexShapeMargin stepHeight
      up).bounce_fix = false ∧
    (hbrKinematicCharacterController M raw ghostObject convexShapeMargin stepHeight
      up).m_maxSlopeRadians = btRadians M 45 ∧
    (hbrKinematicCharacterController M raw ghostObject convexShapeMargin stepHeight
      up).m_maxSlopeCosine = M.btCos (btRadians M 45) := by
  unfold hbrKinematicCharacterController
  dsimp only
  refine ⟨?_, rfl, rfl⟩
  show (setUp M _ up).bounce_fix = false
  rw [(setUp_settings M _ up).1]

/-- C17: every sequence of public operations on a constructed controller returns, and in the
state that it reaches the slope cosine is `btCos` of the slope angle and `getMaxSlope` is the
angle last passed to `setMaxSlope`, or `btRadians(45)` when `setMaxSlope` was not called. -/
theorem slope_cosine_follows_slope_angle (M : LinearMath) (raw : Controller)
    (ghostObject : CollisionObject) (convexShapeMargin stepHeight : Scalar) (up : Vec3)
    (ops : List Op) :
    ∃ c, runOps M
        (hbrKinematicCharacterController M raw ghostObject convexShapeMargin stepHeight up)
        ops = some c ∧
      c.m_maxSlopeCosine = M.btCos c.m_maxSlopeRadians ∧
      getMaxSlope c = lastMaxSlope (btRadians M 45) ops := by
  obtain ⟨hb, hr, hc⟩ := constructor_settings M raw ghostObject convexShapeMargin stepHeight up
  obtain ⟨c, h1, h2, h3⟩ := runOps_slope M ops _ hb (by rw [hc, hr])
  exact ⟨c, h1, h2, by rw [getMaxSlope, h3, hr]⟩

/-! ### The up vector is a normalised vector or zero -/

/-- C21 (as amended): the callback that the forward sweep builds has the negated sweep direction
`m_currentPosition - m_targetPosition` as its up vector and the slope threshold 0. For a hit on
another object with contact response and world normal n it accepts the hit when
n·(current - target) >= 0 and rejects it when n·(current - target) < 0; a hit on an object
without contact response is rejected. -/
theorem forward_filter_rejects_back_faces (c : Controller) (r : LocalConvexResult) (nws : Bool)
    (hother : r.m_hitCollisionObject.id ≠ c.m_ghostObject.id) :
    (r.m_hitCollisionObject.contactResponse = true →
      0 ≤ (c.m_currentPosition.sub c.m_targetPosition).dot
        (ConvexResultCallback.hitNormalWorld r nws) →
      (ConvexResultCallback.create c.m_ghostObject
          (c.m_currentPosition.sub c.m_targetPosition) 0).addSingleResult r nws =
        (ConvexResultCallback.create c.m_ghostObject
          (c.m_currentPosition.sub c.m_targetPosition) 0).baseAddSingleResult r nws) ∧
    (r.m_hitCollisionObject.contactResponse = true →
      (c.m_currentPosition.sub c.m_targetPosition).dot
        (ConvexResultCallback.hitNormalWorld r nws) < 0 →
      (ConvexResultCallback.create c.m_ghostObject
          (c.m_currentPosition.sub c.m_targetPosition) 0).addSingleResult r nws =
        (1, ConvexResultCallback.create c.m_ghostObject
          (c.m_currentPosition.sub c.m_targetPosition) 0)) ∧
    (r.m_hitCollisionObject.contactResponse = false →
      (ConvexResultCallback.create c.m_ghostObject
          (c.m_currentPosition.sub c.m_targetPosition) 0).addSingleResult r nws =
        (1, ConvexResultCallback.create c.m_ghostObject
          (c.m_currentPosition.sub c.m_targetPosition) 0)) := by
  refine ⟨?_, ?_, ?_⟩
  · intro hresp h
    simp only [ConvexResultCallback.addSingleResult, ConvexResultCallback.create, hother, hresp,
      if_false, Bool.not_true, Bool.false_eq_true]
    rw [if_neg (not_lt.mpr h)]
  · intro hresp h
    simp only [ConvexResultCallback.addSingleResult, ConvexResultCallback.create, hother, hresp,
      if_false, Bool.not_true, Bool.false_eq_true]
    rw [if_pos h]
  · intro hresp
    simp only [ConvexResultCallback.addSingleResult, ConvexResultCallback.create, hother, hresp,
      if_false, Bool.not_false, if_true]

/-- C21 (witness): for a move from the origin to (1, 0, 0), a hit on `body` with the normal
(-1, 0, 0), which faces the character, is accepted, and the hit `wallHit` with the normal
(1, 0, 0) is rejected. -/
theorem forward_filter_rejects_back_faces_witness :
    (ConvexResultCallback.create Examples.ghost ((⟨0, 0, 0⟩ : Vec3).sub ⟨1, 0, 0⟩)
        0).addSingleResult ⟨Examples.body, ⟨-1, 0, 0⟩, Vec3.zero, 1 / 2⟩ true =
      (ConvexResultCallback.create Examples.ghost ((⟨0, 0, 0⟩ : Vec3).sub ⟨1, 0, 0⟩)
        0).baseAddSingleResult ⟨Examples.body, ⟨-1, 0, 0⟩, Vec3.zero, 1 / 2⟩ true ∧
    (ConvexResultCallback.create Examples.ghost ((⟨0, 0, 0⟩ : Vec3).sub ⟨1, 0, 0⟩)
        0).addSingleResult Examples.wallHit true =
      (1, ConvexResultCallback.create Examples.ghost ((⟨0, 0, 0⟩ : Vec3).sub ⟨1, 0, 0⟩) 0) :=
  ⟨(forward_filter_rejects_back_faces
      { Examples.controller with m_targetPosition := ⟨1, 0, 0⟩ }
      ⟨Examples.body, ⟨-1, 0, 0⟩, Vec3.zero, 1 / 2⟩ true (by decide)).1 rfl (by decide!),
   (forward_filter_rejects_back_faces
      { Examples.controller with m_targetPosition := ⟨1, 0, 0⟩ }
      Examples.wallHit true (by decide)).2.1 rfl (by decide!)⟩

/-- C21 (counterexample): the character moves from the origin to (1, 0, 0) and the sweep
reports the hit `wallHit` on another object with contact response, whose normal (1, 0, 0) points
along the move. The filter rejects it because of its normal: the callback has no hit, and the
body of the loop takes the character to the target as if nothing were in the way. -/
theorem forward_filter_rejects_hit_by_normal :
    Examples.wallHit.m_hitCollisionObject.id ≠ Examples.ghost.id ∧
    Examples.wallHit.m_hitCollisionObject.contactResponse = true ∧
    ((ConvexResultCallback.create Examples.ghost ((⟨0, 0, 0⟩ : Vec3).sub ⟨1, 0, 0⟩)
        0).addSingleResult Examples.wallHit true).2.hasHit = false ∧
    (stepForwardAndStrafe.body Examples.math (Examples.hitWorld Examples.wallHit)
      ⟨{ Examples.controller with m_targetPosition := ⟨1, 0, 0⟩ }, 1, false,
        0⟩).2.c.m_currentPosition = ⟨1, 0, 0⟩ := by
  decide!

/-! ### Friction and drag -/

/-- C24 (as amended): when the character is grounded in this tick and in the previous one, the
resistance step scales the X and Z components of the local velocity by (1 - friction) and leaves
the Y component, whatever the up vector is; with a unit up vector along the Y axis this scales
the part perpendicular to up and leaves the component along up. Otherwise the step scales the
whole local velocity by (1 - drag). -/
theorem resistanceStep_friction_spares_y (c : Controller) :
    (c.m_wasOnGround = true → c.m_onGround = true →
      (playerStep.resistanceStep c).m_localVelocity =
        ⟨c.m_localVelocity.x * (1 - c.m_friction), c.m_localVelocity.y,
          c.m_localVelocity.z * (1 - c.m_friction)⟩ ∧
      (c.m_up.x = 0 → c.m_up.z = 0 → c.m_up.length2 = 1 →
        (playerStep.resistanceStep c).m_localVelocity.dot c.m_up = c.m_localVelocity.dot c.m_up ∧
        perpindicularComponent (playerStep.resistanceStep c).m_localVelocity c.m_up =
          (perpindicularComponent c.m_localVelocity c.m_up).scale (1 - c.m_friction))) ∧
    (¬ (c.m_wasOnGround = true ∧ c.m_onGround = true) →
      (playerStep.resistanceStep c).m_localVelocity =
        c.m_localVelocity.scale (1 - c.m_drag)) := by
  constructor
  · intro hw hg
    have hv : (playerStep.resistanceStep c).m_localVelocity =
        ⟨c.m_localVelocity.x * (1 - c.m_friction), c.m_localVelocity.y,
          c.m_localVelocity.z * (1 - c.m_friction)⟩ := by
      simp only [playerStep.resistanceStep, hw, hg, Bool.and_self, if_true, Vec3.add,
        Vec3.scale, Vec3.setY]
      ext <;> simp <;> ring
    refine ⟨hv, ?_⟩
    intro hx hz hl
    have hy : c.m_up.y * c.m_up.y = 1 := by
      simp only [Vec3.length2, Vec3.dot, hx, hz] at hl
      linarith
    rw [hv]
    constructor
    · simp only [Vec3.dot, hx, hz]
      ring
    · simp only [perpindicularComponent, parallelComponent, Vec3.sub, Vec3.scale, Vec3.dot, hx,
        hz]
      ext
      · simp
      · simp only [mul_zero, add_zero, zero_add]
        have h1 : c.m_localVelocity.y - c.m_up.y * (c.m_localVelocity.y * c.m_up.y) = 0 := by
          have : c.m_up.y * (c.m_localVelocity.y * c.m_up.y) =
              c.m_localVelocity.y * (c.m_up.y * c.m_up.y) := by ring
          rw [this, hy]
          ring
        rw [h1]
        ring
      · simp
  · intro h
    have hb : (c.m_wasOnGround && c.m_onGround) = false := by
      cases hw : c.m_wasOnGround <;> cases hg : c.m_onGround <;> simp_all
    simp only [playerStep.resistanceStep, hb, Bool.false_eq_true, if_false, Vec3.add, Vec3.scale]
    ext <;> simp <;> ring

/-- C24 (witness): the grounded example walker with up = (0, 1, 0), friction 1/10 and local
velocity (5, 0, 0) leaves the step with (9/2, 0, 0), and the airborne example controller keeps
its zero velocity under drag. -/
theorem resistanceStep_friction_spares_y_witness :
    (playerStep.resistanceStep Examples.yUpWalker).m_localVelocity = ⟨9 / 2, 0, 0⟩ ∧
    (playerStep.resistanceStep Examples.yUpWalker).m_localVelocity.dot
      Examples.yUpWalker.m_up = Examples.yUpWalker.m_localVelocity.dot Examples.yUpWalker.m_up ∧
    (playerStep.resistanceStep Examples.controller).m_localVelocity =
      Examples.controller.m_localVelocity.scale (1 - Examples.controller.m_drag) :=
  ⟨((resistanceStep_friction_spares_y Examples.yUpWalker).1 rfl rfl).1.trans (by decide!),
   (((resistanceStep_friction_spares_y Examples.yUpWalker).1 rfl rfl).2 rfl rfl
      (by decide!)).1,
   (resistanceStep_friction_spares_y Examples.controller).2 (by decide)⟩

/-- C24 (counterexample): with up = (0, 0, 1), friction 1/2 and the local velocity (2, 6, 4) of
a character grounded in both ticks, the step yields (1, 6, 2): the component along up falls from
4 to 2, and the component 6 along Y, which is perpendicular to up, is not scaled. -/
theorem resistanceStep_scales_component_along_z_up :
    (playerStep.resistanceStep
      { Examples.zUpWalker with m_localVelocity := ⟨2, 6, 4⟩ }).m_localVelocity = ⟨1, 6, 2⟩ ∧
    Examples.zUpWalker.m_up = ⟨0, 0, 1⟩ ∧
    (playerStep.resistanceStep
      { Examples.zUpWalker with m_localVelocity := ⟨2, 6, 4⟩ }).m_localVelocity.dot
        Examples.zUpWalker.m_up = 2 ∧
    (⟨2, 6, 4⟩ : Vec3).dot Examples.zUpWalker.m_up = 4 := by
  decide!

/-! ### Step down of a rising character -/

/-- C25: for a state with a positive vertical velocity `stepDown` returns the state as it was:
no member changes and no sweep query is sent. -/
theorem stepDown_rising_is_noop (w : World) (c : Controller) (dt : Scalar)
    (hv : c.m_verticalVelocity > 0) :
    stepDown w c dt = some c ∧
    ∀ c', stepDown w c dt = some c' → c'.numSweepQueries = c.numSweepQueries := by
  have h : stepDown w c dt = some c := by
    unfold stepDown
    dsimp only
    rw [if_pos hv]
  refine ⟨h, ?_⟩
  intro c' hc
  rw [h] at hc
  rw [← Option.some.inj hc]

/-- C25 (witness): the example controller with the vertical velocity 3 in a world where every
sweep would report a floor. -/
theorem stepDown_rising_is_noop_witness :
    stepDown (Examples.hitWorld Examples.floorHit)
        { Examples.controller with m_verticalVelocity := 3 } 1 =
      some { Examples.controller with m_verticalVelocity := 3 } :=
  (stepDown_rising_is_noop (Examples.hitWorld Examples.floorHit)
    { Examples.controller with m_verticalVelocity := 3 } 1 (by decide!)).1

/-! ### Step up -/

theorem recoverFromPenetration_frame (w : World) (c : Controller) :
    ∃ g pairs n pos t, (recoverFromPenetration w c).2 =
      { c with m_ghostObject := g, ghostPairs := pairs, numRecoverCalls := n,
               m_currentPosition := pos, m_touchingContact := t } :=
  ⟨_, _, _, _, _, rfl⟩

theorem penetrationLoop_frame (w : World) :
    ∀ (k n : Nat) (c : Controller), n + k = 4 →
      ∃ g pairs m pos t, penetrationLoop w c n =
        { c with m_ghostObject := g, ghostPairs := pairs, numRecoverCalls := m,
                 m_currentPosition := pos, m_touchingContact := t } := by
  intro k
  induction k with
  | zero =>
    intro n c hk
    rw [penetrationLoop]
    have hn : n + 1 > 4 := by omega
    by_cases hp : (recoverFromPenetration w c).1 = true
    · simp only [hp, hn, if_true]
      exact ⟨_, _, _, _, _, rfl⟩
    · simp only [hp, Bool.false_eq_true, if_false]
      exact ⟨_, _, _, _, _, rfl⟩
  | succ k ih =>
    intro n c hk
    rw [penetrationLoop]
    by_cases hp : (recoverFromPenetration w c).1 = true
    · have hn : ¬ (n + 1 > 4) := by omega
      simp only [hp, hn, if_true, if_false]
      obtain ⟨g, pairs, m, pos, t, h⟩ := ih (n + 1)
        { (recoverFromPenetration w c).2 with m_touchingContact := true } (by omega)
      rw [h]
      exact ⟨_, _, _, _, _, rfl⟩
    · simp only [hp, Bool.false_eq_true, if_false]
      exact ⟨_, _, _, _, _, rfl⟩

/-- The penetration recovery changes the ghost object, its pair cache, the current position, the
flag `m_touchingContact` and the call counter, and nothing else. -/
theorem recoverLoop_frame (w : World) (c : Controller) :
    ∃ g pairs m pos t, recoverLoop w c =
      { c with m_ghostObject := g, ghostPairs := pairs, numRecoverCalls := m,
               m_currentPosition := pos, m_touchingContact := t } := by
  obtain ⟨g, pairs, m, pos, t, h⟩ :=
    penetrationLoop_frame w 4 0 { c with m_touchingContact := false } rfl
  exact ⟨g, pairs, m, pos, t, h⟩

theorem stepUp_probe_state (w : World) (c : Controller) :
    (stepUp.probe w c).2 =
      { c with
        m_targetPosition := c.m_currentPosition.add (c.m_up.scale (stepHeightOf c))
        numSweepQueries := c.numSweepQueries + 1 } := rfl

/-- The phase `stepUp` when the sweep has no accepted hit. -/
theorem stepUp_no_hit (w : World) (c : Controller)
    (h : (stepUp.probe w c).2.hitNeedsCollision (stepUp.probe w c).1 = false) :
    stepUp w c =
      { (stepUp.probe w c).2 with
        m_currentStepOffset := stepHeightOf c
        m_currentPosition := (stepUp.probe w c).2.m_targetPosition } := by
  unfold stepUp.probe at h ⊢
  unfold stepUp stepHeightOf
  dsimp only at h ⊢
  simp only [h, Bool.false_eq_true, if_false]

/-- The phase `stepUp` when the sweep has an accepted hit. -/
theorem stepUp_hit (w : World) (c : Controller)
    (h : (stepUp.probe w c).2.hitNeedsCollision (stepUp.probe w c).1 = true) :
    stepUp w c =
      stepUp.settle (recoverLoop w
        (stepUp.lift (stepUp.probe w c).2 (stepUp.probe w c).1 (stepHeightOf c))) := by
  unfold stepUp.probe at h ⊢
  unfold stepUp stepUp.settle stepUp.lift stepHeightOf
  dsimp only at h ⊢
  simp only [h, if_true]

/-- C29: when the upward sweep has no accepted hit, `stepUp` sets the step offset to h and the
current position to the old position + up * h, where h is the step height for a negative
vertical velocity and 0 otherwise; so a character that does not fall is not moved and gets the
step offset 0. -/
theorem stepUp_without_hit (w : World) (c : Controller)
    (h : (stepUp.probe w c).2.hitNeedsCollision (stepUp.probe w c).1 = false) :
    (stepUp w c).m_currentStepOffset =
      (if c.m_verticalVelocity < 0 then c.m_stepHeight else 0) ∧
    (stepUp w c).m_currentPosition =
      c.m_currentPosition.add
        (c.m_up.scale (if c.m_verticalVelocity < 0 then c.m_stepHeight else 0)) ∧
    (¬ c.m_verticalVelocity < 0 →
      (stepUp w c).m_currentStepOffset = 0 ∧
      (stepUp w c).m_currentPosition = c.m_currentPosition) := by
  rw [stepUp_no_hit w c h]
  refine ⟨rfl, rfl, ?_⟩
  intro hv
  constructor
  · show stepHeightOf c = 0
    simp [stepHeightOf, hv]
  · show c.m_currentPosition.add (c.m_up.scale (stepHeightOf c)) = c.m_currentPosition
    simp [stepHeightOf, hv, Vec3.add_scale_zero]

/-- C29 (witness): in a world without obstacles the falling example controller is lifted by its
step height 7/20 along up = (0, 1, 0), and the example controller at rest is not moved. -/
theorem stepUp_without_hit_witness :
    (stepUp Examples.emptyWorld Examples.falling).m_currentStepOffset = 7 / 20 ∧
    (stepUp Examples.emptyWorld Examples.falling).m_currentPosition = ⟨0, 7 / 20, 0⟩ ∧
    (stepUp Examples.emptyWorld Examples.controller).m_currentStepOffset = 0 ∧
    (stepUp Examples.emptyWorld Examples.controller).m_currentPosition = ⟨0, 0, 0⟩ :=
  ⟨(stepUp_without_hit Examples.emptyWorld Examples.falling (by decide!)).1.trans (by decide!),
   (stepUp_without_hit Examples.emptyWorld Examples.falling (by decide!)).2.1.trans
     (by decide!),
   ((stepUp_without_hit Examples.emptyWorld Examples.controller (by decide!)).2.2
     (by decide!)).1,
   ((stepUp_without_hit Examples.emptyWorld Examples.controller (by decide!)).2.2
     (by decide!)).2.trans (by decide!)⟩

/-! ### Step up with a hit -/

/-- A hit that a callback holds after a sweep passed its slope test: the callback keeps its up
vector and its threshold, and the recorded normal n has up·n >= threshold. -/
theorem convexSweepTest_slope (cb : ConvexResultCallback)
    (results : List (LocalConvexResult × Bool)) (h0 : cb.m_hitCollisionObject = none) :
    (cb.convexSweepTest results).m_hitCollisionObject ≠ none →
      cb.m_minSlopeDot ≤ cb.m_up.dot (cb.convexSweepTest results).m_hitNormalWorld := by
  have key := foldl_invariant
    (fun b : ConvexResultCallback => b.m_up = cb.m_up ∧ b.m_minSlopeDot = cb.m_minSlopeDot ∧
      (b.m_hitCollisionObject ≠ none → cb.m_minSlopeDot ≤ cb.m_up.dot b.m_hitNormalWorld))
    (fun acc r => (ConvexResultCallback.addSingleResult acc r.1 r.2).2) ?_ results cb
    ⟨rfl, rfl, fun h => absurd h0 h⟩
  · exact key.2.2
  · intro b r hb
    obtain ⟨h1, h2, h3⟩ := hb
    unfold ConvexResultCallback.addSingleResult
    dsimp only
    split_ifs with ha hb' hc
    · exact ⟨h1, h2, h3⟩
    · exact ⟨h1, h2, h3⟩
    · exact ⟨h1, h2, h3⟩
    · refine ⟨h1, h2, fun _ => ?_⟩
      show cb.m_minSlopeDot ≤ cb.m_up.dot (ConvexResultCallback.hitNormalWorld r.1 r.2)
      rw [← h1, ← h2]
      exact not_lt.mp hc

theorem hitNeedsCollision_hasHit (c : Controller) (cb : ConvexResultCallback)
    (h : c.hitNeedsCollision cb = true) : cb.m_hitCollisionObject ≠ none := by
  intro hn
  simp [Controller.hitNeedsCollision, hn] at h

/-- A callback that passes the hit test of the phases has a closest fraction below 1. -/
theorem hitNeedsCollision_fraction (c : Controller) (cb : ConvexResultCallback)
    (h : c.hitNeedsCollision cb = true) : cb.m_closestHitFraction < 1 := by
  unfold Controller.hitNeedsCollision at h
  by_cases hh : cb.hasHit = true
  · simpa [ConvexResultCallback.hasHit] using hh
  · simp [hh] at h

/-- An accepted hit of the upward sweep has a normal n with n·up <= -maxSlopeCosine. -/
theorem stepUp_probe_normal (w : World) (c : Controller)
    (h : (stepUp.probe w c).2.hitNeedsCollision (stepUp.probe w c).1 = true) :
    (stepUp.probe w c).1.m_hitNormalWorld.dot c.m_up ≤ -c.m_maxSlopeCosine := by
  have hh := hitNeedsCollision_hasHit _ _ h
  obtain ⟨results, hr⟩ : ∃ results, (stepUp.probe w c).1 =
      (ConvexResultCallback.create c.m_ghostObject c.m_up.neg
        c.m_maxSlopeCosine).convexSweepTest results := ⟨_, rfl⟩
  rw [hr] at hh ⊢
  have h2 := convexSweepTest_slope _ results rfl hh
  have h3 : c.m_maxSlopeCosine ≤ c.m_up.neg.dot
      ((ConvexResultCallback.create c.m_ghostObject c.m_up.neg
        c.m_maxSlopeCosine).convexSweepTest results).m_hitNormalWorld := h2
  rw [Vec3.neg_dot, Vec3.dot_comm] at h3
  linarith

theorem stepUp_lift_cases (c : Controller) (cb : ConvexResultCallback) (h : Scalar) :
    (cb.m_hitNormalWorld.dot c.m_up > 0 →
      (stepUp.lift c cb h).m_currentStepOffset = h * cb.m_closestHitFraction ∧
      (stepUp.lift c cb h).m_currentPosition =
        (if c.m_interpolateUp = true then
          Vec3.setInterpolate3 c.m_currentPosition c.m_targetPosition cb.m_closestHitFraction
        else c.m_targetPosition)) ∧
    (¬ cb.m_hitNormalWorld.dot c.m_up > 0 →
      (stepUp.lift c cb h).m_currentStepOffset = c.m_currentStepOffset ∧
      (stepUp.lift c cb h).m_currentPosition = c.m_currentPosition) ∧
    (stepUp.lift c cb h).m_ghostObject.worldTransform.origin =
      (stepUp.lift c cb h).m_currentPosition ∧
    (stepUp.lift c cb h).m_verticalOffset = c.m_verticalOffset ∧
    (stepUp.lift c cb h).m_stepHeight = c.m_stepHeight := by
  unfold stepUp.lift
  dsimp only
  refine ⟨?_, ?_, ?_, ?_, ?_⟩
  · intro hd
    rw [if_pos hd]
    split_ifs <;> exact ⟨rfl, rfl⟩
  · intro hd
    rw [if_neg hd]
    exact ⟨rfl, rfl⟩
  · rfl
  · split_ifs <;> rfl
  · split_ifs <;> rfl

/-- The step offset with which `stepUp` ends after an accepted hit. -/
theorem stepUp_hit_stepOffset (w : World) (c : Controller)
    (h : (stepUp.probe w c).2.hitNeedsCollision (stepUp.probe w c).1 = true) :
    (stepUp w c).m_currentStepOffset =
      (if c.m_verticalOffset > 0 then c.m_stepHeight
       else (stepUp.lift (stepUp.probe w c).2 (stepUp.probe w c).1
         (stepHeightOf c)).m_currentStepOffset) := by
  rw [stepUp_hit w c h]
  obtain ⟨_, _, _, h4, h5⟩ :=
    stepUp_lift_cases (stepUp.probe w c).2 (stepUp.probe w c).1 (stepHeightOf c)
  obtain ⟨g, pairs, m, pos, t, hr⟩ := recoverLoop_frame w
    (stepUp.lift (stepUp.probe w c).2 (stepUp.probe w c).1 (stepHeightOf c))
  rw [hr]
  unfold stepUp.settle
  dsimp only
  rw [h4, h5]
  have h6 : (stepUp.probe w c).2.m_verticalOffset = c.m_verticalOffset := rfl
  have h7 : (stepUp.probe w c).2.m_stepHeight = c.m_stepHeight := rfl
  rw [h6, h7]
  split_ifs <;> rfl

/-- C30 (as amended): for a falling character whose upward sweep has an accepted hit at the
fraction f, which is a closest fraction below 1 (`hasHit()`) on an object that passes the
collision filter, `stepUp` enters the penetration recovery with the state `stepUp.lift`. When the
normal of the hit has a positive component along up, that state has the step offset
stepHeight * f and the position interpolated between the old position and the old position +
up * stepHeight by f, or that target when up-interpolation is off; otherwise it has the old
step offset and the old position. With a positive slope cosine the normal of an accepted hit
never has a positive component along up. The step offset ends as the step height when the
vertical offset is positive, and as the one of that state otherwise. -/
theorem stepUp_with_hit (w : World) (c : Controller) (hv : c.m_verticalVelocity < 0)
    (h : (stepUp.probe w c).2.hitNeedsCollision (stepUp.probe w c).1 = true) :
    stepUp w c = stepUp.settle (recoverLoop w
      (stepUp.lift (stepUp.probe w c).2 (stepUp.probe w c).1 c.m_stepHeight)) ∧
    ((stepUp.probe w c).1.m_hitNormalWorld.dot c.m_up > 0 →
      (stepUp.lift (stepUp.probe w c).2 (stepUp.probe w c).1
        c.m_stepHeight).m_currentStepOffset =
          c.m_stepHeight * (stepUp.probe w c).1.m_closestHitFraction ∧
      (stepUp.lift (stepUp.probe w c).2 (stepUp.probe w c).1
        c.m_stepHeight).m_currentPosition =
          (if c.m_interpolateUp = true then
            Vec3.setInterpolate3 c.m_currentPosition
              (c.m_currentPosition.add (c.m_up.scale c.m_stepHeight))
              (stepUp.probe w c).1.m_closestHitFraction
          else c.m_currentPosition.add (c.m_up.scale c.m_stepHeight))) ∧
    (¬ (stepUp.probe w c).1.m_hitNormalWorld.dot c.m_up > 0 →
      (stepUp.lift (stepUp.probe w c).2 (stepUp.probe w c).1
        c.m_stepHeight).m_currentStepOffset = c.m_currentStepOffset ∧
      (stepUp.lift (stepUp.probe w c).2 (stepUp.probe w c).1
        c.m_stepHeight).m_currentPosition = c.m_currentPosition) ∧
    (0 < c.m_maxSlopeCosine → ¬ (stepUp.probe w c).1.m_hitNormalWorld.dot c.m_up > 0) ∧
    (stepUp w c).m_currentStepOffset =
      (if c.m_verticalOffset > 0 then c.m_stepHeight
       else (stepUp.lift (stepUp.probe w c).2 (stepUp.probe w c).1
         c.m_stepHeight).m_currentStepOffset) ∧
    (stepUp.probe w c).1.m_closestHitFraction < 1 := by
  have hs : stepHeightOf c = c.m_stepHeight := by simp [stepHeightOf, hv]
  have h1 := stepUp_hit w c h
  have h2 := stepUp_lift_cases (stepUp.probe w c).2 (stepUp.probe w c).1 c.m_stepHeight
  have h3 := stepUp_hit_stepOffset w c h
  have h4 := stepUp_probe_normal w c h
  rw [hs] at h1 h3
  have hup : (stepUp.probe w c).2.m_up = c.m_up := rfl
  have hpos : (stepUp.probe w c).2.m_currentPosition = c.m_currentPosition := rfl
  have hoff : (stepUp.probe w c).2.m_currentStepOffset = c.m_currentStepOffset := rfl
  have hint : (stepUp.probe w c).2.m_interpolateUp = c.m_interpolateUp := rfl
  have htar : (stepUp.probe w c).2.m_targetPosition =
      c.m_currentPosition.add (c.m_up.scale c.m_stepHeight) := by
    rw [stepUp_probe_state, hs]
  rw [hup, hpos, hoff, hint, htar] at h2
  refine ⟨h1, h2.1, h2.2.1, ?_, h3, hitNeedsCollision_fraction _ _ h⟩
  intro hc hd
  linarith

/-- C30 (witness): the falling example controller with the slope cosine -1, in a world whose
sweeps report the floor hit with the normal (0, 1, 0) at the fraction 1/2, enters the
penetration recovery with the step offset 7/20 * 1/2 and the position (0, 7/40, 0). -/
theorem stepUp_with_hit_witness :
    (stepUp.lift
      (stepUp.probe (Examples.hitWorld Examples.floorHit)
        { Examples.falling with m_maxSlopeCosine := -1 }).2
      (stepUp.probe (Examples.hitWorld Examples.floorHit)
        { Examples.falling with m_maxSlopeCosine := -1 }).1 (7 / 20)).m_currentStepOffset =
      7 / 20 * (1 / 2) ∧
    (stepUp.lift
      (stepUp.probe (Examples.hitWorld Examples.floorHit)
        { Examples.falling with m_maxSlopeCosine := -1 }).2
      (stepUp.probe (Examples.hitWorld Examples.floorHit)
        { Examples.falling with m_maxSlopeCosine := -1 }).1 (7 / 20)).m_currentPosition =
      ⟨0, 7 / 40, 0⟩ :=
  ⟨(((stepUp_with_hit (Examples.hitWorld Examples.floorHit)
      { Examples.falling with m_maxSlopeCosine := -1 } (by decide!) (by decide!)).2.1
        (by decide!)).1).trans (by decide!),
   (((stepUp_with_hit (Examples.hitWorld Examples.floorHit)
      { Examples.falling with m_maxSlopeCosine := -1 } (by decide!) (by decide!)).2.1
        (by decide!)).2).trans (by decide!)⟩

/-- C30 (counterexample): the falling example controller (slope cosine 1/2, step height 7/20,
vertical offset 0) under a ceiling: the upward sweep has an accepted hit with the normal
(0, -1, 0) at the fraction 1/2, the proxy has contact response and passes `needsCollision`.
The state before the penetration recovery has the step offset 0, not 7/40, and the old position
(0, 0, 0), not (0, 7/40, 0); `stepUp` ends with the step offset 0. -/
theorem stepUp_ceiling_hit_keeps_step_offset :
    Examples.falling.m_verticalVelocity < 0 ∧
    (stepUp.probe (Examples.hitWorld Examples.ceilingHit) Examples.falling).2.hitNeedsCollision
      (stepUp.probe (Examples.hitWorld Examples.ceilingHit) Examples.falling).1 = true ∧
    (stepUp.probe (Examples.hitWorld Examples.ceilingHit)
      Examples.falling).1.m_closestHitFraction = 1 / 2 ∧
    (stepUp.lift (stepUp.probe (Examples.hitWorld Examples.ceilingHit) Examples.falling).2
      (stepUp.probe (Examples.hitWorld Examples.ceilingHit) Examples.falling).1
      (7 / 20)).m_currentStepOffset = 0 ∧
    (stepUp.lift (stepUp.probe (Examples.hitWorld Examples.ceilingHit) Examples.falling).2
      (stepUp.probe (Examples.hitWorld Examples.ceilingHit) Examples.falling).1
      (7 / 20)).m_currentPosition = ⟨0, 0, 0⟩ ∧
    (stepUp (Examples.hitWorld Examples.ceilingHit) Examples.falling).m_currentStepOffset =
      0 := by
  refine ⟨by decide!, by decide!, by decide!, by decide!, by decide!, ?_⟩
  rw [stepUp_hit_stepOffset _ _ (by decide!)]
  decide!

/-! ### The loop of step down -/

/-- A pass of the loop of `stepDown` sends one or two sweep queries and changes the two
callbacks and the query counter, and nothing else. -/
theorem stepDown_probe_frame (w : World) (s : DownState) :
    ∃ n cb cb2, stepDown.probe w s =
        { s with c := { s.c with numSweepQueries := n }, callback := cb, callback2 := cb2 } ∧
      s.c.numSweepQueries + 1 ≤ n ∧ n ≤ s.c.numSweepQueries + 2 := by
  unfold stepDown.probe
  dsimp only
  split_ifs
  · exact ⟨_, _, _, rfl, by simp [Controller.sweep], by simp [Controller.sweep]⟩
  · exact ⟨_, _, _, rfl, by simp [Controller.sweep], by simp [Controller.sweep]⟩

theorem has_hit_bounce_fix_off (c : Controller) (cb cb2 : ConvexResultCallback)
    (hb : c.bounce_fix = false) :
    stepDown.has_hit c cb cb2 = some (c.hitNeedsCollision cb2) := by
  unfold stepDown.has_hit
  rw [if_neg (by simp [hb])]

theorem probe_bounce_fix (w : World) (s : DownState) (hb : s.c.bounce_fix = false) :
    (stepDown.probe w s).c.bounce_fix = false :=
  (frame_bounce_fix _ _ (probe_settings w s).1).trans hb

/-- A pass of the loop that the stair-smoothing branch has entered is the last one. -/
theorem stepDown_loop_runonce (w : World) (dt : Scalar) (orig : Vec3) (s : DownState)
    (hb : s.c.bounce_fix = false) (hr : s.runonce = true) :
    stepDown.loop w dt orig s = some (stepDown.probe w s) := by
  rw [stepDown.loop]
  dsimp only
  rw [has_hit_bounce_fix_off _ _ _ (probe_bounce_fix w s hb)]
  dsimp only
  rw [dif_neg (by simp [hr])]

/-- The loop ends after its first pass when the condition of the stair-smoothing branch does
not hold. -/
theorem stepDown_loop_once (w : World) (dt : Scalar) (orig : Vec3) (s : DownState)
    (hb : s.c.bounce_fix = false) (hn : ¬ stepDown.smooths dt (stepDown.probe w s)) :
    stepDown.loop w dt orig s = some (stepDown.probe w s) := by
  rw [stepDown.loop]
  dsimp only
  rw [has_hit_bounce_fix_off _ _ _ (probe_bounce_fix w s hb)]
  dsimp only
  rw [dif_neg]
  intro h
  apply hn
  unfold stepDown.smooths stepHeightOf
  exact ⟨h.1, h.2.1, h.2.2.1, (probe_settings w s).2.trans h.2.2.2.1, h.2.2.2.2⟩

/-- The loop makes a second and last pass, from the state `stepDown.retry`, when the condition
of the stair-smoothing branch holds after the first pass. -/
theorem stepDown_loop_twice (w : World) (dt : Scalar) (orig : Vec3) (s : DownState)
    (hb : s.c.bounce_fix = false) (hs : stepDown.smooths dt (stepDown.probe w s)) :
    stepDown.loop w dt orig s =
      some (stepDown.probe w (stepDown.retry orig (stepDown.probe w s))) := by
  have hb1 := probe_bounce_fix w s hb
  rw [stepDown.loop]
  dsimp only
  rw [has_hit_bounce_fix_off _ _ _ hb1]
  dsimp only
  unfold stepDown.smooths stepHeightOf at hs
  rw [dif_pos ⟨hs.1, hs.2.1, hs.2.2.1, (probe_settings w s).2.symm.trans hs.2.2.2.1, hs.2.2.2.2⟩]
  exact stepDown_loop_runonce w dt orig (stepDown.retry orig (stepDown.probe w s)) hb1 rfl

/-- A pass of the loop that the stair-smoothing branch has entered sends at most two sweep
queries, whatever the bounce fix is. -/
theorem stepDown_loop_queries_runonce (w : World) (dt : Scalar) (orig : Vec3)
    (s s' : DownState) (hr : s.runonce = true) (h : stepDown.loop w dt orig s = some s') :
    s'.c.numSweepQueries ≤ s.c.numSweepQueries + 2 := by
  obtain ⟨n, cb, cb2, hp, _, hn⟩ := stepDown_probe_frame w s
  rw [stepDown.loop] at h
  dsimp only at h
  split at h
  · exact absurd h (by simp)
  · rw [dif_neg (by simp [hr])] at h
    rw [← Option.some.inj h, hp]
    exact hn

/-- The loop of `stepDown` sends at most four sweep queries, whatever the bounce fix is. -/
theorem stepDown_loop_queries (w : World) (dt : Scalar) (orig : Vec3) (s s' : DownState)
    (h : stepDown.loop w dt orig s = some s') :
    s'.c.numSweepQueries ≤ s.c.numSweepQueries + 4 := by
  obtain ⟨n, cb, cb2, hp, _, hn⟩ := stepDown_probe_frame w s
  have hq : (stepDown.probe w s).c.numSweepQueries = n := by rw [hp]
  revert h
  rw [stepDown.loop]
  dsimp only
  generalize (if (stepDown.probe w s).c.m_verticalVelocity < 0 then
    -(stepDown.probe w s).c.m_verticalVelocity else 0) * dt = dv
  generalize (if (stepDown.probe w s).c.m_verticalVelocity < 0 then
    (stepDown.probe w s).c.m_stepHeight else 0) = sh
  split
  · intro h
    exact absurd h (by simp)
  · split_ifs with hc
    · intro h
      have h2 := stepDown_loop_queries_runonce w dt orig _ s' rfl h
      dsimp only at h2
      omega
    · intro h
      rw [← Option.some.inj h]
      omega

/-! ### Step down: landing and free fall -/

/-- The phase `stepDown` of a character that does not rise, with the bounce fix off, in terms of
the state at the exit of its loop. -/
theorem stepDown_of_loop (w : World) (c : Controller) (dt : Scalar) (s : DownState)
    (hv : ¬ c.m_verticalVelocity > 0) (hb : c.bounce_fix = false)
    (hloop : stepDown.loop w dt c.m_targetPosition (stepDown.entry c dt) = some s) :
    stepDown w c dt =
      some (if stepDown.lands s = true then
        { s.c with
          m_currentPosition := Vec3.setInterpolate3 s.c.m_currentPosition s.c.m_targetPosition
            s.callback.m_closestHitFraction
          full_drop := false
          m_verticalVelocity := 0
          m_verticalOffset := 0
          m_wasJumping := false
          m_onGround := true }
      else { s.c with full_drop := true, m_currentPosition := s.c.m_targetPosition }) := by
  have hsb : s.c.bounce_fix = false :=
    (frame_bounce_fix _ _ (stepDown_loop_settings w dt c.m_targetPosition 1 _ s
      (by simp [stepDown.entry]) hloop)).trans hb
  unfold stepDown
  dsimp only
  rw [if_neg hv]
  generalize hs : stepDown.loop w dt c.m_targetPosition _ = r
  have hr : r = some s := hs.symm.trans hloop
  rw [hr]
  dsimp only
  unfold stepDown.lands
  simp only [hsb, Bool.false_eq_true, if_false]
  split_ifs <;> rfl

/-- The state at the exit of the loop of `stepDown`, with the bounce fix off: the loop has made
one pass, or two when the condition of the stair-smoothing branch held after the first; it has
changed the target position and the query counter of the controller and nothing else; and the
target position is the one at entry lowered along up by the step offset plus the drop, which is
the step height after the stair-smoothing branch and the entry value of `downVelocity`
otherwise. -/
theorem stepDown_loop_result (w : World) (c : Controller) (dt : Scalar)
    (hb : c.bounce_fix = false) :
    ∃ s n, stepDown.loop w dt c.m_targetPosition (stepDown.entry c dt) = some s ∧
      (s.runonce = true ↔ stepDown.smooths dt (stepDown.probe w (stepDown.entry c dt))) ∧
      (s.runonce = false → s = stepDown.probe w (stepDown.entry c dt)) ∧
      (s.runonce = true → s = stepDown.probe w (stepDown.retry c.m_targetPosition
        (stepDown.probe w (stepDown.entry c dt)))) ∧
      s.c = { c with
        m_targetPosition := c.m_targetPosition.sub (c.m_up.scale (c.m_currentStepOffset +
          (if s.runonce = true then c.m_stepHeight else stepDown.downVelocity c dt)))
        numSweepQueries := n } ∧
      c.numSweepQueries + 1 ≤ n ∧ n ≤ c.numSweepQueries + 4 := by
  have hbe : (stepDown.entry c dt).c.bounce_fix = false := hb
  have he : (stepDown.entry c dt).c.numSweepQueries = c.numSweepQueries := rfl
  obtain ⟨n1, cb, cb2, hp, hn1, hn1'⟩ := stepDown_probe_frame w (stepDown.entry c dt)
  rw [he] at hn1 hn1'
  have hr1 : (stepDown.probe w (stepDown.entry c dt)).runonce = false := by
    rw [hp]
    rfl
  have hc1 : (stepDown.probe w (stepDown.entry c dt)).c =
      { (stepDown.entry c dt).c with numSweepQueries := n1 } := by
    rw [hp]
  by_cases hs : stepDown.smooths dt (stepDown.probe w (stepDown.entry c dt))
  · have hl := stepDown_loop_twice w dt c.m_targetPosition _ hbe hs
    obtain ⟨n2, cb', cb2', hp2, hn2, hn2'⟩ := stepDown_probe_frame w
      (stepDown.retry c.m_targetPosition (stepDown.probe w (stepDown.entry c dt)))
    have hvv : c.m_verticalVelocity < 0 := by
      by_contra hneg
      have h1 := hs.1
      rw [hc1] at h1
      have : (stepDown.entry c dt).c.m_verticalVelocity = c.m_verticalVelocity := rfl
      dsimp only at h1
      rw [this, if_neg hneg] at h1
      simp at h1
    have hq : (stepDown.retry c.m_targetPosition
        (stepDown.probe w (stepDown.entry c dt))).c.numSweepQueries = n1 := by
      simp only [stepDown.retry]
      rw [hc1]
    rw [hq] at hn2 hn2'
    have hr2 : (stepDown.probe w (stepDown.retry c.m_targetPosition
        (stepDown.probe w (stepDown.entry c dt)))).runonce = true := by
      rw [hp2]
      rfl
    have hc2 : (stepDown.probe w (stepDown.retry c.m_targetPosition
        (stepDown.probe w (stepDown.entry c dt)))).c =
        { (stepDown.retry c.m_targetPosition
            (stepDown.probe w (stepDown.entry c dt))).c with numSweepQueries := n2 } := by
      rw [hp2]
    refine ⟨_, n2, hl, ⟨fun _ => hs, fun _ => hr2⟩, ?_, fun _ => rfl, ?_, by omega, by omega⟩
    · intro h
      rw [hr2] at h
      exact absurd h (by simp)
    · rw [hr2, hc2]
      simp only [stepDown.retry]
      rw [hc1]
      simp only [stepDown.entry, stepHeightOf, hvv, if_true]
  · have hl := stepDown_loop_once w dt c.m_targetPosition _ hbe hs
    refine ⟨_, n1, hl, ⟨fun h => ?_, fun h => absurd h hs⟩, fun _ => rfl, ?_, ?_, hn1,
      by omega⟩
    · rw [hr1] at h
      exact absurd h (by simp)
    · intro h
      rw [hr1] at h
      exact absurd h (by simp)
    · rw [hr1, hc1]
      simp only [stepDown.entry, Bool.false_eq_true, if_false]

/-- C26: for a character that does not rise, with the bounce fix off, the loop of `stepDown`
returns; when at its exit the primary sweep has a hit (`hasHit()`: a closest fraction below 1)
that passes the collision filter, or the stair-smoothing branch was taken, `stepDown` puts the
position at the interpolation between the current position at entry and the drop target by the
hit fraction of the primary callback, clears the vertical velocity, the vertical offset, the
jumping flag and the full-drop flag, and sets `onGround`. The drop target is the target at
entry lowered along up by the step offset plus the step height after the stair-smoothing
branch, and plus the entry drop otherwise. A landing without the stair-smoothing branch has a
hit fraction below 1. -/
theorem stepDown_landing (w : World) (c : Controller) (dt : Scalar)
    (hv : c.m_verticalVelocity ≤ 0) (hb : c.bounce_fix = false) :
    ∃ s, stepDown.loop w dt c.m_targetPosition (stepDown.entry c dt) = some s ∧
      (stepDown.lands s = true →
        ∃ c', stepDown w c dt = some c' ∧
          c'.m_currentPosition = Vec3.setInterpolate3 c.m_currentPosition
            (c.m_targetPosition.sub (c.m_up.scale (c.m_currentStepOffset +
              (if s.runonce = true then c.m_stepHeight else stepDown.downVelocity c dt))))
            s.callback.m_closestHitFraction ∧
          c'.m_verticalVelocity = 0 ∧ c'.m_verticalOffset = 0 ∧ c'.m_onGround = true ∧
          c'.m_wasJumping = false ∧ c'.full_drop = false) ∧
      (s.runonce = false → stepDown.lands s = true →
        s.callback.m_closestHitFraction < 1) := by
  obtain ⟨s, n, hl, _, _, _, hc, _, _⟩ := stepDown_loop_result w c dt hb
  refine ⟨s, hl, fun hland => ?_, fun hr hland => ?_⟩
  · have h := stepDown_of_loop w c dt s (not_lt.mpr hv) hb hl
    rw [if_pos hland] at h
    refine ⟨_, h, ?_, rfl, rfl, rfl, rfl, rfl⟩
    show Vec3.setInterpolate3 s.c.m_currentPosition s.c.m_targetPosition
      s.callback.m_closestHitFraction = _
    rw [hc]
  · unfold stepDown.lands at hland
    rw [hr] at hland
    simp only [Bool.or_false, Bool.and_eq_true] at hland
    exact hitNeedsCollision_fraction _ _ hland.2

/-- C26 (witness): the falling example controller above a floor that the primary sweep hits at
the fraction 1/2, with dt = 1/10: the drop target is (0, -1/10, 0) and the character lands at
(0, -1/20, 0). -/
theorem stepDown_landing_witness :
    ∃ c', stepDown (Examples.hitWorld Examples.floorHit) Examples.falling (1 / 10) = some c' ∧
      c'.m_currentPosition = ⟨0, -1 / 20, 0⟩ ∧ c'.m_verticalVelocity = 0 ∧
      c'.m_onGround = true ∧ c'.full_drop = false := by
  obtain ⟨s, hs, h, _⟩ := stepDown_landing (Examples.hitWorld Examples.floorHit)
    Examples.falling (1 / 10) (by decide!) rfl
  have hn : ¬ stepDown.smooths (1 / 10) (stepDown.probe (Examples.hitWorld Examples.floorHit)
      (stepDown.entry Examples.falling (1 / 10))) := by
    unfold stepDown.smooths
    decide!
  have hs2 := stepDown_loop_once (Examples.hitWorld Examples.floorHit) (1 / 10)
    Examples.falling.m_targetPosition (stepDown.entry Examples.falling (1 / 10)) rfl hn
  have he : s = stepDown.probe (Examples.hitWorld Examples.floorHit)
      (stepDown.entry Examples.falling (1 / 10)) := Option.some.inj (hs.symm.trans hs2)
  obtain ⟨c', h1, h2, h3, _, h5, _, h7⟩ := h (by rw [he]; decide!)
  refine ⟨c', h1, ?_, h3, h5, h7⟩
  rw [h2, he]
  decide!

/-- The phase `stepDown` when neither probe of the first pass has a hit: free fall. -/
theorem stepDown_falls_no_hit (w : World) (c : Controller) (dt : Scalar)
    (hv : ¬ c.m_verticalVelocity > 0) (hb : c.bounce_fix = false)
    (h1 : (stepDown.probe w (stepDown.entry c dt)).callback.hasHit = false)
    (h2 : (stepDown.probe w (stepDown.entry c dt)).callback2.hasHit = false) :
    ∃ n, stepDown w c dt = some
      { c with
        m_targetPosition := c.m_targetPosition.sub
          (c.m_up.scale (c.m_currentStepOffset + stepDown.downVelocity c dt))
        numSweepQueries := n
        full_drop := true
        m_currentPosition := c.m_targetPosition.sub
          (c.m_up.scale (c.m_currentStepOffset + stepDown.downVelocity c dt)) } := by
  have hnone : ∀ (c0 : Controller) (cb : ConvexResultCallback), cb.hasHit = false →
      c0.hitNeedsCollision cb = false := by
    intro c0 cb h
    unfold Controller.hitNeedsCollision
    rw [h]
    rfl
  obtain ⟨s, n, hl, hiff, hone, _, hc, _, _⟩ := stepDown_loop_result w c dt hb
  have hns : ¬ stepDown.smooths dt (stepDown.probe w (stepDown.entry c dt)) := by
    intro hs
    have := hs.2.2.1
    rw [hnone _ _ h2] at this
    exact absurd this (by simp)
  have hr : s.runonce = false := by
    cases hrr : s.runonce with
    | false => rfl
    | true => exact absurd (hiff.mp hrr) hns
  have hse := hone hr
  have hland : ¬ stepDown.lands s = true := by
    unfold stepDown.lands
    rw [hr, hse, hnone _ _ h1]
    simp
  have h := stepDown_of_loop w c dt s hv hb hl
  rw [if_neg hland] at h
  refine ⟨n, ?_⟩
  rw [h, hc, hr]
  simp only [Bool.false_eq_true, if_false]

/-- C27 (as amended): for a character that does not rise, with the bounce fix off, when neither
downward probe has a hit, `stepDown` puts the current position at the target at entry lowered
along up by the step offset + d, sets the full-drop flag and leaves `onGround`, the vertical
velocity and the jumping flag. Here d = max(0, -verticalVelocity) * dt, replaced by the fall
speed when d is positive and exceeds the fall speed and the character was grounded in the
previous tick or is not jumping; with a fall speed that is not negative the test of the sign of
d is implied. -/
theorem stepDown_free_fall (w : World) (c : Controller) (dt : Scalar)
    (hv : c.m_verticalVelocity ≤ 0) (hb : c.bounce_fix = false)
    (h1 : (stepDown.probe w (stepDown.entry c dt)).callback.hasHit = false)
    (h2 : (stepDown.probe w (stepDown.entry c dt)).callback2.hasHit = false) :
    (∃ c', stepDown w c dt = some c' ∧
      c'.m_currentPosition = c.m_targetPosition.sub
        (c.m_up.scale (c.m_currentStepOffset + stepDown.downVelocity c dt)) ∧
      c'.full_drop = true ∧ c'.m_onGround = c.m_onGround ∧
      c'.m_verticalVelocity = c.m_verticalVelocity ∧ c'.m_wasJumping = c.m_wasJumping) ∧
    stepDown.downVelocity c dt =
      (if btMax 0 (-c.m_verticalVelocity) * dt > 0 ∧
          btMax 0 (-c.m_verticalVelocity) * dt > c.m_fallSpeed ∧
          (c.m_wasOnGround = true ∨ c.m_wasJumping = false) then c.m_fallSpeed
       else btMax 0 (-c.m_verticalVelocity) * dt) ∧
    (0 ≤ c.m_fallSpeed →
      stepDown.downVelocity c dt =
        (if btMax 0 (-c.m_verticalVelocity) * dt > c.m_fallSpeed ∧
            (c.m_wasOnGround = true ∨ c.m_wasJumping = false) then c.m_fallSpeed
         else btMax 0 (-c.m_verticalVelocity) * dt)) := by
  obtain ⟨n, h⟩ := stepDown_falls_no_hit w c dt (not_lt.mpr hv) hb h1 h2
  have hmax : (if c.m_verticalVelocity < 0 then -c.m_verticalVelocity else 0) =
      btMax 0 (-c.m_verticalVelocity) := by
    unfold btMax
    by_cases hneg : c.m_verticalVelocity < 0
    · rw [if_pos hneg, if_neg (by linarith)]
    · have h0 : c.m_verticalVelocity = 0 := le_antisymm hv (not_lt.mp hneg)
      rw [if_neg hneg, h0]
      simp
  have hd : stepDown.downVelocity c dt =
      (if btMax 0 (-c.m_verticalVelocity) * dt > 0 ∧
          btMax 0 (-c.m_verticalVelocity) * dt > c.m_fallSpeed ∧
          (c.m_wasOnGround = true ∨ c.m_wasJumping = false) then c.m_fallSpeed
       else btMax 0 (-c.m_verticalVelocity) * dt) := by
    unfold stepDown.downVelocity
    dsimp only
    rw [hmax]
  refine ⟨⟨_, h, rfl, rfl, rfl, rfl, rfl⟩, hd, ?_⟩
  intro hf
  rw [hd]
  by_cases hgt : btMax 0 (-c.m_verticalVelocity) * dt > c.m_fallSpeed
  · have hpos : btMax 0 (-c.m_verticalVelocity) * dt > 0 := lt_of_le_of_lt hf hgt
    simp only [hpos, hgt, true_and]
  · simp only [hgt, false_and, and_false, if_false]

/-- C27 (witness): the falling example controller in a world without obstacles, with dt = 1:
the drop is 1 and the character ends at (0, -1, 0) with the full-drop flag set. -/
theorem stepDown_free_fall_witness :
    ∃ c', stepDown Examples.emptyWorld Examples.falling 1 = some c' ∧
      c'.m_currentPosition = ⟨0, -1, 0⟩ ∧ c'.full_drop = true ∧ c'.m_onGround = false := by
  obtain ⟨⟨c', h1, h2, h3, h4, _⟩, _⟩ := stepDown_free_fall Examples.emptyWorld Examples.falling 1
    (by decide!) rfl (by decide!) (by decide!)
  exact ⟨c', h1, h2.trans (by decide!), h3, h4.trans rfl⟩

/-- C27 (counterexample): the example controller at rest (vertical velocity 0, not jumping)
with the fall speed -1, in a world without obstacles, with dt = 1. Here d = 0 exceeds the fall
speed, so the claim replaces d by -1 and puts the character at (0, 1, 0); `stepDown` tests
`downVelocity > 0.0` first, keeps d = 0 and leaves the character at (0, 0, 0). -/
theorem stepDown_keeps_zero_drop_above_negative_fall_speed :
    btMax 0 (-(0 : Scalar)) * 1 > -1 ∧
    Examples.controller.m_wasJumping = false ∧
    Examples.controller.m_targetPosition.sub
      (Examples.controller.m_up.scale (Examples.controller.m_currentStepOffset + -1)) =
        ⟨0, 1, 0⟩ ∧
    ∃ c', stepDown Examples.emptyWorld { Examples.controller with m_fallSpeed := -1 } 1 =
        some c' ∧
      c'.m_currentPosition = ⟨0, 0, 0⟩ := by
  refine ⟨by decide!, rfl, by decide!, ?_⟩
  obtain ⟨n, h⟩ := stepDown_falls_no_hit Examples.emptyWorld
    { Examples.controller with m_fallSpeed := -1 } 1 (by decide!) rfl (by decide!) (by decide!)
  refine ⟨_, h, ?_⟩
  dsimp only
  decide!

/-- The sweep queries of `stepDown`, whatever the bounce fix is. -/
theorem stepDown_queries (w : World) (c : Controller) (dt : Scalar) :
    ∀ c', stepDown w c dt = some c' → c'.numSweepQueries ≤ c.numSweepQueries + 4 := by
  have hl := stepDown_loop_queries w dt c.m_targetPosition
  unfold stepDown
  dsimp only
  by_cases hv : c.m_verticalVelocity > 0
  · rw [if_pos hv]
    intro c' h
    rw [← Option.some.inj h]
    omega
  · rw [if_neg hv]
    generalize hs : stepDown.loop w dt c.m_targetPosition _ = r
    cases r with
    | none =>
      intro c' h
      exact absurd h (by simp)
    | some s =>
      have h2 := hl _ s hs
      dsimp only at h2 ⊢
      split_ifs <;> intro c' h <;> rw [← Option.some.inj h] <;> exact h2

/-- C28: `stepDown` sends at most four sweep queries. With the bounce fix off its loop returns
after one pass, or after a second pass from the state `stepDown.retry` that the
stair-smoothing branch builds, in which the target is the target at entry lowered along up by
the step offset + the step height; and `stepDown` returns. -/
theorem stepDown_loop_runs_at_most_twice (w : World) (c : Controller) (dt : Scalar) :
    (∀ c', stepDown w c dt = some c' → c'.numSweepQueries ≤ c.numSweepQueries + 4) ∧
    (c.bounce_fix = false →
      (∃ s, stepDown.loop w dt c.m_targetPosition (stepDown.entry c dt) = some s ∧
        (s = stepDown.probe w (stepDown.entry c dt) ∨
          s = stepDown.probe w (stepDown.retry c.m_targetPosition
            (stepDown.probe w (stepDown.entry c dt)))) ∧
        (s.runonce = true →
          s.c.m_targetPosition = c.m_targetPosition.sub
            (c.m_up.scale (c.m_currentStepOffset + c.m_stepHeight)))) ∧
      ∃ c', stepDown w c dt = some c') := by
  refine ⟨stepDown_queries w c dt, fun hb => ⟨?_, stepDown_total w c dt hb⟩⟩
  obtain ⟨s, n, hl, _, hone, htwo, hc, _, _⟩ := stepDown_loop_result w c dt hb
  refine ⟨s, hl, ?_, ?_⟩
  · cases hr : s.runonce with
    | false => exact Or.inl (hone hr)
    | true => exact Or.inr (htwo hr)
  · intro hr
    rw [hc, hr]
    simp only [if_true]

/-- C28 (witness): the falling example controller with dt = 1/10 above a floor that only the
second sweep of a pass finds: the stair-smoothing branch is taken and `stepDown` returns after
at most four sweep queries. -/
theorem stepDown_loop_runs_at_most_twice_witness :
    stepDown.smooths (1 / 10)
      (stepDown.probe Examples.stairWorld (stepDown.entry Examples.falling (1 / 10))) ∧
    ∃ c', stepDown Examples.stairWorld Examples.falling (1 / 10) = some c' ∧
      c'.numSweepQueries ≤ 4 := by
  have h := stepDown_loop_runs_at_most_twice Examples.stairWorld Examples.falling (1 / 10)
  obtain ⟨c', hc'⟩ := (h.2 rfl).2
  refine ⟨?_, c', hc', h.1 c' hc'⟩
  unfold stepDown.smooths
  decide!

/-! ### The slide law -/

theorem reflection_length2 (d n : Vec3) (hd : d.length2 = 1) (hn : n.length2 = 1) :
    (computeReflectionDirection d n).length2 = 1 := by
  have e : (computeReflectionDirection d n).length2 =
      d.length2 - 4 * (d.dot n) * (d.dot n) + 4 * (d.dot n) * (d.dot n) * n.length2 := by
    simp only [computeReflectionDirection, Vec3.sub, Vec3.scale, Vec3.dot, Vec3.length2]
    ring
  rw [e, hd, hn]
  ring

theorem normalized_of_length2_one (M : LinearMath) (h1 : M.btSqrt 1 = 1) (v : Vec3)
    (hv : v.length2 = 1) : v.normalized M = v := by
  simp [Vec3.normalized, Vec3.length, hv, h1, Vec3.divScalar, Vec3.scale]

theorem slide_scale (m n : Vec3) (L : Scalar) (hL : L ≠ 0) :
    (((m.divScalar L).sub (n.scale ((m.divScalar L).dot n))).scale (1 * L)) =
      m.sub (n.scale (m.dot n)) := by
  simp only [Vec3.divScalar, Vec3.sub, Vec3.scale, Vec3.dot]
  ext <;> simp <;> field_simp

theorem Vec3.setY_zero : Vec3.zero.setY 0 = Vec3.zero := rfl

theorem foldr_min_comm (rs : List (LocalRayResult × Bool)) (a f : Scalar) :
    rs.foldr (fun r m => min r.1.m_hitFraction m) (min a f) =
      min f (rs.foldr (fun r m => min r.1.m_hitFraction m) a) := by
  induction rs with
  | nil => exact min_comm a f
  | cons r rs ih =>
    simp only [List.foldr_cons]
    rw [ih, min_left_comm]

theorem allHits_step_fraction (cb : hbrAllHitsRayResultCallback) (r : LocalRayResult)
    (b : Bool) :
    (cb.addSingleResult r b).2.a_closestHitFraction =
      min cb.a_closestHitFraction r.m_hitFraction := by
  unfold hbrAllHitsRayResultCallback.addSingleResult
  dsimp only
  split_ifs with h
  · exact (min_eq_right (le_of_lt h)).symm
  · exact (min_eq_left (not_lt.mp h)).symm

/-- The closest fraction that `hbrAllHitsRayResultCallback` holds after a sequence of results
is the minimum of the fraction it held before and of the fractions of the results. -/
theorem allHits_fraction (rs : List (LocalRayResult × Bool)) :
    ∀ cb : hbrAllHitsRayResultCallback,
      (cb.addResults rs).a_closestHitFraction =
        rs.foldr (fun r m => min r.1.m_hitFraction m) cb.a_closestHitFraction := by
  induction rs with
  | nil => intro cb; rfl
  | cons r rs ih =>
    intro cb
    show (hbrAllHitsRayResultCallback.addResults (cb.addSingleResult r.1 r.2).2
      rs).a_closestHitFraction = _
    rw [ih, allHits_step_fraction, List.foldr_cons, foldr_min_comm]

/-- The normal and the point that `hbrAllHitsRayResultCallback` holds after a sequence of
results: those of the first result whose fraction is below the fraction held before and is not
undercut by another result, and the ones held before when no result is below that fraction. -/
theorem allHits_record (rs : List (LocalRayResult × Bool)) :
    ∀ cb : hbrAllHitsRayResultCallback,
      (cb.addResults rs).m_rayFromWorld = cb.m_rayFromWorld ∧
      (cb.addResults rs).m_rayToWorld = cb.m_rayToWorld ∧
      ((∃ r ∈ rs, r.1.m_hitFraction < cb.a_closestHitFraction) →
        ∃ pre r post, rs = pre ++ r :: post ∧
          r.1.m_hitFraction < cb.a_closestHitFraction ∧
          (∀ x ∈ pre, x.1.m_hitFraction > r.1.m_hitFraction) ∧
          (∀ x ∈ post, x.1.m_hitFraction ≥ r.1.m_hitFraction) ∧
          (cb.addResults rs).a_closestHitFraction = r.1.m_hitFraction ∧
          (cb.addResults rs).m_closestHitNormalWorld = r.1.hitNormalWorld r.2 ∧
          (cb.addResults rs).m_closestHitPointWorld =
            Vec3.setInterpolate3 cb.m_rayFromWorld cb.m_rayToWorld r.1.m_hitFraction) ∧
      ((¬ ∃ r ∈ rs, r.1.m_hitFraction < cb.a_closestHitFraction) →
        (cb.addResults rs).a_closestHitFraction = cb.a_closestHitFraction ∧
        (cb.addResults rs).m_closestHitNormalWorld = cb.m_closestHitNormalWorld ∧
        (cb.addResults rs).m_closestHitPointWorld = cb.m_closestHitPointWorld) := by
  induction rs with
  | nil =>
    intro cb
    refine ⟨rfl, rfl, ?_, fun _ => ⟨rfl, rfl, rfl⟩⟩
    rintro ⟨r, hr, _⟩
    exact absurd hr (List.not_mem_nil _)
  | cons r rs ih =>
    intro cb
    have hstep : cb.addResults (r :: rs) =
        hbrAllHitsRayResultCallback.addResults (cb.addSingleResult r.1 r.2).2 rs := rfl
    obtain ⟨hf, ht, hyes, hno⟩ := ih (cb.addSingleResult r.1 r.2).2
    have hfrom : (cb.addSingleResult r.1 r.2).2.m_rayFromWorld = cb.m_rayFromWorld := by
      unfold hbrAllHitsRayResultCallback.addSingleResult
      dsimp only
      split_ifs <;> rfl
    have hto : (cb.addSingleResult r.1 r.2).2.m_rayToWorld = cb.m_rayToWorld := by
      unfold hbrAllHitsRayResultCallback.addSingleResult
      dsimp only
      split_ifs <;> rfl
    rw [hstep]
    by_cases hlt : r.1.m_hitFraction < cb.a_closestHitFraction
    · -- the head is taken
      have ha : (cb.addSingleResult r.1 r.2).2.a_closestHitFraction = r.1.m_hitFraction := by
        rw [allHits_step_fraction]
        exact min_eq_right (le_of_lt hlt)
      have hn : (cb.addSingleResult r.1 r.2).2.m_closestHitNormalWorld =
          r.1.hitNormalWorld r.2 := by
        unfold hbrAllHitsRayResultCallback.addSingleResult
        dsimp only
        rw [if_pos hlt]
      have hp : (cb.addSingleResult r.1 r.2).2.m_closestHitPointWorld =
          Vec3.setInterpolate3 cb.m_rayFromWorld cb.m_rayToWorld r.1.m_hitFraction := by
        unfold hbrAllHitsRayResultCallback.addSingleResult
        dsimp only
        rw [if_pos hlt]
      refine ⟨hf.trans hfrom, ht.trans hto, fun _ => ?_, fun h => ?_⟩
      · by_cases hex : ∃ x ∈ rs, x.1.m_hitFraction <
            (cb.addSingleResult r.1 r.2).2.a_closestHitFraction
        · obtain ⟨pre, y, post, hrs, hy, hpre, hpost, h1, h2, h3⟩ := hyes hex
          rw [ha] at hy
          refine ⟨r :: pre, y, post, by rw [hrs]; rfl, lt_trans hy hlt, ?_, hpost, h1, h2, ?_⟩
          · intro x hx
            rcases List.mem_cons.mp hx with rfl | hx
            · exact hy
            · exact hpre x hx
          · rw [h3, hfrom, hto]
        · obtain ⟨h1, h2, h3⟩ := hno hex
          refine ⟨[], r, rs, rfl, hlt, fun x hx => absurd hx (List.not_mem_nil _), ?_,
            h1.trans ha, h2.trans hn, h3.trans hp⟩
          intro x hx
          by_contra hcon
          exact hex ⟨x, hx, by rw [ha]; exact not_le.mp hcon⟩
      · exact absurd ⟨r, List.mem_cons_self _ _, hlt⟩ h
    · -- the head is passed over
      have hkeep : (cb.addSingleResult r.1 r.2).2.a_closestHitFraction =
          cb.a_closestHitFraction := by
        rw [allHits_step_fraction]
        exact min_eq_left (not_lt.mp hlt)
      have hn : (cb.addSingleResult r.1 r.2).2.m_closestHitNormalWorld =
          cb.m_closestHitNormalWorld := by
        unfold hbrAllHitsRayResultCallback.addSingleResult
        dsimp only
        rw [if_neg hlt]
      have hp : (cb.addSingleResult r.1 r.2).2.m_closestHitPointWorld =
          cb.m_closestHitPointWorld := by
        unfold hbrAllHitsRayResultCallback.addSingleResult
        dsimp only
        rw [if_neg hlt]
      rw [hkeep] at hyes hno
      refine ⟨hf.trans hfrom, ht.trans hto, fun h => ?_, fun h => ?_⟩
      · have hex : ∃ x ∈ rs, x.1.m_hitFraction < cb.a_closestHitFraction := by
          obtain ⟨x, hx, hxl⟩ := h
          rcases List.mem_cons.mp hx with rfl | hx
          · exact absurd hxl hlt
          · exact ⟨x, hx, hxl⟩
        obtain ⟨pre, y, post, hrs, hy, hpre, hpost, h1, h2, h3⟩ := hyes hex
        refine ⟨r :: pre, y, post, by rw [hrs]; rfl, hy, ?_, hpost, h1, h2, ?_⟩
        · intro x hx
          rcases List.mem_cons.mp hx with rfl | hx
          · exact lt_of_lt_of_le hy (not_lt.mp hlt)
          · exact hpre x hx
        · rw [h3, hfrom, hto]
      · have hex : ¬ ∃ x ∈ rs, x.1.m_hitFraction < cb.a_closestHitFraction := by
          rintro ⟨x, hx, hxl⟩
          exact h ⟨x, List.mem_cons_of_mem _ hx, hxl⟩
        obtain ⟨h1, h2, h3⟩ := hno hex
        exact ⟨h1, h2.trans hn, h3.trans hp⟩

/-- C36 (as amended): after a sequence of ray results a fresh `hbrAllHitsRayResultCallback`
holds the closest fraction min(1, f1, ..., fn), and `hasHit` is true exactly when some fraction
is below 1. When some fraction is below 1, the closest normal and point are those of the first
result that attains the minimum; when none is, they are the values that the two members held
before the first call. -/
theorem allHits_records_first_minimum (rayFromWorld rayToWorld n0 p0 : Vec3)
    (rs : List (LocalRayResult × Bool)) :
    ((hbrAllHitsRayResultCallback.create rayFromWorld rayToWorld n0 p0).addResults
      rs).a_closestHitFraction = minFraction rs ∧
    (((hbrAllHitsRayResultCallback.create rayFromWorld rayToWorld n0 p0).addResults
      rs).hasHit = true ↔ ∃ r ∈ rs, r.1.m_hitFraction < 1) ∧
    ((∃ r ∈ rs, r.1.m_hitFraction < 1) →
      ∃ pre r post, rs = pre ++ r :: post ∧ r.1.m_hitFraction = minFraction rs ∧
        (∀ x ∈ pre, x.1.m_hitFraction > r.1.m_hitFraction) ∧
        ((hbrAllHitsRayResultCallback.create rayFromWorld rayToWorld n0 p0).addResults
          rs).m_closestHitNormalWorld = r.1.hitNormalWorld r.2 ∧
        ((hbrAllHitsRayResultCallback.create rayFromWorld rayToWorld n0 p0).addResults
          rs).m_closestHitPointWorld =
            Vec3.setInterpolate3 rayFromWorld rayToWorld r.1.m_hitFraction) ∧
    ((¬ ∃ r ∈ rs, r.1.m_hitFraction < 1) →
      ((hbrAllHitsRayResultCallback.create rayFromWorld rayToWorld n0 p0).addResults
        rs).m_closestHitNormalWorld = n0 ∧
      ((hbrAllHitsRayResultCallback.create rayFromWorld rayToWorld n0 p0).addResults
        rs).m_closestHitPointWorld = p0) := by
  have hmin := allHits_fraction rs
    (hbrAllHitsRayResultCallback.create rayFromWorld rayToWorld n0 p0)
  have hmin' : ((hbrAllHitsRayResultCallback.create rayFromWorld rayToWorld n0 p0).addResults
      rs).a_closestHitFraction = minFraction rs := hmin
  obtain ⟨_, _, hyes, hno⟩ := allHits_record rs
    (hbrAllHitsRayResultCallback.create rayFromWorld rayToWorld n0 p0)
  refine ⟨hmin', ?_, ?_, ?_⟩
  · constructor
    · intro hh
      by_contra hex
      have h1 := (hno hex).1
      unfold hbrAllHitsRayResultCallback.hasHit at hh
      rw [h1] at hh
      exact absurd (of_decide_eq_true hh) (lt_irrefl _)
    · intro hex
      obtain ⟨pre, y, post, _, hy, _, _, h1, _, _⟩ := hyes hex
      unfold hbrAllHitsRayResultCallback.hasHit
      rw [h1]
      exact decide_eq_true hy
  · intro hex
    obtain ⟨pre, y, post, hrs, _, hpre, _, h1, h2, h3⟩ := hyes hex
    exact ⟨pre, y, post, hrs, h1.symm.trans hmin', hpre, h2, h3⟩
  · intro hex
    exact (hno hex).2

/-- C36 (witness): the far result followed by the near one and by the far one again: the
callback holds the fraction 1/5, the normal (0, 1, 0) of the near result and the point
(2, 0, 0) on the ray from the origin to (10, 0, 0). -/
theorem allHits_records_first_minimum_witness :
    ((hbrAllHitsRayResultCallback.create ⟨0, 0, 0⟩ ⟨10, 0, 0⟩ Vec3.zero Vec3.zero).addResults
      [(Examples.farRay, true), (Examples.nearRay, true),
        (Examples.farRay, true)]).a_closestHitFraction = 1 / 5 ∧
    ∃ pre r post, [(Examples.farRay, true), (Examples.nearRay, true),
        (Examples.farRay, true)] = pre ++ r :: post ∧
      ((hbrAllHitsRayResultCallback.create ⟨0, 0, 0⟩ ⟨10, 0, 0⟩ Vec3.zero
        Vec3.zero).addResults [(Examples.farRay, true), (Examples.nearRay, true),
          (Examples.farRay, true)]).m_closestHitNormalWorld = r.1.hitNormalWorld r.2 := by
  have h := allHits_records_first_minimum ⟨0, 0, 0⟩ ⟨10, 0, 0⟩ Vec3.zero Vec3.zero
    [(Examples.farRay, true), (Examples.nearRay, true), (Examples.farRay, true)]
  refine ⟨h.1.trans (by decide!), ?_⟩
  obtain ⟨pre, r, post, h1, _, _, h4, _⟩ :=
    h.2.2.1 ⟨(Examples.nearRay, true), by simp, by decide!⟩
  exact ⟨pre, r, post, h1, h4⟩

/-- C36 (counterexample): a single result at the fraction 1, the end of the ray, with the
normal (0, 1, 0). It is the first result that attains min(1, 1) = 1, but the test
`a_closestHitFraction > rayResult.m_hitFraction` fails: the normal and the point stay at the
values that the members held before, here zero, and `hasHit` is false. -/
theorem allHits_ignores_result_at_fraction_one :
    minFraction [(Examples.endRay, true)] = Examples.endRay.m_hitFraction ∧
    Examples.endRay.hitNormalWorld true = ⟨0, 1, 0⟩ ∧
    ((hbrAllHitsRayResultCallback.create ⟨0, 0, 0⟩ ⟨10, 0, 0⟩ Vec3.zero Vec3.zero).addResults
      [(Examples.endRay, true)]).m_closestHitNormalWorld = ⟨0, 0, 0⟩ ∧
    Vec3.setInterpolate3 ⟨0, 0, 0⟩ ⟨10, 0, 0⟩ Examples.endRay.m_hitFraction = ⟨10, 0, 0⟩ ∧
    ((hbrAllHitsRayResultCallback.create ⟨0, 0, 0⟩ ⟨10, 0, 0⟩ Vec3.zero Vec3.zero).addResults
      [(Examples.endRay, true)]).m_closestHitPointWorld = ⟨0, 0, 0⟩ ∧
    ((hbrAllHitsRayResultCallback.create ⟨0, 0, 0⟩ ⟨10, 0, 0⟩ Vec3.zero Vec3.zero).addResults
      [(Examples.endRay, true)]).hasHit = false := by
  decide!

/-- The callback `hbrClosestRayResultCallback` never lowers `m_closestHitFraction`. -/
theorem closestRay_fraction_stays (cb : hbrClosestRayResultCallback) (r : LocalRayResult)
    (b : Bool) : (cb.addSingleResult r b).2.m_closestHitFraction = cb.m_closestHitFraction := by
  unfold hbrClosestRayResultCallback.addSingleResult
  dsimp only
  split_ifs <;> rfl

/-- C37: a fresh `hbrClosestRayResultCallback` on the ray from the origin to (10, 0, 0) that
receives the near result (on `body`, fraction 1/5) and then the far result (on `platform`,
fraction 4/5) holds the object, the normal and the point of the far result, and its closest
fraction is still 1; in the other order it holds those of the near result. -/
theorem closestRay_records_last_result :
    ((hbrClosestRayResultCallback.create ⟨0, 0, 0⟩ ⟨10, 0, 0⟩ Vec3.zero Vec3.zero).addResults
      [(Examples.nearRay, true), (Examples.farRay, true)]).m_collisionObject =
        some Examples.platform ∧
    ((hbrClosestRayResultCallback.create ⟨0, 0, 0⟩ ⟨10, 0, 0⟩ Vec3.zero Vec3.zero).addResults
      [(Examples.nearRay, true), (Examples.farRay, true)]).m_hitNormalWorld = ⟨1, 0, 0⟩ ∧
    ((hbrClosestRayResultCallback.create ⟨0, 0, 0⟩ ⟨10, 0, 0⟩ Vec3.zero Vec3.zero).addResults
      [(Examples.nearRay, true), (Examples.farRay, true)]).m_hitPointWorld = ⟨8, 0, 0⟩ ∧
    ((hbrClosestRayResultCallback.create ⟨0, 0, 0⟩ ⟨10, 0, 0⟩ Vec3.zero Vec3.zero).addResults
      [(Examples.nearRay, true), (Examples.farRay, true)]).m_closestHitFraction = 1 ∧
    ((hbrClosestRayResultCallback.create ⟨0, 0, 0⟩ ⟨10, 0, 0⟩ Vec3.zero Vec3.zero).addResults
      [(Examples.farRay, true), (Examples.nearRay, true)]).m_collisionObject =
        some Examples.body ∧
    ((hbrClosestRayResultCallback.create ⟨0, 0, 0⟩ ⟨10, 0, 0⟩ Vec3.zero Vec3.zero).addResults
      [(Examples.farRay, true), (Examples.nearRay, true)]).m_hitPointWorld = ⟨2, 0, 0⟩ := by
  decide!

/-! ### The reflection direction has unit length -/

/-- C38: for a unit direction d and a unit normal n the reflection direction has the squared
length 1, and with a square root that takes 1 to 1 its length is 1, so that its normalisation
divides by 1 and returns it. Hence, for a unit hit normal and a movement longer than
`SIMD_EPSILON`, at whose squared length the square root is exact, the call
`reflectDir.normalize()` of `updateTargetPositionBasedOnCollision` divides by 1. -/
theorem reflection_has_unit_length (M : LinearMath) (h1 : M.btSqrt 1 = 1) (n : Vec3)
    (hn : n.length2 = 1) :
    (∀ d : Vec3, d.length2 = 1 →
      (computeReflectionDirection d n).length2 = 1 ∧
      (computeReflectionDirection d n).length M = 1 ∧
      (computeReflectionDirection d n).length M ≠ 0 ∧
      (computeReflectionDirection d n).normalized M = computeReflectionDirection d n) ∧
    (∀ c : Controller, 0 ≤ M.SIMD_EPSILON →
      (c.m_targetPosition.sub c.m_currentPosition).length M *
        (c.m_targetPosition.sub c.m_currentPosition).length M =
          (c.m_targetPosition.sub c.m_currentPosition).length2 →
      (c.m_targetPosition.sub c.m_currentPosition).length M > M.SIMD_EPSILON →
      (computeReflectionDirection
        ((c.m_targetPosition.sub c.m_currentPosition).normalized M) n).length M = 1) := by
  have key : ∀ d : Vec3, d.length2 = 1 →
      (computeReflectionDirection d n).length2 = 1 ∧
      (computeReflectionDirection d n).length M = 1 ∧
      (computeReflectionDirection d n).length M ≠ 0 ∧
      (computeReflectionDirection d n).normalized M = computeReflectionDirection d n := by
    intro d hd
    have h2 := reflection_length2 d n hd hn
    have hl : (computeReflectionDirection d n).length M = 1 := by
      unfold Vec3.length
      rw [h2, h1]
    exact ⟨h2, hl, by rw [hl]; exact one_ne_zero, normalized_of_length2_one M h1 _ h2⟩
  refine ⟨key, ?_⟩
  intro c hE hL hgt
  have hne : (c.m_targetPosition.sub c.m_currentPosition).length M ≠ 0 :=
    ne_of_gt (lt_of_le_of_lt hE hgt)
  exact (key _ (Vec3.length2_divScalar _ _ hL hne)).2.1

/-- C38 (witness): the direction (3/5, 4/5, 0) reflected about the normal (1, 0, 0) is
(-3/5, 4/5, 0), of length 1. -/
theorem reflection_has_unit_length_witness :
    (computeReflectionDirection ⟨3 / 5, 4 / 5, 0⟩ ⟨1, 0, 0⟩).length Examples.math = 1 ∧
    computeReflectionDirection ⟨3 / 5, 4 / 5, 0⟩ ⟨1, 0, 0⟩ = ⟨-3 / 5, 4 / 5, 0⟩ :=
  ⟨((reflection_has_unit_length Examples.math (by decide!) ⟨1, 0, 0⟩ (by decide!)).1
      ⟨3 / 5, 4 / 5, 0⟩ (by decide!)).2.1, by decide!⟩

/-! ### The forward stage ends at its target -/

theorem body_updatePosition (M : LinearMath) (w : World) (s : ForwardState) :
    (stepForwardAndStrafe.body M w s).2.updatePosition = true := by
  unfold stepForwardAndStrafe.body
  dsimp only
  split_ifs <;> rfl

theorem loop_updatePosition (M : LinearMath) (w : World) :
    ∀ (n : Nat) (s : ForwardState), s.updatePosition = true →
      (stepForwardAndStrafe.loop M w n s).updatePosition = true := by
  intro n
  induction n with
  | zero =>
    intro s hs
    rw [stepForwardAndStrafe.loop]
    exact hs
  | succ n ih =>
    intro s hs
    rw [stepForwardAndStrafe.loop]
    dsimp only
    split_ifs
    · exact body_updatePosition M w s
    · exact ih _ (body_updatePosition M w s)
    · exact hs

/-- The loop of the forward stage, entered with the fraction 1, executes its body. -/
theorem loop_runs_once (M : LinearMath) (w : World) (n : Nat) (s : ForwardState)
    (hs : s.fraction = 1) :
    (stepForwardAndStrafe.loop M w (n + 1) s).updatePosition = true ∧
    s.iterations + 1 ≤ (stepForwardAndStrafe.loop M w (n + 1) s).iterations := by
  have hb := body_counts M w s
  rw [stepForwardAndStrafe.loop]
  dsimp only
  rw [if_pos (by rw [hs]; norm_num)]
  split_ifs
  · exact ⟨body_updatePosition M w s, by omega⟩
  · obtain ⟨k, _, h1, _⟩ := loop_counts M w n (stepForwardAndStrafe.body M w s).2
    exact ⟨loop_updatePosition M w n _ (body_updatePosition M w s), by omega⟩

/-- C32: `stepForwardAndStrafe` ends with the current position equal to the target position:
its loop executes the body at least once, the body sets `updatePosition`, and the statement
after the loop then copies the target position, on every path through the loop. -/
theorem stepForwardAndStrafe_ends_at_target (M : LinearMath) (w : World) (c : Controller)
    (walkMove : Vec3) :
    (stepForwardAndStrafe M w c walkMove).m_currentPosition =
      (stepForwardAndStrafe M w c walkMove).m_targetPosition ∧
    1 ≤ (stepForwardAndStrafe.run M w c walkMove).iterations ∧
    (stepForwardAndStrafe.run M w c walkMove).updatePosition = true ∧
    (stepForwardAndStrafe M w c walkMove).m_currentPosition =
      (stepForwardAndStrafe.loop M w 10
        ⟨{ c with m_targetPosition := c.m_currentPosition.add walkMove }, 1, false,
          0⟩).c.m_targetPosition := by
  obtain ⟨hu, hi⟩ := loop_runs_once M w 9
    ⟨{ c with m_targetPosition := c.m_currentPosition.add walkMove }, 1, false, 0⟩ rfl
  have hu' : (stepForwardAndStrafe.loop M w 10
      ⟨{ c with m_targetPosition := c.m_currentPosition.add walkMove }, 1, false,
        0⟩).updatePosition = true := hu
  have hi' : 1 ≤ (stepForwardAndStrafe.loop M w 10
      ⟨{ c with m_targetPosition := c.m_currentPosition.add walkMove }, 1, false,
        0⟩).iterations := hi
  unfold stepForwardAndStrafe stepForwardAndStrafe.run
  dsimp only
  rw [if_pos hu']
  exact ⟨rfl, hi', hu', rfl⟩

/-! ### A grounded character does not move down -/

/-- The last part of a tick keeps `m_onGround`, and it leaves a grounded character with no
downward local velocity. -/
theorem finish_grounded (w : World) (c : Controller) (xform : Transform) :
    (playerStep.finish w c xform).m_onGround = c.m_onGround ∧
    ((playerStep.finish w c xform).m_onGround = true →
      0 ≤ (playerStep.finish w c xform).m_localVelocity.y) := by
  have key : ∀ c1 : Controller,
      (testCollisions w (recoverLoop w c1)).m_onGround = c1.m_onGround ∧
      (testCollisions w (recoverLoop w c1)).m_localVelocity = c1.m_localVelocity := by
    intro c1
    obtain ⟨forces, hf⟩ := testCollisions_frame w (recoverLoop w c1)
    obtain ⟨g, pairs, m, pos, t, hr⟩ := recoverLoop_frame w c1
    rw [hf, hr]
    exact ⟨rfl, rfl⟩
  unfold playerStep.finish
  dsimp only
  rw [(key _).1, (key _).2]
  dsimp only [Controller.setGhostTransform]
  by_cases hc : (c.m_onGround && decide (c.m_localVelocity.y < 0)) = true
  · rw [if_pos hc]
    exact ⟨rfl, fun _ => le_refl _⟩
  · rw [if_neg hc]
    refine ⟨rfl, fun hg => ?_⟩
    by_contra hneg
    apply hc
    have hg' : c.m_onGround = true := hg
    have hlt : c.m_localVelocity.y < 0 := not_le.mp hneg
    simp [hg', hlt]

/-- C33: a tick that returns leaves a grounded character with a local velocity whose Y
component is not negative, for every time step and every world; and a tick of a controller with
the bounce fix off returns. -/
theorem grounded_has_no_downward_velocity (M : LinearMath) (w : World) (c : Controller)
    (dt : Scalar) :
    (∀ c', playerStep M w c dt = some c' → c'.m_onGround = true →
      0 ≤ (getLocalLinearVelocity c').y) ∧
    (c.bounce_fix = false → ∃ c', playerStep M w c dt = some c') ∧
    (∀ (c0 : Controller) (xform : Transform),
      (playerStep.finish w c0 xform).m_onGround = c0.m_onGround ∧
      ((playerStep.finish w c0 xform).m_onGround = true →
        0 ≤ (playerStep.finish w c0 xform).m_localVelocity.y)) := by
  refine ⟨?_, playerStep_total M w c dt, finish_grounded w⟩
  intro c' h hg
  unfold playerStep at h
  dsimp only at h
  split at h
  · exact absurd h (by simp)
  · rw [← Option.some.inj h] at hg ⊢
    exact (finish_grounded w _ _).2 hg

/-- C33 (witness): a grounded character with the local velocity (3, -2, 0) leaves the last part
of a tick grounded and with a Y component that is not negative, and a tick of the example
controller returns. -/
theorem grounded_has_no_downward_velocity_witness :
    (playerStep.finish Examples.emptyWorld
      { Examples.riding with m_localVelocity := ⟨3, -2, 0⟩ } Transform.identity).m_onGround =
        true ∧
    0 ≤ (playerStep.finish Examples.emptyWorld
      { Examples.riding with m_localVelocity := ⟨3, -2, 0⟩ }
        Transform.identity).m_localVelocity.y ∧
    ∃ c', playerStep Examples.math Examples.emptyWorld Examples.controller 1 = some c' := by
  have h := grounded_has_no_downward_velocity Examples.math Examples.emptyWorld
    Examples.controller 1
  have hf := h.2.2 { Examples.riding with m_localVelocity := ⟨3, -2, 0⟩ } Transform.identity
  exact ⟨hf.1, hf.2 hf.1, h.2.1 rfl⟩

/-! ### The normalised direction after reset -/

/-- The two setters of the walk direction store its guarded normalisation with it. -/
theorem walk_setters_normalize (M : LinearMath) (c : Controller) (v : Vec3) (t : Scalar) :
    (setWalkDirection M c v).m_normalizedDirection =
      getNormalizedVector M (setWalkDirection M c v).m_walkDirection ∧
    (setVelocityForTimeInterval M c v t).m_normalizedDirection =
      getNormalizedVector M (setVelocityForTimeInterval M c v t).m_walkDirection :=
  ⟨rfl, rfl⟩

/-- C34: the example controller after `setWalkDirection((1, 0, 0))` holds the normalised
direction (1, 0, 0) of its walk direction; after `reset` its walk direction is zero, whose
guarded normalisation is zero, and its normalised direction is still (1, 0, 0). -/
theorem reset_keeps_normalized_direction :
    (setWalkDirection Examples.math Examples.controller ⟨1, 0, 0⟩).m_normalizedDirection =
      getNormalizedVector Examples.math
        (setWalkDirection Examples.math Examples.controller ⟨1, 0, 0⟩).m_walkDirection ∧
    (reset (setWalkDirection Examples.math Examples.controller ⟨1, 0, 0⟩)).m_walkDirection =
      ⟨0, 0, 0⟩ ∧
    getNormalizedVector Examples.math
      (reset (setWalkDirection Examples.math Examples.controller ⟨1, 0, 0⟩)).m_walkDirection =
        ⟨0, 0, 0⟩ ∧
    (reset (setWalkDirection Examples.math Examples.controller
      ⟨1, 0, 0⟩)).m_normalizedDirection = ⟨1, 0, 0⟩ := by
  decide!

/-! ### Gravity set and read back -/

theorem Vec3.neg_scale_neg_one (g : Vec3) : g.neg.scale (-1) = g := by
  simp [Vec3.neg, Vec3.scale]

theorem Vec3.neg_eq_zero_iff (g : Vec3) : g.neg = Vec3.zero ↔ g = Vec3.zero := by
  constructor
  · intro h
    have hx := congrArg Vec3.x h
    have hy := congrArg Vec3.y h
    have hz := congrArg Vec3.z h
    simp only [Vec3.neg, Vec3.zero, neg_eq_zero] at hx hy hz
    ext <;> assumption
  · intro h
    rw [h]
    simp [Vec3.neg, Vec3.zero]

theorem sweep_none (w : World) (c : Controller)
    (hq : ∀ m s e, w.ghostSweep c.numSweepQueries m s e = [] ∧
      w.worldSweep c.numSweepQueries m s e = [])
    (g : Bool) (s e : Transform) (cb : ConvexResultCallback) :
    c.sweep w g s e cb = (cb, { c with numSweepQueries := c.numSweepQueries + 1 }) := by
  cases g <;>
    simp [Controller.sweep, (hq _ _ _).1, (hq _ _ _).2, ConvexResultCallback.convexSweepTest]

theorem body_none (M : LinearMath) (w : World) (s : ForwardState)
    (hq : ∀ m s' e, w.ghostSweep s.c.numSweepQueries m s' e = [] ∧
      w.worldSweep s.c.numSweepQueries m s' e = []) :
    stepForwardAndStrafe.body M w s =
      (false, ⟨{ s.c with
          m_currentPosition := s.c.m_targetPosition
          numSweepQueries := s.c.numSweepQueries +
            (if (!(Transform.same ⟨s.c.m_currentOrientation, s.c.m_currentPosition⟩
              ⟨s.c.m_targetOrientation, s.c.m_targetPosition⟩)) = true then 1 else 0) },
        s.fraction - 1, true, s.iterations + 1⟩) := by
  unfold stepForwardAndStrafe.body
  dsimp only
  by_cases h : (!(Transform.same ⟨s.c.m_currentOrientation, s.c.m_currentPosition⟩
      ⟨s.c.m_targetOrientation, s.c.m_targetPosition⟩)) = true
  · simp only [h, if_true]
    simp only [sweep_none w { s.c with shapeMargin := s.c.shapeMargin + s.c.m_addedMargin } hq,
      hitNeedsCollision_create, Bool.false_eq_true, if_false]
    rfl
  · simp only [h, if_false, hitNeedsCollision_create, Bool.false_eq_true]
    rfl

theorem loop_none (M : LinearMath) (w : World) (s : ForwardState) (hs : s.fraction = 1)
    (hq : ∀ m s' e, w.ghostSweep s.c.numSweepQueries m s' e = [] ∧
      w.worldSweep s.c.numSweepQueries m s' e = []) :
    stepForwardAndStrafe.loop M w 10 s =
      ⟨{ s.c with
          m_currentPosition := s.c.m_targetPosition
          numSweepQueries := s.c.numSweepQueries +
            (if (!(Transform.same ⟨s.c.m_currentOrientation, s.c.m_currentPosition⟩
              ⟨s.c.m_targetOrientation, s.c.m_targetPosition⟩)) = true then 1 else 0) },
        s.fraction - 1, true, s.iterations + 1⟩ := by
  rw [stepForwardAndStrafe.loop]
  dsimp only
  rw [if_pos (by rw [hs]; norm_num), body_none M w s hq]
  dsimp only
  rw [if_neg (by decide)]
  exact loop_stops M w 9 _ (by dsimp only; rw [hs]; norm_num)

/-- The forward stage when its sweep reports nothing: the character reaches the target. -/
theorem stepForwardAndStrafe_none (M : LinearMath) (w : World) (c : Controller)
    (walkMove : Vec3)
    (hq : ∀ m s e, w.ghostSweep c.numSweepQueries m s e = [] ∧
      w.worldSweep c.numSweepQueries m s e = []) :
    ∃ n, stepForwardAndStrafe M w c walkMove =
      { c with
        m_targetPosition := c.m_currentPosition.add walkMove
        m_currentPosition := c.m_currentPosition.add walkMove
        numSweepQueries := n } := by
  unfold stepForwardAndStrafe stepForwardAndStrafe.run
  dsimp only
  rw [loop_none M w _ rfl hq]
  dsimp only
  rw [if_pos rfl]
  exact ⟨_, rfl⟩

theorem displacement_algebra (p v e : Vec3) (dt : Scalar) (hdt : dt ≠ 0) :
    (((p.add ((v.scale dt).add (e.scale dt))).sub p).divScalar dt).sub e = v := by
  simp only [Vec3.add, Vec3.sub, Vec3.scale, Vec3.divScalar]
  ext <;> simp <;> field_simp <;> ring

/-- C35: for dt > 0 and a forward stage whose sweep reports nothing, entered with the walk move
v * dt + externalVelocity * dt, the stage ends at the old position + the walk move, and the
velocity (position after - position before) / dt - externalVelocity is v; the statement that
follows in `playerStep` stores it as the local velocity, with its Y component replaced by the
cached vertical velocity for an airborne character that moves down. The move offset of
`playerStep` is localVelocity * dt + externalVelocity * dt. -/
theorem displacement_recovers_velocity (M : LinearMath) (w : World) (c : Controller)
    (v : Vec3) (dt : Scalar) (hdt : dt > 0)
    (hq : ∀ m s e, w.ghostSweep c.numSweepQueries m s e = [] ∧
      w.worldSweep c.numSweepQueries m s e = []) :
    (stepForwardAndStrafe M w c
      ((v.scale dt).add (c.m_externalVelocity.scale dt))).m_currentPosition =
        c.m_currentPosition.add ((v.scale dt).add (c.m_externalVelocity.scale dt)) ∧
    ((((stepForwardAndStrafe M w c
      ((v.scale dt).add (c.m_externalVelocity.scale dt))).m_currentPosition.sub
        c.m_currentPosition).divScalar dt).sub
      (stepForwardAndStrafe M w c
        ((v.scale dt).add (c.m_externalVelocity.scale dt))).m_externalVelocity) = v ∧
    (playerStep.displacementStep
      (stepForwardAndStrafe M w c ((v.scale dt).add (c.m_externalVelocity.scale dt)))
      c.m_currentPosition dt).m_localVelocity =
        (if (!c.m_onGround && decide (c.m_verticalVelocity < 0)) = true then
          v.setY c.m_verticalVelocity else v) ∧
    (playerStep.offsetStep M c dt).m_moveOffset =
      (c.m_localVelocity.scale dt).add (c.m_externalVelocity.scale dt) := by
  obtain ⟨n, h⟩ := stepForwardAndStrafe_none M w c
    ((v.scale dt).add (c.m_externalVelocity.scale dt)) hq
  have ha := displacement_algebra c.m_currentPosition v c.m_externalVelocity dt (ne_of_gt hdt)
  rw [h]
  refine ⟨rfl, ha, ?_, rfl⟩
  unfold playerStep.displacementStep
  dsimp only
  rw [ha]
  split_ifs <;> rfl

/-- C35 (witness): the example character carried with the external velocity (1, 0, 0), in a
world without obstacles, with v = (2, 0, 0) and dt = 1/2: the stage moves it by (3/2, 0, 0) and
the recomputed local velocity is (2, 0, 0). -/
theorem displacement_recovers_velocity_witness :
    (stepForwardAndStrafe Examples.math Examples.emptyWorld Examples.carried
      (((⟨2, 0, 0⟩ : Vec3).scale (1 / 2)).add
        (Examples.carried.m_externalVelocity.scale (1 / 2)))).m_currentPosition =
          ⟨3 / 2, 0, 0⟩ ∧
    (playerStep.displacementStep
      (stepForwardAndStrafe Examples.math Examples.emptyWorld Examples.carried
        (((⟨2, 0, 0⟩ : Vec3).scale (1 / 2)).add
          (Examples.carried.m_externalVelocity.scale (1 / 2))))
      Examples.carried.m_currentPosition (1 / 2)).m_localVelocity = ⟨2, 0, 0⟩ :=
  ⟨(displacement_recovers_velocity Examples.math Examples.emptyWorld Examples.carried
      ⟨2, 0, 0⟩ (1 / 2) (by norm_num) (fun _ _ _ => ⟨rfl, rfl⟩)).1.trans (by decide!),
   (displacement_recovers_velocity Examples.math Examples.emptyWorld Examples.carried
      ⟨2, 0, 0⟩ (1 / 2) (by norm_num) (fun _ _ _ => ⟨rfl, rfl⟩)).2.2.1.trans (by decide!)⟩

/-! ### The speed cap over consecutive ticks -/

theorem angularStep_frame (M : LinearMath) (c : Controller) (dt : Scalar) :
    ∃ av g p t o1 o2, playerStep.angularStep M c dt =
      { c with m_AngVel := av, m_ghostObject := g, m_currentPosition := p,
               m_targetPosition := t, m_currentOrientation := o1, m_targetOrientation := o2 } := by
  unfold playerStep.angularStep
  dsimp only [Controller.setGhostTransform]
  split_ifs <;> exact ⟨_, _, _, _, _, _, rfl⟩

theorem inheritVelocity_frame (w : World) (c : Controller) (dt : Scalar) :
    ∃ e g, inheritVelocity w c dt =
      { c with m_externalVelocity := e, m_onGround := g,
               numSweepQueries := c.numSweepQueries + 1 } := by
  have h2 : (inheritVelocity.probe w c dt).2 =
      { c with numSweepQueries := c.numSweepQueries + 1 } := rfl
  unfold inheritVelocity
  dsimp only
  rw [h2]
  generalize (inheritVelocity.probe w c dt).1 = cb
  split_ifs
  · split <;> exact ⟨_, _, rfl⟩
  · exact ⟨_, _, rfl⟩

theorem resistanceStep_frame (c : Controller) :
    ∃ v, playerStep.resistanceStep c = { c with m_localVelocity := v } := by
  unfold playerStep.resistanceStep
  split_ifs <;> exact ⟨_, rfl⟩

theorem externalStep_onGround (M : LinearMath) (c : Controller) :
    (playerStep.externalStep M c).m_onGround = c.m_onGround := by
  unfold playerStep.externalStep
  dsimp only
  split_ifs <;> rfl

theorem externalStep_of_ground (M : LinearMath) (c : Controller) (h : c.m_onGround = true) :
    playerStep.externalStep M c = c := by
  unfold playerStep.externalStep
  simp [h]

/-- The velocity integration of a tick, in terms of the state after the ground probe. -/
theorem integrate_eq (M : LinearMath) (w : World) (c : Controller) (dt : Scalar) :
    playerStep.integrate M w c dt =
      playerStep.offsetStep M (playerStep.accelerationStep (playerStep.resistanceStep
        (playerStep.dampingStep M (playerStep.externalStep M (inheritVelocity w
          { { playerStep.angularStep M c dt with
              m_wasOnGround := (playerStep.angularStep M c dt).m_onGround } with
            m_onGround := false } dt)) dt)) dt) dt := rfl

theorem speedPhase_onGround (M : LinearMath) (c : Controller) (dt : Scalar) :
    (playerStep.offsetStep M (playerStep.accelerationStep (playerStep.resistanceStep
      (playerStep.dampingStep M (playerStep.externalStep M c) dt)) dt) dt).m_onGround =
        c.m_onGround := by
  obtain ⟨v, hv⟩ := resistanceStep_frame
    (playerStep.dampingStep M (playerStep.externalStep M c) dt)
  rw [hv]
  exact externalStep_onGround M c

theorem angularStep_fields (M : LinearMath) (c : Controller) (dt : Scalar) :
    (playerStep.angularStep M c dt).m_walkDirection = c.m_walkDirection ∧
    (playerStep.angularStep M c dt).m_up = c.m_up ∧
    (playerStep.angularStep M c dt).m_localVelocity = c.m_localVelocity ∧
    (playerStep.angularStep M c dt).m_acceleration = c.m_acceleration ∧
    (playerStep.angularStep M c dt).walkFrame.1 = c.walkFrame.1 ∧
    (playerStep.angularStep M c dt).numSweepQueries = c.numSweepQueries := by
  obtain ⟨av, g, p, t, o1, o2, ha⟩ := angularStep_frame M c dt
  rw [ha]
  exact ⟨rfl, rfl, rfl, rfl, rfl, rfl⟩

/-- The part of the velocity integration of a tick that begins with the ground probe, when the
probe grounds the character: the members that the speed cap reads stay, one sweep is sent, the
move offset is computed from the velocities with which the integration ends, and the speed
along the walk direction stays under the cap. -/
theorem speedPhase_speed_cap (M : LinearMath) (w : World) (c : Controller) (dt : Scalar)
    (hunit : c.m_walkDirection.length2 = 1) (hperp : c.m_up.dot c.m_walkDirection = 0)
    (hy : c.m_walkDirection.y = 0) (hM : 0 ≤ c.m_speedModifier * c.m_walkMaxSpeed)
    (hpow : 0 ≤ M.btPow (1 - c.m_linearDamping) dt ∧ M.btPow (1 - c.m_linearDamping) dt ≤ 1)
    (hfric : 0 ≤ c.m_friction ∧ c.m_friction ≤ 1) (hdrag : 0 ≤ c.m_drag ∧ c.m_drag ≤ 1)
    (hacc : c.m_acceleration = Vec3.zero)
    (hv : c.m_localVelocity.dot c.m_walkDirection ≤ c.m_speedModifier * c.m_walkMaxSpeed)
    (hg : (playerStep.offsetStep M (playerStep.accelerationStep (playerStep.resistanceStep
      (playerStep.dampingStep M (playerStep.externalStep M (inheritVelocity w c dt)) dt)) dt)
        dt).m_onGround = true) :
    (playerStep.offsetStep M (playerStep.accelerationStep (playerStep.resistanceStep
      (playerStep.dampingStep M (playerStep.externalStep M (inheritVelocity w c dt)) dt)) dt)
        dt).walkFrame.1 = c.walkFrame.1 ∧
    (playerStep.offsetStep M (playerStep.accelerationStep (playerStep.resistanceStep
      (playerStep.dampingStep M (playerStep.externalStep M (inheritVelocity w c dt)) dt)) dt)
        dt).numSweepQueries = c.numSweepQueries + 1 ∧
    (playerStep.offsetStep M (playerStep.accelerationStep (playerStep.resistanceStep
      (playerStep.dampingStep M (playerStep.externalStep M (inheritVelocity w c dt)) dt)) dt)
        dt).m_moveOffset =
      ((playerStep.offsetStep M (playerStep.accelerationStep (playerStep.resistanceStep
        (playerStep.dampingStep M (playerStep.externalStep M (inheritVelocity w c dt)) dt)) dt)
          dt).m_localVelocity.scale dt).add
        ((playerStep.offsetStep M (playerStep.accelerationStep (playerStep.resistanceStep
          (playerStep.dampingStep M (playerStep.externalStep M (inheritVelocity w c dt)) dt)) dt)
            dt).m_externalVelocity.scale dt) ∧
    (playerStep.offsetStep M (playerStep.accelerationStep (playerStep.resistanceStep
      (playerStep.dampingStep M (playerStep.externalStep M (inheritVelocity w c dt)) dt)) dt)
        dt).m_localVelocity.dot c.m_walkDirection ≤ c.m_speedModifier * c.m_walkMaxSpeed := by
  rw [speedPhase_onGround] at hg
  obtain ⟨e1, g1, hi⟩ := inheritVelocity_frame w c dt
  rw [hi] at hg ⊢
  have hg1 : g1 = true := hg
  rw [externalStep_of_ground M _ hg1]
  obtain ⟨v2, hv2⟩ := resistanceStep_frame (playerStep.dampingStep M
    { c with m_externalVelocity := e1, m_onGround := g1,
             numSweepQueries := c.numSweepQueries + 1 } dt)
  have hcap := speedSteps_dot_le M
    { c with m_externalVelocity := e1, m_onGround := g1,
             numSweepQueries := c.numSweepQueries + 1 } dt hunit hperp hy hM hg1 hpow hfric
    hdrag hacc hv
  rw [hv2] at hcap ⊢
  exact ⟨rfl, rfl, rfl, hcap⟩

/-- The velocity integration of a tick in which the ground probe grounds the character. -/
theorem integrate_speed_cap (M : LinearMath) (w : World) (c : Controller) (dt : Scalar)
    (hunit : c.m_walkDirection.length2 = 1) (hperp : c.m_up.dot c.m_walkDirection = 0)
    (hy : c.m_walkDirection.y = 0) (hM : 0 ≤ c.m_speedModifier * c.m_walkMaxSpeed)
    (hpow : 0 ≤ M.btPow (1 - c.m_linearDamping) dt ∧ M.btPow (1 - c.m_linearDamping) dt ≤ 1)
    (hfric : 0 ≤ c.m_friction ∧ c.m_friction ≤ 1) (hdrag : 0 ≤ c.m_drag ∧ c.m_drag ≤ 1)
    (hacc : c.m_acceleration = Vec3.zero)
    (hv : c.m_localVelocity.dot c.m_walkDirection ≤ c.m_speedModifier * c.m_walkMaxSpeed)
    (hg : (playerStep.integrate M w c dt).m_onGround = true) :
    (playerStep.integrate M w c dt).walkFrame.1 = c.walkFrame.1 ∧
    (playerStep.integrate M w c dt).numSweepQueries = c.numSweepQueries + 1 ∧
    (playerStep.integrate M w c dt).m_moveOffset =
      ((playerStep.integrate M w c dt).m_localVelocity.scale dt).add
        ((playerStep.integrate M w c dt).m_externalVelocity.scale dt) ∧
    (playerStep.integrate M w c dt).m_localVelocity.dot c.m_walkDirection ≤
      c.m_speedModifier * c.m_walkMaxSpeed := by
  obtain ⟨a1, a2, a3, a4, a5, a6⟩ := angularStep_fields M c dt
  rw [integrate_eq] at hg ⊢
  generalize hB : ({ { playerStep.angularStep M c dt with
        m_wasOnGround := (playerStep.angularStep M c dt).m_onGround } with
      m_onGround := false } : Controller) = B at hg ⊢
  have b1 : B.m_walkDirection = c.m_walkDirection := by rw [← hB]; exact a1
  have b2 : B.m_up = c.m_up := by rw [← hB]; exact a2
  have b3 : B.m_localVelocity = c.m_localVelocity := by rw [← hB]; exact a3
  have b4 : B.m_acceleration = c.m_acceleration := by rw [← hB]; exact a4
  have b5 : B.walkFrame.1 = c.walkFrame.1 := by rw [← hB]; exact a5
  have b6 : B.numSweepQueries = c.numSweepQueries := by rw [← hB]; exact a6
  have hsm : B.m_speedModifier = c.m_speedModifier := congrArg (fun f => f.1) b5
  have hwm : B.m_walkMaxSpeed = c.m_walkMaxSpeed := congrArg (fun f => f.2.1) b5
  have hld : B.m_linearDamping = c.m_linearDamping := congrArg (fun f => f.2.2.1) b5
  have hfr : B.m_friction = c.m_friction := congrArg (fun f => f.2.2.2.1) b5
  have hdr : B.m_drag = c.m_drag := congrArg (fun f => f.2.2.2.2) b5
  obtain ⟨h1, h2, h3, h4⟩ := speedPhase_speed_cap M w B dt (by rw [b1]; exact hunit)
    (by rw [b1, b2]; exact hperp) (by rw [b1]; exact hy) (by rw [hsm, hwm]; exact hM)
    (by rw [hld]; exact hpow) (by rw [hfr]; exact hfric) (by rw [hdr]; exact hdrag)
    (by rw [b4]; exact hacc) (by rw [b1, b3, hsm, hwm]; exact hv) hg
  refine ⟨h1.trans b5, h2.trans (by rw [b6]), h3, ?_⟩
  rw [b1, hsm, hwm] at h4
  exact h4

theorem stepUp_walkFrame (w : World) (c : Controller) :
    (stepUp w c).walkFrame = c.walkFrame ∧
    (stepUp w c).numSweepQueries = c.numSweepQueries + 1 := by
  by_cases h : (stepUp.probe w c).2.hitNeedsCollision (stepUp.probe w c).1 = true
  · rw [stepUp_hit w c h]
    obtain ⟨g, pairs, m, pos, t, hr⟩ := recoverLoop_frame w
      (stepUp.lift (stepUp.probe w c).2 (stepUp.probe w c).1 (stepHeightOf c))
    rw [hr, stepUp_probe_state]
    unfold stepUp.settle stepUp.lift
    dsimp only [Controller.setGhostTransform]
    split_ifs <;> exact ⟨rfl, rfl⟩
  · rw [stepUp_no_hit w c (Bool.eq_false_iff.mpr h), stepUp_probe_state]
    exact ⟨rfl, rfl⟩

theorem stepDown_walkFrame (w : World) (c c' : Controller) (dt : Scalar)
    (hb : c.bounce_fix = false) (h : stepDown w c dt = some c') :
    c'.walkFrame = c.walkFrame := by
  by_cases hv : c.m_verticalVelocity > 0
  · have hs : stepDown w c dt = some c := by
      unfold stepDown
      dsimp only
      rw [if_pos hv]
    rw [hs] at h
    rw [← Option.some.inj h]
  · obtain ⟨s, n, hl, _, _, _, hc, _, _⟩ := stepDown_loop_result w c dt hb
    rw [stepDown_of_loop w c dt s hv hb hl] at h
    rw [← Option.some.inj h]
    split_ifs
    · rw [hc]
      rfl
    · rw [hc]
      rfl

theorem finish_walkFrame (w : World) (c : Controller) (xform : Transform) :
    (playerStep.finish w c xform).walkFrame = c.walkFrame ∧
    (playerStep.finish w c xform).m_acceleration = Vec3.zero := by
  have key : ∀ c1 : Controller,
      (testCollisions w (recoverLoop w c1)).walkFrame = c1.walkFrame ∧
      (testCollisions w (recoverLoop w c1)).m_acceleration = c1.m_acceleration := by
    intro c1
    obtain ⟨forces, hf⟩ := testCollisions_frame w (recoverLoop w c1)
    obtain ⟨g, pairs, m, pos, t, hr⟩ := recoverLoop_frame w c1
    rw [hf, hr]
    exact ⟨rfl, rfl⟩
  unfold playerStep.finish
  dsimp only
  rw [(key _).1, (key _).2]
  split_ifs <;> exact ⟨rfl, rfl⟩

theorem dot_of_xz (a b d : Vec3) (hy : d.y = 0) (hx : a.x = b.x) (hz : a.z = b.z) :
    a.dot d = b.dot d := by
  simp only [Vec3.dot, hy, hx, hz, mul_zero]

/-- A tick on flat ground: when the velocity integration of the tick ends with a grounded
character and the forward sweep, the third sweep of the tick, reports nothing, the tick returns, keeps the members that the speed cap reads, ends with an empty
acceleration accumulator, and keeps the speed along the walk direction under the cap. -/
theorem playerStep_speed_cap (M : LinearMath) (w : World) (c : Controller) (dt : Scalar)
    (hb : c.bounce_fix = false)
    (hunit : c.m_walkDirection.length2 = 1) (hperp : c.m_up.dot c.m_walkDirection = 0)
    (hy : c.m_walkDirection.y = 0) (hM : 0 ≤ c.m_speedModifier * c.m_walkMaxSpeed)
    (hpow : 0 ≤ M.btPow (1 - c.m_linearDamping) dt ∧ M.btPow (1 - c.m_linearDamping) dt ≤ 1)
    (hfric : 0 ≤ c.m_friction ∧ c.m_friction ≤ 1) (hdrag : 0 ≤ c.m_drag ∧ c.m_drag ≤ 1)
    (hacc : c.m_acceleration = Vec3.zero)
    (hv : c.m_localVelocity.dot c.m_walkDirection ≤ c.m_speedModifier * c.m_walkMaxSpeed)
    (hdt : 0 < dt)
    (hg : (playerStep.integrate M w c dt).m_onGround = true)
    (hq : ∀ m s e, w.ghostSweep (c.numSweepQueries + 2) m s e = [] ∧
      w.worldSweep (c.numSweepQueries + 2) m s e = []) :
    ∃ c', playerStep M w c dt = some c' ∧ c'.settings = c.settings ∧
      c'.walkFrame.1 = c.walkFrame.1 ∧ c'.m_acceleration = Vec3.zero ∧
      c'.m_localVelocity.dot c.m_walkDirection ≤ c.m_speedModifier * c.m_walkMaxSpeed := by
  obtain ⟨c', hc'⟩ := playerStep_total M w c dt hb
  have hset : c'.settings = c.settings :=
    congrArg Prod.fst (playerStep_settings M w c c' dt hc')
  refine ⟨c', hc', hset, ?_⟩
  obtain ⟨k1, k2, k3, k4⟩ := integrate_speed_cap M w c dt hunit hperp hy hM hpow hfric hdrag
    hacc hv hg
  have hb1 : (playerStep.integrate M w c dt).bounce_fix = false :=
    (congrArg (fun f => f.1.bounce_fix) (integrate_settings M w c dt)).trans hb
  unfold playerStep at hc'
  dsimp only at hc'
  generalize playerStep.integrate M w c dt = c1 at hc' k1 k2 k3 k4 hb1
  obtain ⟨u1, u2⟩ := stepUp_walkFrame w c1
  have hb2 : (stepUp w c1).bounce_fix = false :=
    (frame_bounce_fix _ _ (stepUp_settings w c1)).trans hb1
  generalize stepUp w c1 = c2 at hc' u1 u2 hb2
  have hq2 : ∀ m s e, w.ghostSweep c2.numSweepQueries m s e = [] ∧
      w.worldSweep c2.numSweepQueries m s e = [] := by
    intro m s e
    rw [u2, k2]
    exact hq m s e
  have hmove : c2.m_moveOffset =
      (c1.m_localVelocity.scale dt).add (c2.m_externalVelocity.scale dt) := by
    have h1 : c2.m_moveOffset = c1.m_moveOffset := congrArg (fun f => f.2.1.2) u1
    have h2 : c2.m_externalVelocity = c1.m_externalVelocity := congrArg (fun f => f.2.1.1) u1
    rw [h1, h2]
    exact k3
  rw [hmove] at hc'
  obtain ⟨n, hf⟩ := stepForwardAndStrafe_none M w c2
    ((c1.m_localVelocity.scale dt).add (c2.m_externalVelocity.scale dt)) hq2
  have hd := (displacement_recovers_velocity M w c2 c1.m_localVelocity dt hdt hq2).2.2.1
  have hb4 : (playerStep.displacementStep
      (stepForwardAndStrafe M w c2
        ((c1.m_localVelocity.scale dt).add (c2.m_externalVelocity.scale dt)))
      c2.m_currentPosition dt).bounce_fix = false := by
    have hfr : (playerStep.displacementStep
        (stepForwardAndStrafe M w c2
          ((c1.m_localVelocity.scale dt).add (c2.m_externalVelocity.scale dt)))
        c2.m_currentPosition dt).frame = c2.frame := by
      rw [displacementStep_settings, stepForwardAndStrafe_settings]
    exact (frame_bounce_fix _ _ hfr).trans hb2
  have hw4 : (playerStep.displacementStep
      (stepForwardAndStrafe M w c2
        ((c1.m_localVelocity.scale dt).add (c2.m_externalVelocity.scale dt)))
      c2.m_currentPosition dt).walkFrame.1 = c2.walkFrame.1 := by
    rw [hf]
    unfold playerStep.displacementStep
    dsimp only
    split_ifs <;> rfl
  generalize playerStep.displacementStep
      (stepForwardAndStrafe M w c2
        ((c1.m_localVelocity.scale dt).add (c2.m_externalVelocity.scale dt)))
      c2.m_currentPosition dt = c4 at hc' hd hb4 hw4
  have hx4 : c4.m_localVelocity.x = c1.m_localVelocity.x ∧
      c4.m_localVelocity.z = c1.m_localVelocity.z := by
    rw [hd]
    split_ifs <;> exact ⟨rfl, rfl⟩
  cases hsd : stepDown w c4 dt with
  | none =>
    rw [hsd] at hc'
    exact absurd hc' (by simp)
  | some c5 =>
    rw [hsd] at hc'
    have h5 := stepDown_walkFrame w c4 c5 dt hb4 hsd
    have h6 := finish_walkFrame w c5 c1.m_ghostObject.worldTransform
    have hc'' : c' = playerStep.finish w c5 c1.m_ghostObject.worldTransform :=
      (Option.some.inj hc').symm
    rw [← hc''] at h6
    have htun : c'.walkFrame.1 = c.walkFrame.1 := by
      rw [congrArg (fun f => f.1) h6.1, congrArg (fun f => f.1) h5, hw4,
        congrArg (fun f => f.1) u1, k1]
    have hx : c'.m_localVelocity.x = c1.m_localVelocity.x := by
      have a := congrArg (fun f => f.2.2.1) h6.1
      have b := congrArg (fun f => f.2.2.1) h5
      exact (a.trans b).trans hx4.1
    have hz : c'.m_localVelocity.z = c1.m_localVelocity.z := by
      have a := congrArg (fun f => f.2.2.2) h6.1
      have b := congrArg (fun f => f.2.2.2) h5
      exact (a.trans b).trans hx4.2
    refine ⟨htun, h6.2, ?_⟩
    rw [dot_of_xz c'.m_localVelocity c1.m_localVelocity c.m_walkDirection hy hx hz]
    exact k4

theorem playerSteps_speed_cap (M : LinearMath) (w : World)
    (hpow : ∀ b e : Scalar, 0 ≤ b → b ≤ 1 → 0 ≤ e → 0 ≤ M.btPow b e ∧ M.btPow b e ≤ 1) :
    ∀ (dts : List Scalar) (c : Controller), c.bounce_fix = false →
      c.m_walkDirection.length2 = 1 → c.m_up.dot c.m_walkDirection = 0 →
      c.m_walkDirection.y = 0 → 0 ≤ c.m_speedModifier * c.m_walkMaxSpeed →
      (0 ≤ c.m_linearDamping ∧ c.m_linearDamping ≤ 1) →
      (0 ≤ c.m_friction ∧ c.m_friction ≤ 1) → (0 ≤ c.m_drag ∧ c.m_drag ≤ 1) →
      c.m_acceleration = Vec3.zero →
      c.m_localVelocity.dot c.m_walkDirection ≤ c.m_speedModifier * c.m_walkMaxSpeed →
      (∀ dt ∈ dts, 0 < dt) →
      (∀ (pre : List Scalar) (dt : Scalar) (post : List Scalar) (ck : Controller),
        dts = pre ++ dt :: post → playerSteps M w c pre = some ck →
        (playerStep.integrate M w ck dt).m_onGround = true ∧
        ∀ m s e, w.ghostSweep (ck.numSweepQueries + 2) m s e = [] ∧
          w.worldSweep (ck.numSweepQueries + 2) m s e = []) →
      ∃ c', playerSteps M w c dts = some c' ∧
        c'.m_localVelocity.dot c.m_walkDirection ≤ c.m_speedModifier * c.m_walkMaxSpeed := by
  intro dts
  induction dts with
  | nil =>
    intro c _ _ _ _ _ _ _ _ _ hv _ _
    exact ⟨c, rfl, hv⟩
  | cons dt dts ih =>
    intro c hb hunit hperp hy hM hdamp hfric hdrag hacc hv hdts hflat
    have hdt : 0 < dt := hdts dt (List.mem_cons_self _ _)
    obtain ⟨hg, hq⟩ := hflat [] dt dts c rfl rfl
    have hp := hpow (1 - c.m_linearDamping) dt (by linarith [hdamp.2]) (by linarith [hdamp.1])
      (le_of_lt hdt)
    obtain ⟨c1, h1, hset, htun, hacc1, hv1⟩ := playerStep_speed_cap M w c dt hb hunit hperp hy
      hM hp hfric hdrag hacc hv hdt hg hq
    have hwd : c1.m_walkDirection = c.m_walkDirection := congrArg Settings.m_walkDirection hset
    have hup : c1.m_up = c.m_up := congrArg Settings.m_up hset
    have hbf : c1.bounce_fix = c.bounce_fix := congrArg Settings.bounce_fix hset
    have hsm : c1.m_speedModifier = c.m_speedModifier := congrArg (fun f => f.1) htun
    have hwm : c1.m_walkMaxSpeed = c.m_walkMaxSpeed := congrArg (fun f => f.2.1) htun
    have hld : c1.m_linearDamping = c.m_linearDamping := congrArg (fun f => f.2.2.1) htun
    have hfr : c1.m_friction = c.m_friction := congrArg (fun f => f.2.2.2.1) htun
    have hdr : c1.m_drag = c.m_drag := congrArg (fun f => f.2.2.2.2) htun
    obtain ⟨c', h2, hv2⟩ := ih c1 (hbf.trans hb) (by rw [hwd]; exact hunit)
      (by rw [hwd, hup]; exact hperp) (by rw [hwd]; exact hy) (by rw [hsm, hwm]; exact hM)
      (by rw [hld]; exact hdamp) (by rw [hfr]; exact hfric) (by rw [hdr]; exact hdrag) hacc1
      (by rw [hwd, hsm, hwm]; exact hv1)
      (fun d hd => hdts d (List.mem_cons_of_mem _ hd))
      (by
        intro pre d post ck hsplit hrun
        refine hflat (dt :: pre) d post ck ?_ ?_
        · rw [hsplit]
          rfl
        · rw [playerSteps, h1]
          exact hrun)
    refine ⟨c', ?_, ?_⟩
    · rw [playerSteps, h1]
      exact h2
    · rw [hwd, hsm, hwm] at hv2
      exact hv2

/-- C7 (as amended): for a unit-length walk direction w that is perpendicular to up and has no
Y component (the friction step clears the Y component of the friction, whatever up is), with
speedModifier * walkMaxSpeed = M >= 0, linear damping, friction and drag in [0, 1], a `btPow`
that maps a base in [0, 1] and an exponent >= 0 into [0, 1], an empty acceleration accumulator
and localVelocity·w <= M: for dt >= 0 and a grounded character, localVelocity·w <= M after the
damping, resistance and acceleration steps; and every sequence of consecutive ticks with
dt > 0 and the bounce fix off, in each of which the velocity integration leaves the character
grounded and the forward sweep, the third sweep of the tick, reports nothing, returns and ends
with localVelocity·w <= M. -/
theorem speed_cap_invariant (M : LinearMath) (w : World) (c : Controller)
    (hunit : c.m_walkDirection.length2 = 1) (hperp : c.m_up.dot c.m_walkDirection = 0)
    (hy : c.m_walkDirection.y = 0) (hM : 0 ≤ c.m_speedModifier * c.m_walkMaxSpeed)
    (hdamp : 0 ≤ c.m_linearDamping ∧ c.m_linearDamping ≤ 1)
    (hpow : ∀ b e : Scalar, 0 ≤ b → b ≤ 1 → 0 ≤ e → 0 ≤ M.btPow b e ∧ M.btPow b e ≤ 1)
    (hfric : 0 ≤ c.m_friction ∧ c.m_friction ≤ 1) (hdrag : 0 ≤ c.m_drag ∧ c.m_drag ≤ 1)
    (hacc : c.m_acceleration = Vec3.zero)
    (hv : c.m_localVelocity.dot c.m_walkDirection ≤ c.m_speedModifier * c.m_walkMaxSpeed) :
    (∀ dt : Scalar, 0 ≤ dt → c.m_onGround = true →
      (playerStep.accelerationStep
        (playerStep.resistanceStep (playerStep.dampingStep M c dt)) dt).m_localVelocity.dot
          c.m_walkDirection ≤ c.m_speedModifier * c.m_walkMaxSpeed) ∧
    (∀ dts : List Scalar, c.bounce_fix = false → (∀ dt ∈ dts, 0 < dt) →
      (∀ (pre : List Scalar) (dt : Scalar) (post : List Scalar) (ck : Controller),
        dts = pre ++ dt :: post → playerSteps M w c pre = some ck →
        (playerStep.integrate M w ck dt).m_onGround = true ∧
        ∀ m s e, w.ghostSweep (ck.numSweepQueries + 2) m s e = [] ∧
          w.worldSweep (ck.numSweepQueries + 2) m s e = []) →
      ∃ c', playerSteps M w c dts = some c' ∧
        c'.m_localVelocity.dot c.m_walkDirection ≤ c.m_speedModifier * c.m_walkMaxSpeed) := by
  constructor
  · intro dt hdt hground
    exact speedSteps_dot_le M c dt hunit hperp hy hM hground
      (hpow (1 - c.m_linearDamping) dt (by linarith [hdamp.2]) (by linarith [hdamp.1]) hdt)
      hfric hdrag hacc hv
  · intro dts hb hdts hflat
    exact playerSteps_speed_cap M w hpow dts c hb hunit hperp hy hM hdamp hfric hdrag hacc hv
      hdts hflat

/-- C7 (witness): with up = (0, 1, 0), the walk direction (1, 0, 0), the walk max speed 5 and
dt = 1/60, a grounded character that moves at the speed 5 along the walk direction does not
exceed it after the three steps, nor after three consecutive ticks on the flat floor of the
example world, in each of which the ground probe finds the floor and the forward sweep reports
nothing: the ticks start with the query counters 0, 4 and 8. -/
theorem speed_cap_invariant_witness :
    (playerStep.accelerationStep
      (playerStep.resistanceStep (playerStep.dampingStep Examples.math Examples.yUpWalker
        (1 / 60))) (1 / 60)).m_localVelocity.dot Examples.yUpWalker.m_walkDirection ≤ 5 ∧
    ∃ c', playerSteps Examples.math Examples.flatGround Examples.yUpWalker
        [1 / 60, 1 / 60, 1 / 60] = some c' ∧
      c'.m_localVelocity.dot Examples.yUpWalker.m_walkDirection ≤ 5 := by
  have h := speed_cap_invariant Examples.math Examples.flatGround Examples.yUpWalker
    (by decide!) (by decide!) rfl (by decide!) (by decide!)
    (fun _ _ _ _ _ => ⟨zero_le_one, le_refl _⟩) (by decide!) (by decide!) rfl (by decide!)
  have h5 : Examples.yUpWalker.m_speedModifier * Examples.yUpWalker.m_walkMaxSpeed = 5 := by
    decide!
  rw [h5] at h
  have k0 : (playerStep.integrate Examples.math Examples.flatGround Examples.yUpWalker
      (1 / 60)).m_onGround = true := by decide!
  have k1 : (playerSteps Examples.math Examples.flatGround Examples.yUpWalker [1 / 60]).map
      (fun ck => ((playerStep.integrate Examples.math Examples.flatGround ck
        (1 / 60)).m_onGround, ck.numSweepQueries)) = some (true, 4) := by decide!
  have k2 : (playerSteps Examples.math Examples.flatGround Examples.yUpWalker
      [1 / 60, 1 / 60]).map
      (fun ck => ((playerStep.integrate Examples.math Examples.flatGround ck
        (1 / 60)).m_onGround, ck.numSweepQueries)) = some (true, 8) := by decide!
  refine ⟨h.1 (1 / 60) (by norm_num) rfl, h.2 [1 / 60, 1 / 60, 1 / 60] rfl ?_ ?_⟩
  · intro dt hdt
    simp only [List.mem_cons, List.mem_singleton, List.not_mem_nil, or_false, or_self] at hdt
    rw [hdt]
    norm_num
  · intro pre dt post ck hsplit hrun
    rcases pre with _ | ⟨a, _ | ⟨b, _ | ⟨d, pre⟩⟩⟩
    · have hd : dt = 1 / 60 := (List.head_eq_of_cons_eq hsplit).symm
      have hck : ck = Examples.yUpWalker := (Option.some.inj hrun).symm
      rw [hd, hck]
      exact ⟨k0, fun _ _ _ => ⟨rfl, rfl⟩⟩
    · simp only [List.cons_append, List.nil_append, List.cons.injEq] at hsplit
      obtain ⟨ha, hd, _⟩ := hsplit
      subst ha hd
      rw [hrun] at k1
      simp only [Option.map_some', Option.some.injEq, Prod.mk.injEq] at k1
      rw [k1.2]
      exact ⟨k1.1, fun _ _ _ => ⟨rfl, rfl⟩⟩
    · simp only [List.cons_append, List.nil_append, List.cons.injEq] at hsplit
      obtain ⟨ha, hb, hd, _⟩ := hsplit
      subst ha hb hd
      rw [hrun] at k2
      simp only [Option.map_some', Option.some.injEq, Prod.mk.injEq] at k2
      rw [k2.2]
      exact ⟨k2.1, fun _ _ _ => ⟨rfl, rfl⟩⟩
    · have hl := congrArg List.length hsplit
      simp at hl

end Hbr
